import Mathlib

/-!
# hpx::util::function — the type-erased callable container

A shallow embedding of `hpx/util/detail/vtable/vtable.hpp`,
`callable_vtable.hpp`, `copyable_vtable.hpp`, `hpx/util/detail/basic_function.hpp`
and `hpx/util/function.hpp`.

Conventions of the embedding.

* A payload type is a `Ty`; a payload object is an `Obj` (its type and its
  state). The user's payload types are described by an `Env`: their `sizeof`,
  whether they are pointer types, their call operator, their registered name
  and their payload-specific encoding.
* The storage slot `void* object` is a `Slot`: it holds pointer bits
  (`Slot.word`), an object living inside the slot (`Slot.obj`), or storage
  whose object has been destroyed (`Slot.dead`).
* The free store and the trace of payload-level operations (constructors,
  destructors, calls, `operator new/delete`) are the `World`.
* A C++ member function that mutates `*this` takes the container and the
  world and returns the new container and the new world.
* Where a member function takes another container by reference and the two
  may be the same object (move and copy assignment, the adopting `assign`),
  the containers live in a store indexed by address and the function takes
  the two addresses.
* Undefined behaviour (reading a slot as a type it does not hold) is `none`;
  a C++ exception is `Except.error`, returned together with the state the
  program is left in.
* Constructing a payload from a value of its type yields an object with that
  value's state. A payload that is itself a container is not represented.
* The headers `empty_function.hpp`, `function_vtable.hpp`,
  `serializable_function_vtable.hpp` and `function_registration.hpp` and the
  archives are not among the sources; what the embedding needs of them is
  modelled from the specification and marked so.
-/

namespace hpx
namespace util
namespace detail

/-- The decayed payload types a dispatch table can be built for:
`empty_function<Sig>` and the user's callable types, numbered. -/
inductive Ty
  | empty_function
  | user (n : Nat)
  deriving DecidableEq, Repr

/-- Values of `std::type_info`: `typeid(void)` and `typeid(T)`. -/
inductive type_info
  | void
  | of (T : Ty)
  deriving DecidableEq, Repr

/-- The exceptions that leave the container's operations. -/
inductive Error
  | InvokeOnEmpty
  | NameNotRegistered
  | archive_error
  | payload (code : Nat)
  deriving DecidableEq, Repr

/-- A payload object: the stateless `empty_function` or a user object of type
`user n` with state `s`. -/
inductive Obj (σ : Type)
  | empty_function
  | user (n : Nat) (s : σ)
  deriving DecidableEq, Repr

/-- The dynamic type of a payload object (its decayed type). -/
def Obj.type {σ : Type} : Obj σ → Ty
  | .empty_function => .empty_function
  | .user n _ => .user n

/-- A cell of the free store: a box holding a live object, a box whose object
has been destroyed but whose storage is still allocated, or a freed box. -/
inductive Box (σ : Type)
  | live (o : Obj σ)
  | destroyed
  | freed
  deriving DecidableEq, Repr

/-- The one-word storage slot `void* object`. -/
inductive Slot (σ : Type)
  | word (p : Nat)
  | obj (o : Obj σ)
  | dead
  deriving DecidableEq, Repr

/-- Payload-level operations, recorded in the order the program performs them. -/
inductive Event
  | default_ctor (T : Ty)
  | ctor (T : Ty)
  | copy_ctor (T : Ty)
  | dtor (T : Ty)
  | call (T : Ty)
  | op_new (p : Nat)
  | op_delete (p : Nat)
  | save_object (T : Ty)
  | load_object (T : Ty)
  deriving DecidableEq, Repr

/-- The free store (address `p ≥ 1` is cell `p - 1`; `0` is the null pointer)
and the trace of payload-level operations. -/
structure World (σ : Type) where
  heap : List (Box σ)
  log : List Event
  deriving DecidableEq, Repr

/-- One item of an archive stream. -/
inductive Tok
  | bool (b : Bool)
  | string (s : String)
  | byte (n : Nat)
  deriving DecidableEq, Repr

/-- The user's payload types, for a signature `R(A)`: `sizeof(T)`, whether `T`
is a pointer or member pointer, the test `f == 0`, the value-initialised
state, the call operator (result or exception, and the state afterwards), the
name the type is registered under and its payload-specific encoding. -/
structure Env (σ A R : Type) where
  sizeof : Nat → Nat
  is_pointer : Nat → Bool
  is_null : σ → Bool
  init : Nat → σ
  call : Nat → σ → A → Except Error R × σ
  name : Ty → String
  encode : Nat → σ → List Tok
  decode : Nat → List Tok → Option (σ × List Tok)

variable {σ A R : Type}

/-- The value of `sizeof(void*)`: one machine word. -/
def sizeof_void_ptr : Nat := 8

/-- The value of `sizeof(T)`; `empty_function` is an empty class. -/
def Env.size_of (env : Env σ A R) : Ty → Nat
  | .empty_function => 1
  | .user n => env.sizeof n

/-- The value-initialised object `T()`. -/
def Env.value_init (env : Env σ A R) : Ty → Obj σ
  | .empty_function => .empty_function
  | .user n => .user n (env.init n)

/-- The cell at address `p`; the null pointer addresses nothing. -/
def World.box (w : World σ) (p : Nat) : Option (Box σ) :=
  if p = 0 then none else w.heap.get? (p - 1)

/-- Appends an event to the trace. -/
def World.record (w : World σ) (e : Event) : World σ :=
  ⟨w.heap, w.log ++ [e]⟩

/-- The expression `new T(o)`: a fresh box holding `o`; returns its address. -/
def World.new (w : World σ) (o : Obj σ) : Nat × World σ :=
  (w.heap.length + 1, ⟨w.heap ++ [Box.live o], w.log ++ [Event.op_new (w.heap.length + 1)]⟩)

/-- Overwrites the cell at address `p ≥ 1`. -/
def World.store (w : World σ) (p : Nat) (b : Box σ) : World σ :=
  ⟨w.heap.set (p - 1) b, w.log⟩

/-- Modelled from the spec: `empty_function.hpp` is not among the sources. The
call operator of EmptyPayload: "invoking it fails", with InvokeOnEmpty. -/
def empty_function.operator_call : Except Error R :=
  .error .InvokeOnEmpty

/-- The call `util::invoke<R>(f, vs...)`: calls the payload through its call
operator; returns the result (or exception) and the payload afterwards. -/
def invoke (env : Env σ A R) : Obj σ → A → Except Error R × Obj σ
  | .empty_function, _ => (empty_function.operator_call, .empty_function)
  | .user n s, vs => ((env.call n s vs).1, .user n (env.call n s vs).2)

/-! ## vtable.hpp -/

/-- The base table: type identity, destruct, delete. -/
structure vtable (σ : Type) where
  get_type : type_info
  destruct : Slot σ → World σ → Option (Slot σ × World σ)
  delete_ : Slot σ → World σ → Option (Slot σ × World σ)

/-- Source `vtable::get<T>(v)`: the payload the slot refers to, read inline
when `sizeof(T) <= sizeof(void*)` and through the stored pointer otherwise.
`empty_function` has no state, so every slot content reads as the one
`empty_function` object; reading anything else as a `T` it is not is
undefined. -/
def vtable.get (env : Env σ A R) (T : Ty) (v : Slot σ) (w : World σ) : Option (Obj σ) :=
  if env.size_of T ≤ sizeof_void_ptr then
    match T, v with
    | .empty_function, _ => some .empty_function
    | .user n, .obj (.user m s) => if n = m then some (.user m s) else none
    | _, _ => none
  else
    match v with
    | .word p =>
      match w.box p with
      | some (.live o) => if o.type = T then some o else none
      | _ => none
    | _ => none

/-- Assignment through the reference `vtable::get<T>(v)` returns: the payload
is replaced where it lives, in the slot or in its box. -/
def vtable.put (env : Env σ A R) (T : Ty) (v : Slot σ) (o : Obj σ) (w : World σ) :
    Slot σ × World σ :=
  if env.size_of T ≤ sizeof_void_ptr then
    (.obj o, w)
  else
    match v with
    | .word p => (v, w.store p (.live o))
    | _ => (v, w)

/-- Source `vtable::default_construct<T>(v)`: placement-new of `T` in the slot,
or `*v = new T`. -/
def vtable.default_construct (env : Env σ A R) (T : Ty) (_v : Slot σ) (w : World σ) :
    Slot σ × World σ :=
  if env.size_of T ≤ sizeof_void_ptr then
    (.obj (env.value_init T), w.record (.default_ctor T))
  else
    (.word (w.new (env.value_init T)).1, (w.new (env.value_init T)).2.record (.default_ctor T))

/-- Source `vtable::construct<T>(v, arg)`: placement-new of `T(arg)` in the
slot, or `*v = new T(arg)`; `arg` is a value of type `T`. -/
def vtable.construct (env : Env σ A R) (T : Ty) (_v : Slot σ) (arg : Obj σ) (w : World σ) :
    Slot σ × World σ :=
  if env.size_of T ≤ sizeof_void_ptr then
    (.obj arg, w.record (.ctor T))
  else
    (.word (w.new arg).1, (w.new arg).2.record (.ctor T))

/-- Source `vtable::_get_type<T>()`: `typeid(T)`. -/
def vtable._get_type (T : Ty) : type_info :=
  .of T

/-- Source `vtable::_destruct<T>(v)`: `get<T>(v).~T()`. The storage stays: an
inline slot is left dead, a box is left allocated with its object destroyed. -/
def vtable._destruct (env : Env σ A R) (T : Ty) (v : Slot σ) (w : World σ) :
    Option (Slot σ × World σ) :=
  match vtable.get env T v w with
  | none => none
  | some _ =>
    if env.size_of T ≤ sizeof_void_ptr then
      some (.dead, w.record (.dtor T))
    else
      match v with
      | .word p => some (v, (w.store p .destroyed).record (.dtor T))
      | _ => none

/-- Source `vtable::_delete<T>(v)`: `_destruct<T>(v)` for an inline payload,
`delete &get<T>(v)` (destructor, then the box is freed) for a boxed one. -/
def vtable._delete (env : Env σ A R) (T : Ty) (v : Slot σ) (w : World σ) :
    Option (Slot σ × World σ) :=
  if env.size_of T ≤ sizeof_void_ptr then
    vtable._destruct env T v w
  else
    match vtable.get env T v w, v with
    | some _, .word p => some (v, ((w.store p .freed).record (.dtor T)).record (.op_delete p))
    | _, _ => none

/-- Source `vtable::reconstruct<T>(v, arg)`: `_destruct<T>(v)` and then
`construct<T>(v, arg)`. -/
def vtable.reconstruct (env : Env σ A R) (T : Ty) (v : Slot σ) (arg : Obj σ) (w : World σ) :
    Option (Slot σ × World σ) :=
  match vtable._destruct env T v w with
  | none => none
  | some r => some (vtable.construct env T r.1 arg r.2)

/-! ## callable_vtable.hpp, copyable_vtable.hpp -/

/-- The invoke layer: one entry, `invoke`. -/
structure callable_vtable (σ A R : Type) where
  invoke : Slot σ → A → World σ → Option (Except Error R × Slot σ × World σ)

/-- Source `callable_vtable<R(Ts...)>::_invoke<T>(f, vs...)`:
`util::invoke<R>(vtable::get<T>(f), vs...)`. The payload is called where it
lives; what the call does to its state is written back through the reference. -/
def callable_vtable._invoke (env : Env σ A R) (T : Ty) (f : Slot σ) (vs : A) (w : World σ) :
    Option (Except Error R × Slot σ × World σ) :=
  match vtable.get env T f w with
  | none => none
  | some o =>
    match o with
    | .empty_function => some ((detail.invoke env o vs).1, f, w.record (.call T))
    | .user _ _ =>
      some ((detail.invoke env o vs).1,
        vtable.put env T f (detail.invoke env o vs).2 (w.record (.call T)))

/-- The copy layer: one entry, `copy`. -/
structure copyable_vtable (σ : Type) where
  copy : Slot σ → Slot σ → World σ → Option (Slot σ × World σ)

/-- Source `copyable_vtable::_copy<T>(v, src)`: `new (v) T(get<T>(src))` for an
inline payload, `*v = new T(get<T>(src))` for a boxed one. -/
def copyable_vtable._copy (env : Env σ A R) (T : Ty) (_v : Slot σ) (src : Slot σ) (w : World σ) :
    Option (Slot σ × World σ) :=
  match vtable.get env T src w with
  | none => none
  | some o =>
    if env.size_of T ≤ sizeof_void_ptr then
      some (.obj o, w.record (.copy_ctor T))
    else
      some (.word (w.new o).1, (w.new o).2.record (.copy_ctor T))

/-! ## The table a container is bound to -/

/-- Modelled from the spec: `function_vtable.hpp` is not among the sources.
The table of a copyable container: the base, copy and invoke layers, and the
flag `empty` that `function_base::empty()` reads. -/
structure function_vtable (σ A R : Type) extends
    vtable σ, copyable_vtable σ, callable_vtable σ A R where
  empty : Bool

/-- Modelled from the spec: `serializable_function_vtable.hpp` is not among the
sources. The serialize layer on top of a table: "`name: string`,
`save(slot, writer)`, `load(slot, reader)`". -/
structure serializable_function_vtable (σ A R : Type) extends function_vtable σ A R where
  name : String
  save_object : Slot σ → World σ → List Tok → Option (List Tok × World σ)
  load_object : Slot σ → World σ → List Tok → Except Error Unit × Slot σ × World σ × List Tok

/-- Modelled from the spec: the table's save entry for `T`. It writes the
payload-specific bytes of the payload in the slot to the archive. -/
def serializable_function_vtable._save_object (env : Env σ A R) (T : Ty) (v : Slot σ)
    (w : World σ) (ar : List Tok) : Option (List Tok × World σ) :=
  match vtable.get env T v w with
  | none => none
  | some .empty_function => some (ar, w.record (.save_object T))
  | some (.user n s) => some (ar ++ env.encode n s, w.record (.save_object T))

/-- Modelled from the spec: the table's load entry for `T`. It reads the
payload-specific bytes with the decoding of `T` and builds the payload in the
slot ("reconstructs the payload in place"), inline or boxed as construction
does. When the bytes do not decode, the archive's error leaves the call and
nothing is built. -/
def serializable_function_vtable._load_object (env : Env σ A R) (T : Ty) (v : Slot σ)
    (w : World σ) (ar : List Tok) : Except Error Unit × Slot σ × World σ × List Tok :=
  match T with
  | .empty_function =>
    (.ok (), (vtable.default_construct env T v (w.record (.load_object T))).1,
      (vtable.default_construct env T v (w.record (.load_object T))).2, ar)
  | .user n =>
    match env.decode n ar with
    | none => (.error .archive_error, v, w.record (.load_object T), ar)
    | some r =>
      (.ok (), (vtable.construct env T v (.user n r.1) (w.record (.load_object T))).1,
        (vtable.construct env T v (.user n r.1) (w.record (.load_object T))).2, r.2)

/-- The table built from `construct_vtable<T>()`: every layer takes the entry
generated for `T`. Modelled from the spec for the parts the missing headers
hold: `empty` is true exactly for the table of EmptyPayload ("`empty()`: true
iff bound to the Empty Table"), and `name` is the name `T` is registered under. -/
def construct_vtable (env : Env σ A R) (T : Ty) : serializable_function_vtable σ A R where
  get_type := vtable._get_type T
  destruct := vtable._destruct env T
  delete_ := vtable._delete env T
  copy := copyable_vtable._copy env T
  invoke := callable_vtable._invoke env T
  empty := decide (T = .empty_function)
  name := env.name T
  save_object := serializable_function_vtable._save_object env T
  load_object := serializable_function_vtable._load_object env T

/-- A pointer to a table. The tables are statics: `function_base::empty_table`
and, for each `T`, the function-local static of `get_vtable<VTable, T>()`. Two
pointers are equal exactly when they point to the same static. The statics of
`function_base<OtherVTablePtr, Sig>`, for a table type `OtherVTablePtr`
convertible to `VTablePtr`, are other objects: `other_empty_table` and
`other_static_vtable T`. -/
inductive VTablePtr
  | empty_table
  | static_vtable (T : Ty)
  | other_empty_table
  | other_static_vtable (T : Ty)
  deriving DecidableEq, Repr

/-- The payload type a table was built for. Each `empty_table` is initialised
from `construct_vtable<empty_function<R(Ts...)> >()`. -/
def VTablePtr.type : VTablePtr → Ty
  | .empty_table => .empty_function
  | .static_vtable T => T
  | .other_empty_table => .empty_function
  | .other_static_vtable T => T

/-- The table a pointer points to. -/
def VTablePtr.deref (env : Env σ A R) (p : VTablePtr) : serializable_function_vtable σ A R :=
  construct_vtable env p.type

/-- Source `get_vtable<VTable, T>()`: the address of the function-local static
table built from `construct_vtable<T>()`. -/
def get_vtable (T : Ty) : VTablePtr :=
  .static_vtable T

/-! ## basic_function.hpp -/

/-- Source `is_empty_function(f)`: `f == 0` when `F` is a pointer or a member
pointer, `false` for every other payload type. -/
def is_empty_function (env : Env σ A R) : Obj σ → Bool
  | .empty_function => false
  | .user n s => if env.is_pointer n then env.is_null s else false

/-- The two fields of `function_base<VTablePtr, R(Ts...)>`. -/
structure function_base (σ : Type) where
  vptr : VTablePtr
  object : Slot σ
  deriving DecidableEq, Repr

namespace function_base

/-- Source `function_base::get_table_ptr<T>()`. -/
def get_table_ptr (T : Ty) : VTablePtr :=
  get_vtable T

/-- Source `function_base()`: `vptr(&empty_table)`, `object(0)`, then
`default_construct<empty_function>(&object)`. -/
def ctor (env : Env σ A R) (w : World σ) : function_base σ × World σ :=
  (⟨.empty_table, (vtable.default_construct env .empty_function (.word 0) w).1⟩,
    (vtable.default_construct env .empty_function (.word 0) w).2)

/-- Source `function_base(function_base&& other)`: the new container takes
`other.vptr` and `other.object`; `other` is rebound to `empty_table` and an
`empty_function` is default-constructed in its slot. Returns the new container,
`other` afterwards, and the world. -/
def move_ctor (env : Env σ A R) (other : function_base σ) (w : World σ) :
    function_base σ × function_base σ × World σ :=
  (⟨other.vptr, other.object⟩,
    ⟨.empty_table, (vtable.default_construct env .empty_function other.object w).1⟩,
    (vtable.default_construct env .empty_function other.object w).2)

/-- Source `~function_base()`: `vptr->delete_(&object)`. -/
def dtor (env : Env σ A R) (c : function_base σ) (w : World σ) : Option (World σ) :=
  match (c.vptr.deref env).delete_ c.object w with
  | none => none
  | some r => some r.2

/-- Source `function_base::empty()`: `vptr->empty`. -/
def empty (env : Env σ A R) (c : function_base σ) : Bool :=
  (c.vptr.deref env).empty

/-- Source `explicit operator bool()`: `!empty()`. -/
def operator_bool (env : Env σ A R) (c : function_base σ) : Bool :=
  !c.empty env

/-- Source `function_base::reset()`: when `vptr->empty` is false, the payload
is deleted through the table, the container is rebound to `empty_table` and an
`empty_function` is default-constructed in the slot. -/
def reset (env : Env σ A R) (c : function_base σ) (w : World σ) :
    Option (function_base σ × World σ) :=
  if !(c.vptr.deref env).empty then
    match (c.vptr.deref env).delete_ c.object w with
    | none => none
    | some r =>
      some (⟨.empty_table, (vtable.default_construct env .empty_function r.1 r.2).1⟩,
        (vtable.default_construct env .empty_function r.1 r.2).2)
  else
    some (c, w)

/-- Source `function_base::swap(f)`: `std::swap` of the two table pointers and
of the two slots. Returns `*this` and `f` afterwards. -/
def swap (c f : function_base σ) : function_base σ × function_base σ :=
  (⟨f.vptr, f.object⟩, ⟨c.vptr, c.object⟩)

/-- Source `function_base::target_type()`:
`empty() ? typeid(void) : vptr->get_type()`. -/
def target_type (env : Env σ A R) (c : function_base σ) : type_info :=
  if c.empty env then .void else (c.vptr.deref env).get_type

/-- Source `function_base::target<T>()`: null unless `vptr->get_type()` is
`typeid(T)`, and then `&vtable::get<T>(&object)`. The outer `Option` is
definedness, the inner one the pointer (null or the payload it points to). -/
def target (env : Env σ A R) (T : Ty) (c : function_base σ) (w : World σ) :
    Option (Option (Obj σ)) :=
  if (c.vptr.deref env).get_type ≠ .of T then
    some none
  else
    match vtable.get env T c.object w with
    | none => none
    | some o => some (some o)

/-- Source `function_base::operator()(vs...)`:
`vptr->invoke(&object, vs...)`. Returns the result or the exception, and the
container (its slot is `mutable`) and the world afterwards. -/
def operator_call (env : Env σ A R) (c : function_base σ) (vs : A) (w : World σ) :
    Option (Except Error R × function_base σ × World σ) :=
  match (c.vptr.deref env).invoke c.object vs w with
  | none => none
  | some r => some (r.1, ⟨c.vptr, r.2.1⟩, r.2.2)

/-- Source `function_base::assign(F&& f)` for a payload `f` that is not a
compatible container. A null pointer resets the container. Otherwise the
payload is reconstructed in place when the container is already bound to the
table of `decay<F>`, and else the container is reset, the `empty_function` in
the slot is destructed, the table of `decay<F>` is bound and the payload is
constructed. -/
def assign (env : Env σ A R) (c : function_base σ) (f : Obj σ) (w : World σ) :
    Option (function_base σ × World σ) :=
  if !is_empty_function env f then
    if c.vptr = get_table_ptr f.type then
      match vtable.reconstruct env f.type c.object f w with
      | none => none
      | some r => some (⟨c.vptr, r.1⟩, r.2)
    else
      match c.reset env w with
      | none => none
      | some r =>
        match vtable._destruct env .empty_function r.1.object r.2 with
        | none => none
        | some d =>
          some (⟨get_table_ptr f.type, (vtable.construct env f.type d.1 f d.2).1⟩,
            (vtable.construct env f.type d.1 f d.2).2)
  else
    c.reset env w

/-- The class of the argument of the second `assign`: `function_base<VTablePtr,
Sig>` itself, or `function_base<OtherVTablePtr, Sig>` for another table type
convertible to `VTablePtr`; `is_compatible_function` holds of both. -/
inductive Family
  | same
  | other
  deriving DecidableEq, Repr

/-- The address `&other.empty_table` for an argument of the given class. -/
def Family.empty_table : Family → VTablePtr
  | .same => .empty_table
  | .other => .other_empty_table

/-- Source `function_base::assign(F&& other)` for an rvalue container of a
compatible family. The containers live in a store; `this` and `other` are
their addresses, which are equal in the call `f.assign(std::move(f))`. First
`reset()` runs on `*this`. Then `other.empty()` is read, after the reset, and
when it is false the table pointer and the slot of `other` are taken and
`other` is rebound to the `empty_table` of its class with an `empty_function`
default-constructed in its slot. -/
def assign_compatible (env : Env σ A R) (st : Nat → function_base σ) (this other : Nat)
    (family : Family) (w : World σ) : Option ((Nat → function_base σ) × World σ) :=
  match (st this).reset env w with
  | none => none
  | some r =>
    if !((Function.update st this r.1) other).empty env then
      some (Function.update
          (Function.update (Function.update st this r.1) this
            ⟨((Function.update st this r.1) other).vptr,
              ((Function.update st this r.1) other).object⟩)
          other
          ⟨family.empty_table, (vtable.default_construct env .empty_function
            ((Function.update st this r.1) other).object r.2).1⟩,
        (vtable.default_construct env .empty_function
          ((Function.update st this r.1) other).object r.2).2)
    else
      some (Function.update st this r.1, r.2)

end function_base

/-! ## Serialization: `basic_function<VTablePtr, R(Ts...), true>` -/

/-- Modelled from the spec: the input archive is an external collaborator.
The read `ar >> is_empty` ("`read_bool() -> bool`") takes the next item of the
stream, which has to be a boolean. -/
def input_archive.read_bool : List Tok → Except Error (Bool × List Tok)
  | .bool b :: rest => .ok (b, rest)
  | _ => .error .archive_error

/-- Modelled from the spec: the read `ar >> name` ("`read_string() -> string`")
takes the next item of the stream, which has to be a string. -/
def input_archive.read_string : List Tok → Except Error (String × List Tok)
  | .string s :: rest => .ok (s, rest)
  | _ => .error .archive_error

/-- Modelled from the spec: `function_registration.hpp` is not among the
sources. The lookup `detail::get_table_ptr<vtable_ptr>(name)` resolves a name
through the Registry of the signature, "a mapping from name string to Table
pointer", and "fails with NameNotRegistered if absent". -/
def get_table_ptr (registry : String → Option VTablePtr) (name : String) :
    Except Error VTablePtr :=
  match registry name with
  | some vptr => .ok vptr
  | none => .error .NameNotRegistered

namespace basic_function

/-- Source `basic_function::load(ar, version)`: `reset()`, then `ar >> is_empty`;
when it is false, `ar >> name`, `vptr = get_table_ptr<vtable_ptr>(name)` and
`vptr->load_object(&object, ar, version)`. Returns the outcome, the container,
the world and the rest of the stream at the point the call is left. -/
def load (env : Env σ A R) (registry : String → Option VTablePtr) (c : function_base σ)
    (ar : List Tok) (w : World σ) :
    Option (Except Error Unit × function_base σ × World σ × List Tok) :=
  match c.reset env w with
  | none => none
  | some r =>
    match input_archive.read_bool ar with
    | .error e => some (.error e, r.1, r.2, ar)
    | .ok b =>
      if !b.1 then
        match input_archive.read_string b.2 with
        | .error e => some (.error e, r.1, r.2, b.2)
        | .ok n =>
          match get_table_ptr registry n.1 with
          | .error e => some (.error e, r.1, r.2, n.2)
          | .ok vptr =>
            some (((vptr.deref env).load_object r.1.object r.2 n.2).1,
              ⟨vptr, ((vptr.deref env).load_object r.1.object r.2 n.2).2.1⟩,
              ((vptr.deref env).load_object r.1.object r.2 n.2).2.2.1,
              ((vptr.deref env).load_object r.1.object r.2 n.2).2.2.2)
      else
        some (.ok (), r.1, r.2, b.2)

/-- Source `basic_function::save(ar, version) const`: `ar << is_empty` with
`is_empty = empty()`; when it is false, `ar << vptr->name` and
`vptr->save_object(&object, ar, version)`. Returns the stream written so far
and the world; the container is `const`. -/
def save (env : Env σ A R) (c : function_base σ) (ar : List Tok) (w : World σ) :
    Option (List Tok × World σ) :=
  if !c.empty env then
    (c.vptr.deref env).save_object c.object w
      ((ar ++ [.bool (c.empty env)]) ++ [.string (c.vptr.deref env).name])
  else
    some (ar ++ [.bool (c.empty env)], w)

end basic_function

end detail

/-! ## function.hpp -/

open detail

namespace function

variable {σ A R : Type}

/-- Source `function(function const& other)`: the base is default-constructed,
the `empty_function` in the slot is destructed, `other.vptr` is taken, and when
that table is not empty its copy entry copies `other.object` into the slot. -/
def copy_ctor (env : Env σ A R) (other : function_base σ) (w : World σ) :
    Option (function_base σ × World σ) :=
  match vtable._destruct env .empty_function (function_base.ctor env w).1.object
      (function_base.ctor env w).2 with
  | none => none
  | some d =>
    if !(other.vptr.deref env).empty then
      match (other.vptr.deref env).copy d.1 other.object d.2 with
      | none => none
      | some r => some (⟨other.vptr, r.1⟩, r.2)
    else
      some (⟨other.vptr, d.1⟩, d.2)

/-- Source `function(function&& other)`: the base's move constructor. -/
def move_ctor (env : Env σ A R) (other : function_base σ) (w : World σ) :
    function_base σ × function_base σ × World σ :=
  function_base.move_ctor env other w

/-- Source `function(F&& f)`: the base is default-constructed, then
`assign(std::forward<F>(f))`. -/
def ctor (env : Env σ A R) (f : Obj σ) (w : World σ) : Option (function_base σ × World σ) :=
  function_base.assign env (function_base.ctor env w).1 f (function_base.ctor env w).2

/-- Source `function::operator=(function const& other)` for `this != &other`:
`reset()`, the `empty_function` in the slot is destructed, `other.vptr` is
taken, and when that table is not empty its copy entry copies `other.object`
into the slot. -/
def copy_assign (env : Env σ A R) (c other : function_base σ) (w : World σ) :
    Option (function_base σ × World σ) :=
  match c.reset env w with
  | none => none
  | some r =>
    match vtable._destruct env .empty_function r.1.object r.2 with
    | none => none
    | some d =>
      if !(other.vptr.deref env).empty then
        match (other.vptr.deref env).copy d.1 other.object d.2 with
        | none => none
        | some q => some (⟨other.vptr, q.1⟩, q.2)
      else
        some (⟨other.vptr, d.1⟩, d.2)

end function

/-! ## Well-formed containers and a sample payload universe -/

namespace detail

variable {σ A R : Type}

/-- A container is well formed in a world when its slot holds a payload of the
type its table was built for: `vtable::get` of that type is defined on it. -/
def function_base.valid (env : Env σ A R) (c : function_base σ) (w : World σ) : Prop :=
  (vtable.get env c.vptr.type c.object w).isSome

instance (env : Env σ A R) (c : function_base σ) (w : World σ) :
    Decidable (function_base.valid env c w) :=
  inferInstanceAs (Decidable ((vtable.get env c.vptr.type c.object w).isSome = true))

/-- The payload a well-formed container holds. -/
def function_base.payload (env : Env σ A R) (c : function_base σ) (w : World σ) :
    Option (Obj σ) :=
  vtable.get env c.vptr.type c.object w

/-- A sample universe for the signature `int(int)`. Type 0 is `Adder`: one
`int` of state, call adds it to the argument; it is stored inline, registered
as "adder_v1" and encoded as its state. Type 1 is `BigAdder`, the same with
`sizeof` 16, so it is boxed. Type 2 is a function pointer `int(*)(int)`: state
0 is the null pointer, state `k + 1` points to the function adding `k`. Type 3
is `Counter`: it returns its state plus the argument and then increments its
state. Every type is encoded as its state. -/
def sampleEnv : Env Nat Nat Nat where
  sizeof := fun n => if n = 1 then 16 else 8
  is_pointer := fun n => decide (n = 2)
  is_null := fun s => decide (s = 0)
  init := fun _ => 0
  call := fun n s a => if n = 3 then (.ok (s + a), s + 1) else
    if n = 2 then (.ok (s - 1 + a), s) else (.ok (s + a), s)
  name := fun T => match T with
    | .empty_function => ""
    | .user n => if n = 0 then "adder_v1" else if n = 1 then "big_adder" else
        if n = 2 then "fptr" else "counter"
  encode := fun _ s => [.byte s]
  decode := fun _ ar =>
    match ar with
    | .byte s :: rest => some (s, rest)
    | _ => none

/-- The Registry matching `sampleEnv`: each name resolves to the table of its type. -/
def sampleRegistry : String → Option VTablePtr :=
  fun s => if s = "adder_v1" then some (get_vtable (.user 0)) else
    if s = "big_adder" then some (get_vtable (.user 1)) else
    if s = "fptr" then some (get_vtable (.user 2)) else
    if s = "counter" then some (get_vtable (.user 3)) else none

/-- A world of the sample universe with one box, holding `BigAdder(10)`. -/
def sampleWorld : World Nat :=
  ⟨[.live (.user 1 10)], []⟩

/-- The container holding the boxed `BigAdder(10)` of `sampleWorld`. -/
def sampleBig : function_base Nat :=
  ⟨get_vtable (.user 1), .word 1⟩

/-- A container holding an inline `Adder(3)`. -/
def sampleAdder : function_base Nat :=
  ⟨get_vtable (.user 0), .obj (.user 0 3)⟩

/-- The events performed on the way from world `w` to world `w1`. -/
def World.since (w w1 : World σ) : List Event :=
  w1.log.drop w.log.length

/-- The world before anything has run: an empty free store, an empty trace. -/
def World.start : World σ :=
  ⟨[], []⟩

end detail
end util
end hpx

/-! ## Client code: writing through `target<T>()`, reachable containers -/

namespace hpx
namespace util
namespace detail

variable {σ A R : Type}

/-- Source `get_vtable<OtherVTablePtr, T>()`, for the other table type: the
address of that instantiation's own function-local static. -/
def get_vtable_other (T : Ty) : VTablePtr :=
  .other_static_vtable T

/-- The client statement `*c.target<T>() = o`: the payload is assigned through
the pointer `target<T>()` returns. Undefined when that pointer is null. -/
def function_base.target_store (env : Env σ A R) (T : Ty) (c : function_base σ) (o : Obj σ)
    (w : World σ) : Option (function_base σ × World σ) :=
  match c.target env T w with
  | some (some _) =>
    some (⟨c.vptr, (vtable.put env T c.object o w).1⟩, (vtable.put env T c.object o w).2)
  | _ => none

end detail
end util

/-! ## error_info.cpp: the diagnostic elements of an exception -/

/-- The diagnostic elements attached to a `boost::exception` that the accessors
read, each as `boost::get_error_info` sees it: `none` is a null pointer, the
element was never attached. -/
structure boost_exception where
  throw_pid : Option Int
  throw_env : Option String
  boost_throw_file : Option String
  throw_file : Option String
  throw_thread_id : Option Nat
  deriving DecidableEq, Repr

/-- A `boost::exception_ptr`: null, or holding an exception object that is a
`boost::exception`, or holding one that is not. -/
inductive exception_ptr
  | null
  | boost_exception (be : boost_exception)
  | other
  deriving DecidableEq, Repr

/-- The categories an error code belongs to: the three category objects of
error_category.cpp, compared by address, and any other category. -/
inductive error_category
  | hpx_category
  | hpx_rethrow_category
  | lightweight_hpx_category
  | other (id : Nat)
  deriving DecidableEq, Repr

/-- A `boost::system::error_code`: an `int` value and a category. -/
structure system_error_code where
  value : Int
  category : error_category
  deriving DecidableEq, Repr

/-- An `hpx::exception` object. The class derives from
`boost::system::system_error`, not from `boost::exception`; the objects HPX
throws are wrapped so that their dynamic type derives from both. `info` is the
`boost::exception` part of the object, `none` when it has none; `code` is
`boost::system::system_error::code()`. -/
structure exception where
  info : Option boost_exception
  code : system_error_code
  deriving DecidableEq, Repr

/-- An `hpx::error_code`: the value and category of the
`boost::system::error_code` base, and the member `exception_`. -/
structure error_code where
  value : Int
  category : error_category
  exception_ : exception_ptr
  deriving DecidableEq, Repr

/-- What leaves `dynamic_cast<boost::exception const&>(e)` when `e` is not a
`boost::exception`. -/
inductive bad_cast
  | thrown
  deriving DecidableEq, Repr

/-- Source `detail::access_exception(error_code const& e)`: `e.exception_`. -/
def detail.access_exception (e : error_code) : exception_ptr :=
  e.exception_

namespace get_error_process_id

/-- Source `get_error_process_id(boost::exception const& e)`: the stored
`throw_pid` when `boost::get_error_info` finds one, and `-1` otherwise. -/
def of_boost_exception (e : boost_exception) : Int :=
  match e.throw_pid with
  | some pid_ => pid_
  | none => -1

/-- Source `get_error_process_id(boost::exception_ptr const& e)`: `-1` for a
null pointer; otherwise the exception is rethrown, a `boost::exception` is
passed on to the overload above, and anything else gives `-1`. -/
def of_exception_ptr (e : exception_ptr) : Int :=
  match e with
  | .null => -1
  | .boost_exception be => of_boost_exception be
  | .other => -1

/-- Source `get_error_process_id(hpx::exception const& e)`: the overload for
`dynamic_cast<boost::exception const&>(e)`; the cast throws when `e` is not a
`boost::exception`. -/
def of_exception (e : exception) : Except bad_cast Int :=
  match e.info with
  | some be => .ok (of_boost_exception be)
  | none => .error .thrown

/-- Source `get_error_process_id(hpx::error_code const& e)`: the overload for
`detail::access_exception(e)`. -/
def of_error_code (e : error_code) : Int :=
  of_exception_ptr (detail.access_exception e)

end get_error_process_id

end hpx

/-! ## error_info.cpp: file name, environment, thread id -/

namespace hpx

namespace get_error_file_name

/-- Source `get_error_file_name(boost::exception const& e)`: the
`boost::throw_file` element when there is one, else the HPX `throw_file`
element when there is one, else the string `"<unknown>"`. -/
def of_boost_exception (e : boost_exception) : String :=
  match e.boost_throw_file with
  | some file => file
  | none =>
    match e.throw_file with
    | some s => s
    | none => "<unknown>"

/-- Source `get_error_file_name(boost::exception_ptr const& e)`: `"<unknown>"`
for a null pointer; otherwise the exception is rethrown, a `boost::exception`
is passed on to the overload above, and anything else gives `"<unknown>"`. -/
def of_exception_ptr (e : exception_ptr) : String :=
  match e with
  | .null => "<unknown>"
  | .boost_exception be => of_boost_exception be
  | .other => "<unknown>"

/-- Source `get_error_file_name(hpx::exception const& e)`: the overload for
`dynamic_cast<boost::exception const&>(e)`. -/
def of_exception (e : exception) : Except bad_cast String :=
  match e.info with
  | some be => .ok (of_boost_exception be)
  | none => .error .thrown

/-- Source `get_error_file_name(hpx::error_code const& e)`: the overload for
`detail::access_exception(e)`. -/
def of_error_code (e : error_code) : String :=
  of_exception_ptr (detail.access_exception e)

end get_error_file_name

namespace get_error_env

/-- Source `get_error_env(boost::exception const& e)`: the `throw_env` element
when there is one and it is not the empty string, else `"<unknown>"`. -/
def of_boost_exception (e : boost_exception) : String :=
  match e.throw_env with
  | some env => if env ≠ "" then env else "<unknown>"
  | none => "<unknown>"

/-- Source `get_error_env(boost::exception_ptr const& e)`. -/
def of_exception_ptr (e : exception_ptr) : String :=
  match e with
  | .null => "<unknown>"
  | .boost_exception be => of_boost_exception be
  | .other => "<unknown>"

/-- Source `get_error_env(hpx::exception const& e)`. -/
def of_exception (e : exception) : Except bad_cast String :=
  match e.info with
  | some be => .ok (of_boost_exception be)
  | none => .error .thrown

/-- Source `get_error_env(hpx::error_code const& e)`. -/
def of_error_code (e : error_code) : String :=
  of_exception_ptr (detail.access_exception e)

end get_error_env

/-- The value `std::size_t(-1)`, for the 64-bit `size_t` of a machine whose
pointers have `sizeof_void_ptr` bytes. -/
def size_t_minus_one : Nat :=
  2 ^ (8 * util.detail.sizeof_void_ptr) - 1

namespace get_error_thread_id

/-- Source `get_error_thread_id(boost::exception const& e)`: the
`throw_thread_id` element when there is one and it is not zero, else `0`. -/
def of_boost_exception (e : boost_exception) : Nat :=
  match e.throw_thread_id with
  | some thread_id => if thread_id ≠ 0 then thread_id else 0
  | none => 0

/-- Source `get_error_thread_id(boost::exception_ptr const& e)`:
`std::size_t(-1)` for a null pointer; otherwise the exception is rethrown, a
`boost::exception` is passed on to the overload above, and anything else gives
`std::size_t(-1)`. -/
def of_exception_ptr (e : exception_ptr) : Nat :=
  match e with
  | .null => size_t_minus_one
  | .boost_exception be => of_boost_exception be
  | .other => size_t_minus_one

/-- Source `get_error_thread_id(hpx::exception const& e)`. -/
def of_exception (e : exception) : Except bad_cast Nat :=
  match e.info with
  | some be => .ok (of_boost_exception be)
  | none => .error .thrown

/-- Source `get_error_thread_id(hpx::error_code const& e)`. -/
def of_error_code (e : error_code) : Nat :=
  of_exception_ptr (detail.access_exception e)

end get_error_thread_id

/-! ## error_category.hpp, exception.hpp: throw modes and error codes -/

namespace throwmode

/-- Source `enum throwmode`: `plain = 0`. A throw mode is its integer value. -/
def plain : Nat := 0

/-- Source `rethrow = 1`. -/
def rethrow : Nat := 1

/-- Source `lightweight = 0x80`. -/
def lightweight : Nat := 0x80

/-- Source `lightweight_rethrow = lightweight | rethrow`. -/
def lightweight_rethrow : Nat := lightweight ||| rethrow

end throwmode

/-- Source `get_hpx_category()`: `detail::hpx_category_instance`. -/
def get_hpx_category : error_category :=
  .hpx_category

/-- Source `get_hpx_rethrow_category()`: `detail::hpx_category_rethrow_instance`. -/
def get_hpx_rethrow_category : error_category :=
  .hpx_rethrow_category

/-- Source `get_lightweight_hpx_category()`:
`detail::lightweight_hpx_category_instance`. -/
def get_lightweight_hpx_category : error_category :=
  .lightweight_hpx_category

/-- Source `get_hpx_category(throwmode mode)`: the `switch` over `mode`. -/
def get_hpx_category_mode (mode : Nat) : error_category :=
  if mode = throwmode.rethrow then
    get_hpx_rethrow_category
  else if mode = throwmode.lightweight ∨ mode = throwmode.lightweight_rethrow then
    get_lightweight_hpx_category
  else
    get_hpx_category

/-- Source `make_system_error_code(e, mode)`:
`boost::system::error_code(static_cast<int>(e), get_hpx_category(mode))`. -/
def make_system_error_code (e : Int) (mode : Nat) : system_error_code :=
  ⟨e, get_hpx_category_mode mode⟩

namespace error_code

/-- Source `error_code(throwmode mode = plain)`: the base is
`make_system_error_code(success, mode)`, `exception_` is default-constructed.
The value of the enumerator `hpx::success` (hpx/error.hpp, not among the
sources) is the parameter `success`. -/
def ctor_mode (success : Int) (mode : Nat) : error_code :=
  ⟨(make_system_error_code success mode).value, (make_system_error_code success mode).category,
    .null⟩

/-- Source `error_code::clear()`: `assign(success, get_hpx_category())` on the
base and `exception_ = boost::exception_ptr()`. -/
def clear (success : Int) (_ec : error_code) : error_code :=
  ⟨success, get_hpx_category, .null⟩

/-- Source `error_code(int err, hpx::exception const& e)`:
`assign(err, get_hpx_category())` on the base and
`exception_ = get_exception_ptr(e)`. What `boost::current_exception()` yields
for the thrown copy of `e` is the parameter `current_exception`. -/
def ctor_int_exception (current_exception : exception → exception_ptr) (err : Int)
    (e : exception) : error_code :=
  ⟨err, get_hpx_category, current_exception e⟩

end error_code

/-- Source `make_success_code(mode)`: `error_code(mode)`. -/
def make_success_code (success : Int) (mode : Nat) : error_code :=
  error_code.ctor_mode success mode

namespace error_code

/-- Source: the body of `error_code::operator=(error_code const& rhs)` under
`this != &rhs`. For a success `rhs` the base is assigned
`make_success_code(lightweight)` when the category is the lightweight one and
`make_success_code(plain)` otherwise; for any other `rhs` the base is assigned
`rhs`. Then `exception_ = rhs.exception_`. -/
def assign_from (success : Int) (lhs rhs : error_code) : error_code :=
  if rhs.value = success then
    ⟨(make_success_code success
        (if lhs.category = get_lightweight_hpx_category then throwmode.lightweight
          else throwmode.plain)).value,
      (make_success_code success
        (if lhs.category = get_lightweight_hpx_category then throwmode.lightweight
          else throwmode.plain)).category,
      rhs.exception_⟩
  else
    ⟨rhs.value, rhs.category, rhs.exception_⟩

/-- Source `error_code::operator=(error_code const& rhs)`: the objects live in
a store, `this` and `rhs` are their addresses; nothing happens when
`this == &rhs`. -/
def operator_assign (success : Int) (st : Nat → error_code) (this rhs : Nat) :
    Nat → error_code :=
  if this ≠ rhs then
    Function.update st this (assign_from success (st this) (st rhs))
  else
    st

end error_code

/-- Source `exception::get_error_code(throwmode mode)`: `mode` is unused; the
result is `error_code(this->code().value(), *this)`. -/
def exception.get_error_code (current_exception : exception → exception_ptr)
    (ex : exception) (_mode : Nat) : error_code :=
  error_code.ctor_int_exception current_exception ex.code.value ex

namespace util
namespace detail

variable {σ A R : Type}

/-- Source: the body of `function_base::operator=(function_base&& other)` under
`this != &other`: `swap(other)` and then `other.reset()`. Returns `*this`,
`other` afterwards, and the world. -/
def function_base.move_assign (env : Env σ A R) (c other : function_base σ) (w : World σ) :
    Option (function_base σ × function_base σ × World σ) :=
  match (c.swap other).2.reset env w with
  | none => none
  | some r => some ((c.swap other).1, r.1, r.2)

/-- Source `function_base::operator=(function_base&& other)`: the containers
live in a store, `this` and `other` are their addresses; nothing happens when
`this == &other`. -/
def function_base.operator_assign (env : Env σ A R) (st : Nat → function_base σ)
    (this other : Nat) (w : World σ) : Option ((Nat → function_base σ) × World σ) :=
  if this ≠ other then
    match (st this).move_assign env (st other) w with
    | none => none
    | some r => some (Function.update (Function.update st this r.1) other r.2.1, r.2.2)
  else
    some (st, w)

end detail

/-- Source `function::operator=(function const& other)`: the containers live in
a store, `this` and `other` are their addresses; under `this != &other` the
body is `function.copy_assign`, and nothing happens when `this == &other`. -/
def function.operator_assign {σ A R : Type} (env : detail.Env σ A R)
    (st : Nat → detail.function_base σ) (this other : Nat) (w : detail.World σ) :
    Option ((Nat → detail.function_base σ) × detail.World σ) :=
  if this ≠ other then
    match function.copy_assign env (st this) (st other) w with
    | none => none
    | some r => some (Function.update st this r.1, r.2)
  else
    some (st, w)

end util
end hpx

/-! ## Reachable containers -/

namespace hpx
namespace util
namespace detail

variable {σ A R : Type}

/-- The static table of the second class `function_base<OtherVTablePtr, Sig>`
that stands where the given static of the class `function_base<VTablePtr, Sig>`
stands: its `empty_table` for `empty_table`, its `get_vtable` singleton for `T`
for the singleton for `T`. -/
def VTablePtr.to_other : VTablePtr → VTablePtr
  | .empty_table => .other_empty_table
  | .static_vtable T => .other_static_vtable T
  | p => p

/-- The tables a container of the class `function_base<VTablePtr, Sig>` is
bound to: its `empty_table`, one of its `get_vtable` singletons, or, in a
program that adopts from the second class, a `get_vtable` singleton of that
class for a payload type other than `empty_function`. -/
def OwnTable (second : Bool) (p : VTablePtr) : Prop :=
  p = .empty_table ∨ (∃ T, p = get_vtable T) ∨
    (second = true ∧ ∃ T, T ≠ .empty_function ∧ p = get_vtable_other T)

/-- The containers of the class `function_base<VTablePtr, Sig>` a program
reaches from default construction through assign, reset, swap, move, copy and
load. The source of every operation that takes a container is itself reached.
With `second` false the program has containers of this class only. With
`second` true it also adopts, through `assign`, containers of the second class
`function_base<OtherVTablePtr, Sig>`; that class is an instance of the same
template, so a container of it is what a program of one class reaches, with
the statics of the second class in the place of those of the first. Every step
may run in any world and with any stream in which it is defined, so the
relation holds of at least the containers a run reaches. -/
inductive Reachable (env : Env σ A R) (registry : String → Option VTablePtr) :
    Bool → function_base σ → Prop
  | ctor {b : Bool} (w : World σ) : Reachable env registry b (function_base.ctor env w).1
  | assign {b : Bool} {c c1 : function_base σ} {w w1 : World σ} (f : Obj σ) :
      Reachable env registry b c → c.assign env f w = some (c1, w1) →
      Reachable env registry b c1
  | adopt_same {b : Bool} {st st1 : Nat → function_base σ} {w w1 : World σ} (i j k : Nat) :
      (∀ n, Reachable env registry b (st n)) →
      function_base.assign_compatible env st i j .same w = some (st1, w1) →
      Reachable env registry b (st1 k)
  | adopt_other {st st1 : Nat → function_base σ} {w w1 : World σ} (i j : Nat)
      (o : function_base σ) :
      i ≠ j → Reachable env registry true (st i) → Reachable env registry false o →
      st j = ⟨o.vptr.to_other, o.object⟩ →
      function_base.assign_compatible env st i j .other w = some (st1, w1) →
      Reachable env registry true (st1 i)
  | reset {b : Bool} {c c1 : function_base σ} {w w1 : World σ} :
      Reachable env registry b c → c.reset env w = some (c1, w1) →
      Reachable env registry b c1
  | swap_left {b : Bool} {x y : function_base σ} :
      Reachable env registry b x → Reachable env registry b y →
      Reachable env registry b (x.swap y).1
  | swap_right {b : Bool} {x y : function_base σ} :
      Reachable env registry b x → Reachable env registry b y →
      Reachable env registry b (x.swap y).2
  | move_ctor_target {b : Bool} {x : function_base σ} (w : World σ) :
      Reachable env registry b x →
      Reachable env registry b (function_base.move_ctor env x w).1
  | move_ctor_source {b : Bool} {x : function_base σ} (w : World σ) :
      Reachable env registry b x →
      Reachable env registry b (function_base.move_ctor env x w).2.1
  | move_assign {b : Bool} {st st1 : Nat → function_base σ} {w w1 : World σ} (i j k : Nat) :
      (∀ n, Reachable env registry b (st n)) →
      function_base.operator_assign env st i j w = some (st1, w1) →
      Reachable env registry b (st1 k)
  | copy_ctor {b : Bool} {s c : function_base σ} {w w1 : World σ} :
      Reachable env registry b s → function.copy_ctor env s w = some (c, w1) →
      Reachable env registry b c
  | copy_assign {b : Bool} {st st1 : Nat → function_base σ} {w w1 : World σ} (i j k : Nat) :
      (∀ n, Reachable env registry b (st n)) →
      function.operator_assign env st i j w = some (st1, w1) →
      Reachable env registry b (st1 k)
  | load {b : Bool} {d d1 : function_base σ} {w w1 : World σ} {ar ar1 : List Tok}
      {r : Except Error Unit} :
      Reachable env registry b d →
      basic_function.load env registry d ar w = some (r, d1, w1, ar1) →
      Reachable env registry b d1

end detail
end util
end hpx

/-! ## Sample stores -/

namespace hpx

/-- A store of containers: the inline `Adder(3)` at address 0, the boxed
`BigAdder(10)` of `sampleWorld` at address 1, and an empty container at every
other address. -/
def util.detail.sampleStore : Nat → util.detail.function_base Nat :=
  fun n => if n = 0 then util.detail.sampleAdder else
    if n = 1 then util.detail.sampleBig else ⟨.empty_table, .obj .empty_function⟩

/-- A store with the inline `Adder(3)` at address 0 and a default-constructed
container of the second class at every other address. -/
def util.detail.sampleOtherStore : Nat → util.detail.function_base Nat :=
  fun n => if n = 0 then util.detail.sampleAdder else
    ⟨.other_empty_table, .obj .empty_function⟩

/-- A store with the inline `Adder(3)` at address 0 and, at every other
address, a container of the second class holding an inline `Adder(3)`. -/
def util.detail.sampleAdoptStore : Nat → util.detail.function_base Nat :=
  fun n => if n = 0 then util.detail.sampleAdder else
    ⟨util.detail.get_vtable_other (.user 0), .obj (.user 0 3)⟩

/-- A world of the sample universe with two boxes, holding `BigAdder(10)` and
`BigAdder(20)`. -/
def util.detail.sampleBoxes : util.detail.World Nat :=
  ⟨[.live (.user 1 10), .live (.user 1 20)], []⟩

/-- A store of containers over `sampleBoxes`: at address 0 the container owning
the first box, at address 1 the one owning the second, and an empty container
at every other address. -/
def util.detail.sampleBigStore : Nat → util.detail.function_base Nat :=
  fun n => if n = 0 then ⟨util.detail.get_vtable (.user 1), .word 1⟩ else
    if n = 1 then ⟨util.detail.get_vtable (.user 1), .word 2⟩ else
      ⟨.empty_table, .obj .empty_function⟩

/-- A store of error codes: at address 0 a success code of the rethrow
category, at every other address a plain success code. -/
def sampleCodes (success : Int) : Nat → error_code :=
  fun n => if n = 0 then error_code.ctor_mode success throwmode.rethrow
    else error_code.ctor_mode success throwmode.plain

end hpx

/-! # Theorems -/

namespace hpx
namespace util

open detail

variable {σ A R : Type}

/-! ## The entries of a table -/

@[simp] theorem deref_empty (env : Env σ A R) (p : VTablePtr) :
    (p.deref env).empty = decide (p.type = .empty_function) := rfl

@[simp] theorem deref_invoke (env : Env σ A R) (p : VTablePtr) :
    (p.deref env).invoke = callable_vtable._invoke env p.type := rfl

@[simp] theorem deref_delete (env : Env σ A R) (p : VTablePtr) :
    (p.deref env).delete_ = vtable._delete env p.type := rfl

@[simp] theorem deref_copy (env : Env σ A R) (p : VTablePtr) :
    (p.deref env).copy = copyable_vtable._copy env p.type := rfl

@[simp] theorem deref_get_type (env : Env σ A R) (p : VTablePtr) :
    (p.deref env).get_type = .of p.type := rfl

@[simp] theorem deref_name (env : Env σ A R) (p : VTablePtr) :
    (p.deref env).name = env.name p.type := rfl

@[simp] theorem deref_save_object (env : Env σ A R) (p : VTablePtr) :
    (p.deref env).save_object = serializable_function_vtable._save_object env p.type := rfl

@[simp] theorem deref_load_object (env : Env σ A R) (p : VTablePtr) :
    (p.deref env).load_object = serializable_function_vtable._load_object env p.type := rfl

theorem empty_iff (env : Env σ A R) (c : function_base σ) :
    c.empty env = true ↔ c.vptr.type = .empty_function := by
  simp [function_base.empty]

theorem empty_eq_false_iff (env : Env σ A R) (c : function_base σ) :
    c.empty env = false ↔ c.vptr.type ≠ .empty_function := by
  simp [function_base.empty]

/-! ## The trace -/

@[simp] theorem since_self (w : World σ) : w.since w = [] := by
  simp [World.since]

@[simp] theorem since_mk (w : World σ) (h : List (Box σ)) (l : List Event) :
    w.since ⟨h, w.log ++ l⟩ = l := by
  simp [World.since]

theorem since_of_log {w w1 : World σ} {l : List Event} (h : w1.log = w.log ++ l) :
    w.since w1 = l := by
  simp [World.since, h]

/-! ## Reading a slot -/

theorem size_of_empty_function (env : Env σ A R) :
    env.size_of .empty_function ≤ sizeof_void_ptr := by
  simp [Env.size_of, sizeof_void_ptr]

@[simp] theorem get_empty_function (env : Env σ A R) (v : Slot σ) (w : World σ) :
    vtable.get env .empty_function v w = some .empty_function := by
  simp [vtable.get, size_of_empty_function]

theorem get_type_eq (env : Env σ A R) {T : Ty} {v : Slot σ} {w : World σ} {o : Obj σ}
    (h : vtable.get env T v w = some o) : o.type = T := by
  unfold vtable.get at h
  split at h
  · split at h
    · cases h; rfl
    · split at h
      · cases h; subst_vars; rfl
      · cases h
    · cases h
  · split at h
    · split at h
      · split at h
        · cases h; assumption
        · cases h
      · cases h
    · cases h

theorem get_heap_congr (env : Env σ A R) (T : Ty) (v : Slot σ) {w w1 : World σ}
    (h : w1.heap = w.heap) : vtable.get env T v w1 = vtable.get env T v w := by
  simp [vtable.get, World.box, h]

@[simp] theorem get_record (env : Env σ A R) (T : Ty) (v : Slot σ) (w : World σ) (e : Event) :
    vtable.get env T v (w.record e) = vtable.get env T v w :=
  get_heap_congr env T v rfl

theorem get_construct (env : Env σ A R) (f : Obj σ) (v : Slot σ) (w : World σ) :
    vtable.get env f.type (vtable.construct env f.type v f w).1
      (vtable.construct env f.type v f w).2 = some f := by
  by_cases h : env.size_of f.type ≤ sizeof_void_ptr
  · cases f <;> simp_all [vtable.construct, vtable.get, Obj.type]
  · simp [vtable.construct, vtable.get, h, World.new, World.record, World.box]

/-- A boxed payload is read through a pointer to a live box. -/
theorem get_boxed (env : Env σ A R) {T : Ty} {v : Slot σ} {w : World σ} {o : Obj σ}
    (hs : ¬ env.size_of T ≤ sizeof_void_ptr) (h : vtable.get env T v w = some o) :
    ∃ p, v = .word p ∧ w.box p = some (.live o) := by
  unfold vtable.get at h
  rw [if_neg hs] at h
  split at h
  · rename_i p
    split at h
    · rename_i o1 hb
      split at h
      · cases h; exact ⟨p, rfl, hb⟩
      · cases h
    · cases h
  · cases h

/-- An inline payload of a user type is read from the slot itself. -/
theorem get_inline (env : Env σ A R) {n : Nat} {v : Slot σ} {w : World σ} {o : Obj σ}
    (hs : env.size_of (.user n) ≤ sizeof_void_ptr) (h : vtable.get env (.user n) v w = some o) :
    v = .obj o := by
  unfold vtable.get at h
  rw [if_pos hs] at h
  split at h
  · rename_i heq
    cases heq
  · rename_i heq
    cases heq
    split at h
    · cases h; subst_vars; rfl
    · cases h
  · cases h

theorem box_lt (w : World σ) {p : Nat} {b : Box σ} (h : w.box p = some b) :
    p ≠ 0 ∧ p - 1 < w.heap.length := by
  unfold World.box at h
  split at h
  · cases h
  · rename_i hp
    refine ⟨hp, ?_⟩
    have := List.get?_eq_some.1 h
    exact this.1

theorem box_store (w : World σ) {p : Nat} {b : Box σ} (b1 : Box σ) (h : w.box p = some b) :
    (w.store p b1).box p = some b1 := by
  obtain ⟨hp, hlt⟩ := box_lt w h
  simp [World.box, World.store, hp, hlt]

theorem invoke_type (env : Env σ A R) (o : Obj σ) (vs : A) :
    (invoke env o vs).2.type = o.type := by
  cases o <;> rfl

/-- Writing through the reference and reading back. -/
theorem get_put (env : Env σ A R) {T : Ty} {v : Slot σ} {w w1 : World σ} {o o1 : Obj σ}
    (h : vtable.get env T v w = some o) (hw : w1.heap = w.heap) (ht : o1.type = T) :
    vtable.get env T (vtable.put env T v o1 w1).1 (vtable.put env T v o1 w1).2 = some o1 := by
  by_cases hs : env.size_of T ≤ sizeof_void_ptr
  · subst ht
    cases o1 <;> simp_all [vtable.put, vtable.get, Obj.type]
  · obtain ⟨p, rfl, hb⟩ := get_boxed env hs h
    have hb1 : w1.box p = some (.live o) := by
      simpa [World.box, hw] using hb
    simp [vtable.put, vtable.get, hs, box_store w1 _ hb1, ht]

/-! ## Construction, reset and invocation -/

@[simp] theorem default_construct_empty_function (env : Env σ A R) (v : Slot σ) (w : World σ) :
    vtable.default_construct env .empty_function v w =
      (.obj .empty_function, w.record (.default_ctor .empty_function)) := by
  simp [vtable.default_construct, size_of_empty_function, Env.value_init]

@[simp] theorem destruct_empty_function (env : Env σ A R) (v : Slot σ) (w : World σ) :
    vtable._destruct env .empty_function v w =
      some (.dead, w.record (.dtor .empty_function)) := by
  simp [vtable._destruct, size_of_empty_function]

theorem ctor_eq (env : Env σ A R) (w : World σ) :
    function_base.ctor env w =
      (⟨.empty_table, .obj .empty_function⟩, w.record (.default_ctor .empty_function)) := by
  simp [function_base.ctor]

theorem reset_of_empty (env : Env σ A R) (c : function_base σ) (w : World σ)
    (h : c.empty env = true) : c.reset env w = some (c, w) := by
  rw [empty_iff] at h
  simp [function_base.reset, h]

theorem reset_of_not_empty (env : Env σ A R) (c : function_base σ) (w : World σ)
    (h : c.empty env = false) :
    c.reset env w = (vtable._delete env c.vptr.type c.object w).map
      (fun r => (⟨.empty_table, .obj .empty_function⟩,
        r.2.record (.default_ctor .empty_function))) := by
  rw [empty_eq_false_iff] at h
  simp only [function_base.reset, deref_empty, h, decide_False, Bool.not_false, if_true,
    deref_delete, default_construct_empty_function]
  cases vtable._delete env c.vptr.type c.object w <;> rfl

/-- What the table's delete entry does to a payload it holds: the destructor
runs once; a boxed payload's box is freed, an inline one leaves the free
store alone. -/
theorem delete_of_get (env : Env σ A R) {T : Ty} {v : Slot σ} {w : World σ} {o : Obj σ}
    (h : vtable.get env T v w = some o) :
    ∃ v1 w1, vtable._delete env T v w = some (v1, w1) ∧
      (env.size_of T ≤ sizeof_void_ptr → w1.heap = w.heap ∧ w1.log = w.log ++ [.dtor T]) ∧
      (¬ env.size_of T ≤ sizeof_void_ptr → ∃ p, v = .word p ∧ w1.box p = some .freed ∧
        w1.heap = w.heap.set (p - 1) .freed ∧ w1.log = w.log ++ [.dtor T, .op_delete p]) := by
  by_cases hs : env.size_of T ≤ sizeof_void_ptr
  · refine ⟨.dead, w.record (.dtor T), ?_, ?_, ?_⟩
    · simp [vtable._delete, vtable._destruct, hs, h]
    · intro _
      simp [World.record]
    · intro hn
      exact absurd hs hn
  · obtain ⟨p, rfl, hb⟩ := get_boxed env hs h
    refine ⟨.word p, ((w.store p .freed).record (.dtor T)).record (.op_delete p), ?_, ?_, ?_⟩
    · simp [vtable._delete, hs, h]
    · intro hp
      exact absurd hp hs
    · intro _
      refine ⟨p, rfl, ?_, ?_, ?_⟩
      · have := box_store w .freed hb
        simpa [World.box, World.record] using this
      · simp [World.record, World.store]
      · simp [World.record, World.store]

/-- The table's invoke entry calls the payload the slot holds and leaves the
payload the call produced in its place. -/
theorem invoke_of_get (env : Env σ A R) {T : Ty} {v : Slot σ} {w : World σ} {o : Obj σ}
    (vs : A) (h : vtable.get env T v w = some o) :
    ∃ v1 w1, callable_vtable._invoke env T v vs w = some ((invoke env o vs).1, v1, w1) ∧
      vtable.get env T v1 w1 = some (invoke env o vs).2 ∧
      w1.log = w.log ++ [.call T] ∧ w1.heap.length = w.heap.length := by
  cases o with
  | empty_function =>
    refine ⟨v, w.record (.call T), ?_, ?_, ?_, ?_⟩
    · simp [callable_vtable._invoke, h]
    · simpa [invoke] using h
    · simp [World.record]
    · simp [World.record]
  | user n s =>
    refine ⟨(vtable.put env T v (invoke env (.user n s) vs).2 (w.record (.call T))).1,
      (vtable.put env T v (invoke env (.user n s) vs).2 (w.record (.call T))).2, ?_, ?_, ?_, ?_⟩
    · simp [callable_vtable._invoke, h]
    · exact get_put env h rfl ((invoke_type env _ vs).trans (get_type_eq env h))
    · unfold vtable.put
      split
      · simp [World.record]
      · split <;> simp [World.record, World.store]
    · unfold vtable.put
      split
      · simp [World.record]
      · split <;> simp [World.record, World.store]

theorem operator_call_of_payload (env : Env σ A R) (c : function_base σ) (vs : A)
    (w : World σ) {o : Obj σ} (h : function_base.payload env c w = some o) :
    ∃ c2 w2, function_base.operator_call env c vs w = some ((invoke env o vs).1, c2, w2) ∧
      c2.vptr = c.vptr ∧ function_base.payload env c2 w2 = some (invoke env o vs).2 ∧
      w2.log = w.log ++ [.call c.vptr.type] := by
  obtain ⟨v1, w1, h1, h2, h3, _⟩ := invoke_of_get env vs h
  refine ⟨⟨c.vptr, v1⟩, w1, ?_, rfl, h2, h3⟩
  simp [function_base.operator_call, h1]

theorem function_ctor_eq (env : Env σ A R) (f : Obj σ) (w : World σ)
    (hf : is_empty_function env f = false) :
    function.ctor env f w =
      some (⟨get_vtable f.type,
          (vtable.construct env f.type .dead f
            ((w.record (.default_ctor .empty_function)).record (.dtor .empty_function))).1⟩,
        (vtable.construct env f.type .dead f
            ((w.record (.default_ctor .empty_function)).record (.dtor .empty_function))).2) := by
  simp [function.ctor, ctor_eq, function_base.assign, hf, function_base.get_table_ptr,
    get_vtable, function_base.reset, VTablePtr.type]

/-! ## The claims -/

/-- C1. A container constructed from a payload `f` that is not a null pointer is
bound to the table of `f`'s type and holds `f`; invoking it with `vs` is
defined and returns what invoking `f` directly with `vs` returns (the same
value or the same exception), and leaves in the slot the payload that the
direct call leaves. -/
theorem function_ctor_invoke (env : Env σ A R) (f : Obj σ) (vs : A) (w : World σ)
    (hf : is_empty_function env f = false) :
    ∃ c w1, function.ctor env f w = some (c, w1) ∧
      c.vptr = get_vtable f.type ∧
      (c.vptr.deref env).invoke = callable_vtable._invoke env f.type ∧
      function_base.payload env c w1 = some f ∧
      ∃ c2 w2, function_base.operator_call env c vs w1 = some ((invoke env f vs).1, c2, w2) ∧
        function_base.payload env c2 w2 = some (invoke env f vs).2 := by
  refine ⟨_, _, function_ctor_eq env f w hf, rfl, rfl, ?_, ?_⟩
  · exact get_construct env f _ _
  · have hp : function_base.payload env
        ⟨get_vtable f.type, (vtable.construct env f.type .dead f
          ((w.record (.default_ctor .empty_function)).record (.dtor .empty_function))).1⟩
        (vtable.construct env f.type .dead f
          ((w.record (.default_ctor .empty_function)).record (.dtor .empty_function))).2
        = some f := get_construct env f _ _
    obtain ⟨c2, w2, h1, _, h2, _⟩ := operator_call_of_payload env _ vs _ hp
    exact ⟨c2, w2, h1, h2⟩

/-- C1, at `Adder(10)` called with 5 in the sample universe. -/
theorem function_ctor_invoke_witness :
    is_empty_function sampleEnv (.user 0 10) = false ∧
    ∃ c w1, function.ctor sampleEnv (.user 0 10) World.start = some (c, w1) ∧
      c.vptr = get_vtable (Obj.user 0 10).type ∧
      (c.vptr.deref sampleEnv).invoke = callable_vtable._invoke sampleEnv (Obj.user 0 10).type ∧
      function_base.payload sampleEnv c w1 = some (.user 0 10) ∧
      ∃ c2 w2, function_base.operator_call sampleEnv c 5 w1 =
          some ((invoke sampleEnv (.user 0 10) 5).1, c2, w2) ∧
        function_base.payload sampleEnv c2 w2 = some (invoke sampleEnv (.user 0 10) 5).2 :=
  ⟨by decide, function_ctor_invoke sampleEnv (.user 0 10) 5 World.start (by decide)⟩

/-- C2. The default constructor always returns (it is a total function); the
container it returns is bound to `empty_table`, its slot holds an
`empty_function`, `empty()` is true and the boolean conversion is false. -/
theorem default_ctor_empty (env : Env σ A R) (w : World σ) :
    (function_base.ctor env w).1.vptr = .empty_table ∧
    (function_base.ctor env w).1.object = .obj .empty_function ∧
    function_base.payload env (function_base.ctor env w).1 (function_base.ctor env w).2
      = some .empty_function ∧
    (function_base.ctor env w).1.empty env = true ∧
    (function_base.ctor env w).1.operator_bool env = false ∧
    w.since (function_base.ctor env w).2 = [.default_ctor .empty_function] ∧
    (function_base.ctor env w).2.heap = w.heap := by
  simp [ctor_eq, function_base.payload, VTablePtr.type, function_base.empty,
    function_base.operator_bool, World.record, World.since]

/-- C3. Invoking a container whose `empty()` is true, with any arguments and in
any world, is defined and throws InvokeOnEmpty: no result is returned, and the
container is left as it was. -/
theorem invoke_empty_throws (env : Env σ A R) (c : function_base σ) (vs : A) (w : World σ)
    (h : c.empty env = true) :
    function_base.operator_call env c vs w =
      some ((.error .InvokeOnEmpty : Except Error R), c, w.record (.call .empty_function)) := by
  rw [empty_iff] at h
  simp [function_base.operator_call, h, callable_vtable._invoke, invoke,
    empty_function.operator_call]

/-- C3, at the default-constructed container of the sample universe. -/
theorem invoke_empty_throws_witness :
    (function_base.ctor sampleEnv World.start).1.empty sampleEnv = true ∧
    function_base.operator_call sampleEnv (function_base.ctor sampleEnv World.start).1 5
        (function_base.ctor sampleEnv World.start).2 =
      some ((.error .InvokeOnEmpty : Except Error Nat),
        (function_base.ctor sampleEnv World.start).1,
        (function_base.ctor sampleEnv World.start).2.record (.call .empty_function)) :=
  ⟨by decide, invoke_empty_throws sampleEnv _ 5 _ (by decide)⟩

/-- The invoke entry reads the world only through the free store. -/
theorem invoke_heap_congr (env : Env σ A R) (T : Ty) (v : Slot σ) (vs : A) {w w1 : World σ}
    (h : w1.heap = w.heap) :
    (callable_vtable._invoke env T v vs w1).map (fun x => (x.1, x.2.1, x.2.2.heap)) =
      (callable_vtable._invoke env T v vs w).map (fun x => (x.1, x.2.1, x.2.2.heap)) := by
  unfold callable_vtable._invoke
  rw [get_heap_congr env T v h]
  cases vtable.get env T v w with
  | none => rfl
  | some o =>
    cases o with
    | empty_function => simp [World.record, h]
    | user n s =>
      simp only [Option.map_some']
      unfold vtable.put
      split
      · simp [World.record, h]
      · split <;> simp [World.record, World.store, h]

/-- C4. Move construction from any container `a`: the new container has
exactly `a`'s table pointer and slot, so its `empty()`, its `target_type()` and
the outcome of invoking it (result or exception, slot and free store
afterwards) are those of `a` before the move; `a` is left bound to
`empty_table` with `empty()` true; the free store is untouched and the only
payload-level operation is the default construction of the `empty_function`
left in `a`. -/
theorem move_ctor_transfers (env : Env σ A R) (a : function_base σ) (vs : A) (w : World σ) :
    (function.move_ctor env a w).1.vptr = a.vptr ∧
    (function.move_ctor env a w).1.object = a.object ∧
    (function.move_ctor env a w).2.1.vptr = .empty_table ∧
    (function.move_ctor env a w).2.1.empty env = true ∧
    (function.move_ctor env a w).1.empty env = a.empty env ∧
    (function.move_ctor env a w).1.target_type env = a.target_type env ∧
    (function_base.operator_call env (function.move_ctor env a w).1 vs
        (function.move_ctor env a w).2.2).map (fun x => (x.1, x.2.1, x.2.2.heap)) =
      (function_base.operator_call env a vs w).map (fun x => (x.1, x.2.1, x.2.2.heap)) ∧
    (function.move_ctor env a w).2.2.heap = w.heap ∧
    w.since (function.move_ctor env a w).2.2 = [.default_ctor .empty_function] := by
  have hw : (w.record (.default_ctor .empty_function)).heap = w.heap := rfl
  have hi := invoke_heap_congr env a.vptr.type a.object vs hw
  refine ⟨rfl, rfl, rfl, ?_, rfl, rfl, ?_, ?_, ?_⟩
  · simp [function.move_ctor, function_base.move_ctor, function_base.empty, VTablePtr.type]
  · simp only [function.move_ctor, function_base.move_ctor, function_base.operator_call,
      deref_invoke, default_construct_empty_function]
    cases h1 : callable_vtable._invoke env a.vptr.type a.object vs
        (w.record (.default_ctor .empty_function)) <;>
      cases h2 : callable_vtable._invoke env a.vptr.type a.object vs w <;>
      simp_all
  · simp [function.move_ctor, function_base.move_ctor, World.record]
  · simp [function.move_ctor, function_base.move_ctor, World.record, World.since]

/-- What `reset()` does to a well-formed container. It is defined and leaves
the container empty with an `empty_function` in its slot. An empty container
and the world are left as they were. A container that was not empty is bound to
`empty_table` and its payload is deleted through the table: the destructor
runs, a boxed payload's box is freed, and an `empty_function` is
default-constructed. -/
theorem reset_spec (env : Env σ A R) (c : function_base σ) (w : World σ)
    (hv : c.valid env w) :
    ∃ c1 w1, c.reset env w = some (c1, w1) ∧ c1.empty env = true ∧
      function_base.payload env c1 w1 = some .empty_function ∧
      (c.empty env = true → c1 = c ∧ w1 = w) ∧
      (c.empty env = false → c1 = ⟨.empty_table, .obj .empty_function⟩ ∧
        (env.size_of c.vptr.type ≤ sizeof_void_ptr → w1.heap = w.heap ∧
          w1.log = w.log ++ [.dtor c.vptr.type, .default_ctor .empty_function]) ∧
        (¬ env.size_of c.vptr.type ≤ sizeof_void_ptr → ∃ p, c.object = .word p ∧
          w1.box p = some .freed ∧ w1.heap = w.heap.set (p - 1) .freed ∧
          w1.log = w.log ++
            [.dtor c.vptr.type, .op_delete p, .default_ctor .empty_function])) := by
  cases he : c.empty env with
  | true =>
    refine ⟨c, w, reset_of_empty env c w he, he, ?_, ?_, ?_⟩
    · rw [empty_iff] at he
      simp [function_base.payload, he]
    · intro _
      exact ⟨rfl, rfl⟩
    · intro h
      cases h
  | false =>
    obtain ⟨o, ho⟩ := Option.isSome_iff_exists.1 hv
    obtain ⟨v1, w1, hd, hin, hbox⟩ := delete_of_get env ho
    refine ⟨⟨.empty_table, .obj .empty_function⟩,
      w1.record (.default_ctor .empty_function), ?_, ?_, ?_, ?_, ?_⟩
    · rw [reset_of_not_empty env c w he, hd]
      rfl
    · simp [function_base.empty, VTablePtr.type]
    · simp [function_base.payload, VTablePtr.type]
    · intro h
      cases h
    · intro _
      refine ⟨rfl, ?_, ?_⟩
      · intro hs
        obtain ⟨hh, hl⟩ := hin hs
        exact ⟨hh, by simp [World.record, hl]⟩
      · intro hs
        obtain ⟨p, hv1, hb, hh, hl⟩ := hbox hs
        exact ⟨p, hv1, by simpa [World.box, World.record] using hb, hh,
          by simp [World.record, hl]⟩

/-- The trace of `reset()` on a well-formed container: nothing for an empty
container; for any other, one destructor call of the payload's type, no
constructor of a payload, no copy and no table load. -/
theorem reset_trace (env : Env σ A R) (c : function_base σ) (w : World σ)
    {c1 : function_base σ} {w1 : World σ} (hv : c.valid env w)
    (hr : c.reset env w = some (c1, w1)) :
    ∃ l, w1.log = w.log ++ l ∧ (∀ T, Event.ctor T ∉ l) ∧ (∀ T, Event.copy_ctor T ∉ l) ∧
      (∀ T, Event.load_object T ∉ l) ∧ (c.empty env = true → l = []) ∧
      (c.empty env = false → l.count (.dtor c.vptr.type) = 1) := by
  obtain ⟨c2, w2, h2, _, _, hemp, hne⟩ := reset_spec env c w hv
  rw [hr] at h2
  cases h2
  cases he : c.empty env with
  | true =>
    obtain ⟨_, hw⟩ := hemp he
    subst hw
    exact ⟨[], by simp, by simp, by simp, by simp, (fun _ => rfl), (fun h => by cases h)⟩
  | false =>
    obtain ⟨_, hin, hbox⟩ := hne he
    have hT := (empty_eq_false_iff env c).1 he
    by_cases hs : env.size_of c.vptr.type ≤ sizeof_void_ptr
    · obtain ⟨_, hl⟩ := hin hs
      exact ⟨_, hl, by simp, by simp, by simp, (fun h => by cases h),
        (fun _ => by simp [hT])⟩
    · obtain ⟨p, _, _, _, hl⟩ := hbox hs
      exact ⟨_, hl, by simp, by simp, by simp, (fun h => by cases h),
        (fun _ => by simp [hT])⟩

/-- C5. Assigning a null function pointer or member pointer to a well-formed
container in any state is defined and leaves `empty()` true; the slot holds an
`empty_function` and no payload is constructed. A container that was not empty
is rebound to `empty_table` and its payload is deleted: its destructor runs
exactly once and, when it was boxed, its box is freed. A container that was
empty is left as it was. -/
theorem assign_null_pointer (env : Env σ A R) (c : function_base σ) (w : World σ)
    (n : Nat) (s : σ) (hv : c.valid env w) (hp : env.is_pointer n = true)
    (hn : env.is_null s = true) :
    ∃ c1 w1, c.assign env (.user n s) w = some (c1, w1) ∧
      c1.empty env = true ∧
      function_base.payload env c1 w1 = some .empty_function ∧
      (∀ T, Event.ctor T ∉ w.since w1) ∧
      (c.empty env = true → c1 = c ∧ w1 = w) ∧
      (c.empty env = false →
        c1.vptr = .empty_table ∧ (w.since w1).count (.dtor c.vptr.type) = 1 ∧
        (¬ env.size_of c.vptr.type ≤ sizeof_void_ptr →
          ∃ p, c.object = .word p ∧ w1.box p = some .freed)) := by
  have ha : c.assign env (.user n s) w = c.reset env w := by
    simp [function_base.assign, is_empty_function, hp, hn]
  obtain ⟨c1, w1, hr, he1, hp1, hemp, hne⟩ := reset_spec env c w hv
  obtain ⟨l, hl, hctor, _, _, _, hcount⟩ := reset_trace env c w hv hr
  refine ⟨c1, w1, ha.trans hr, he1, hp1, ?_, hemp, ?_⟩
  · rw [since_of_log hl]
    exact hctor
  · intro he
    obtain ⟨hc1, _, hbox⟩ := hne he
    refine ⟨by rw [hc1], ?_, ?_⟩
    · rw [since_of_log hl]
      exact hcount he
    · intro hs
      obtain ⟨p, hv1, hb, _, _⟩ := hbox hs
      exact ⟨p, hv1, hb⟩

/-- C5, at the container holding a boxed `BigAdder(10)`, assigned the null
function pointer. -/
theorem assign_null_pointer_witness :
    sampleBig.valid sampleEnv sampleWorld ∧
    sampleEnv.is_pointer 2 = true ∧ sampleEnv.is_null 0 = true ∧
    ∃ c1 w1, sampleBig.assign sampleEnv (.user 2 0) sampleWorld = some (c1, w1) ∧
      c1.empty sampleEnv = true ∧
      function_base.payload sampleEnv c1 w1 = some .empty_function ∧
      (∀ T, Event.ctor T ∉ sampleWorld.since w1) ∧
      (sampleBig.empty sampleEnv = true → c1 = sampleBig ∧ w1 = sampleWorld) ∧
      (sampleBig.empty sampleEnv = false →
        c1.vptr = .empty_table ∧
        (sampleWorld.since w1).count (.dtor sampleBig.vptr.type) = 1 ∧
        (¬ sampleEnv.size_of sampleBig.vptr.type ≤ sizeof_void_ptr →
          ∃ p, sampleBig.object = .word p ∧ w1.box p = some .freed)) :=
  ⟨by decide, by decide, by decide,
    assign_null_pointer sampleEnv sampleBig sampleWorld 2 0 (by decide) (by decide) (by decide)⟩

/-! ## Serialization -/

theorem valid_heap_congr (env : Env σ A R) (c : function_base σ) {w w1 : World σ}
    (h : w1.heap = w.heap) : c.valid env w1 ↔ c.valid env w := by
  simp [function_base.valid, get_heap_congr env _ _ h]

/-- What `save` writes for a container whose `empty()` is true. -/
theorem save_of_empty (env : Env σ A R) (c : function_base σ) (ar : List Tok) (w : World σ)
    (h : c.empty env = true) :
    basic_function.save env c ar w = some (ar ++ [.bool true], w) := by
  simp [basic_function.save, h]

/-- What `save` writes for a container holding a payload of a user type. -/
theorem save_of_user (env : Env σ A R) (c : function_base σ) (ar : List Tok) (w : World σ)
    {n : Nat} {s : σ} (h : function_base.payload env c w = some (.user n s)) :
    basic_function.save env c ar w =
      some (ar ++ [.bool false, .string (env.name (.user n))] ++ env.encode n s,
        w.record (.save_object (.user n))) := by
  have ht := get_type_eq env h
  unfold function_base.payload at h
  simp only [Obj.type] at ht
  rw [← ht] at h
  simp [basic_function.save, function_base.empty, ← ht,
    serializable_function_vtable._save_object, h]

/-- What `load` does on a stream that names a registered table and carries
bytes the table's type decodes. -/
theorem load_registered (env : Env σ A R) (registry : String → Option VTablePtr)
    (d : function_base σ) (w : World σ) {d0 : function_base σ} {w0 : World σ}
    {name : String} {n : Nat} {s : σ} {bytes rest : List Tok}
    (hr : d.reset env w = some (d0, w0))
    (hreg : registry name = some (get_vtable (.user n)))
    (hdec : env.decode n bytes = some (s, rest)) :
    basic_function.load env registry d (.bool false :: .string name :: bytes) w =
      some (.ok (),
        ⟨get_vtable (.user n), (vtable.construct env (.user n) d0.object (.user n s)
          (w0.record (.load_object (.user n)))).1⟩,
        (vtable.construct env (.user n) d0.object (.user n s)
          (w0.record (.load_object (.user n)))).2, rest) := by
  simp [basic_function.load, hr, input_archive.read_bool, input_archive.read_string,
    get_table_ptr, hreg, get_vtable, VTablePtr.type,
    serializable_function_vtable._load_object, hdec]

/-- What `load` does on a stream whose first item is `true`. -/
theorem load_flag_true (env : Env σ A R) (registry : String → Option VTablePtr)
    (d : function_base σ) (w : World σ) {d0 : function_base σ} {w0 : World σ}
    (rest : List Tok) (hr : d.reset env w = some (d0, w0)) :
    basic_function.load env registry d (.bool true :: rest) w = some (.ok (), d0, w0, rest) := by
  simp [basic_function.load, hr, input_archive.read_bool]

/-- C6. Round trip. Let `c` hold the payload `o`, let `d` be any well-formed
container, let the Registry resolve the name of `o`'s type to the table of that
type, and let the type's decoding invert its encoding. Then `save(c)` is
defined, and loading what it wrote into `d` is defined, succeeds and consumes
exactly what was written. Afterwards `d.empty()` equals `c.empty()`; when `c`
is not empty, `d` is bound to the table the Registry has under the name of
`c`'s table, holds a payload equal to `o`, and invoking `d` returns what
invoking `c` returns, for every argument. -/
theorem save_load_round_trip (env : Env σ A R) (registry : String → Option VTablePtr)
    (c d : function_base σ) (w : World σ) (o : Obj σ)
    (hc : function_base.payload env c w = some o) (hd : d.valid env w)
    (hreg : ∀ n, o.type = .user n →
      registry (env.name (.user n)) = some (get_vtable (.user n)))
    (hcodec : ∀ n s rest, o = .user n s → env.decode n (env.encode n s ++ rest) = some (s, rest)) :
    ∃ ar w1, basic_function.save env c [] w = some (ar, w1) ∧
      ∀ rest, ∃ d1 w2,
        basic_function.load env registry d (ar ++ rest) w1 = some (.ok (), d1, w2, rest) ∧
        d1.empty env = c.empty env ∧
        (c.empty env = false →
          registry (c.vptr.deref env).name = some d1.vptr ∧
          d1.vptr = get_vtable o.type ∧
          function_base.payload env d1 w2 = some o ∧
          ∀ vs, ∃ dc dw cc cw,
            function_base.operator_call env d1 vs w2 = some ((invoke env o vs).1, dc, dw) ∧
            function_base.operator_call env c vs w = some ((invoke env o vs).1, cc, cw)) := by
  have ht := get_type_eq env hc
  cases o with
  | empty_function =>
    simp only [Obj.type] at ht
    have hce : c.empty env = true := (empty_iff env c).2 ht.symm
    obtain ⟨d0, w0, hr, he0, _, _, _⟩ := reset_spec env d w hd
    refine ⟨_, _, save_of_empty env c [] w hce, ?_⟩
    intro rest
    have hl : basic_function.load env registry d (([] ++ [Tok.bool true]) ++ rest) w =
        some (.ok (), d0, w0, rest) := by
      simpa using load_flag_true env registry d w rest hr
    refine ⟨d0, w0, hl, ?_, ?_⟩
    · rw [he0, hce]
    · intro h
      rw [hce] at h
      cases h
  | user n s =>
    simp only [Obj.type] at ht
    have hd1 : d.valid env (w.record (.save_object (.user n))) :=
      (valid_heap_congr env d rfl).2 hd
    obtain ⟨d0, w0, hr, _, _, _, _⟩ := reset_spec env d _ hd1
    refine ⟨_, _, save_of_user env c [] w hc, ?_⟩
    intro rest
    have hl := load_registered env registry d _ hr (hreg n rfl) (hcodec n s rest rfl)
    have hs : Tok.bool false :: Tok.string (env.name (.user n)) :: (env.encode n s ++ rest) =
        (([] ++ [Tok.bool false, Tok.string (env.name (.user n))] ++ env.encode n s) ++ rest) := by
      simp
    rw [hs] at hl
    have hp : function_base.payload env
        ⟨get_vtable (.user n), (vtable.construct env (.user n) d0.object (.user n s)
          (w0.record (.load_object (.user n)))).1⟩
        (vtable.construct env (.user n) d0.object (.user n s)
          (w0.record (.load_object (.user n)))).2 = some (.user n s) :=
      get_construct env (.user n s) _ _
    refine ⟨_, _, hl, ?_, ?_⟩
    · have hce : c.empty env = false :=
        (empty_eq_false_iff env c).2 (by rw [← ht]; simp)
      rw [hce]
      simp [function_base.empty, get_vtable, VTablePtr.type]
    · intro _
      refine ⟨?_, rfl, hp, ?_⟩
      · simpa [← ht] using hreg n rfl
      · intro vs
        obtain ⟨dc, dw, h1, _⟩ := operator_call_of_payload env _ vs _ hp
        obtain ⟨cc, cw, h2, _⟩ := operator_call_of_payload env c vs w hc
        exact ⟨dc, dw, cc, cw, h1, h2⟩

/-- C6, at the boxed `BigAdder(10)` saved and loaded into a container that held
an inline `Adder(3)`. -/
theorem save_load_round_trip_witness :
    function_base.payload sampleEnv sampleBig sampleWorld = some (.user 1 10) ∧
    sampleAdder.valid sampleEnv sampleWorld ∧
    (∀ n, (Obj.user 1 10 : Obj Nat).type = .user n →
      sampleRegistry (sampleEnv.name (.user n)) = some (get_vtable (.user n))) ∧
    (∀ n s rest, (Obj.user 1 10 : Obj Nat) = .user n s →
      sampleEnv.decode n (sampleEnv.encode n s ++ rest) = some (s, rest)) ∧
    ∃ ar w1, basic_function.save sampleEnv sampleBig [] sampleWorld = some (ar, w1) ∧
      ∀ rest, ∃ d1 w2,
        basic_function.load sampleEnv sampleRegistry sampleAdder (ar ++ rest) w1 =
          some (.ok (), d1, w2, rest) ∧
        d1.empty sampleEnv = sampleBig.empty sampleEnv ∧
        (sampleBig.empty sampleEnv = false →
          sampleRegistry (sampleBig.vptr.deref sampleEnv).name = some d1.vptr ∧
          d1.vptr = get_vtable (Obj.user 1 10 : Obj Nat).type ∧
          function_base.payload sampleEnv d1 w2 = some (.user 1 10) ∧
          ∀ vs, ∃ dc dw cc cw,
            function_base.operator_call sampleEnv d1 vs w2 =
              some ((invoke sampleEnv (.user 1 10) vs).1, dc, dw) ∧
            function_base.operator_call sampleEnv sampleBig vs sampleWorld =
              some ((invoke sampleEnv (.user 1 10) vs).1, cc, cw)) :=
  ⟨by decide, by decide,
    (fun n h => by cases h; decide),
    (fun n s rest h => by cases h; rfl),
    save_load_round_trip sampleEnv sampleRegistry sampleBig sampleAdder sampleWorld (.user 1 10)
      (by decide) (by decide) (fun n h => by cases h; decide)
      (fun n s rest h => by cases h; rfl)⟩

/-- C7. Loading, into a well-formed container in any state, a stream whose flag
is `false` and whose name the Registry does not hold, is defined and throws
NameNotRegistered. The container is left as `reset()` leaves it: `empty()` is
true, and a payload it held has been deleted (destructor once, box freed when
boxed). No table's load entry has run, and the items after the name are left
unread. -/
theorem load_unregistered_name (env : Env σ A R) (registry : String → Option VTablePtr)
    (d : function_base σ) (w : World σ) (name : String) (rest : List Tok)
    (hd : d.valid env w) (hreg : registry name = none) :
    ∃ d1 w1,
      basic_function.load env registry d (.bool false :: .string name :: rest) w =
        some (.error .NameNotRegistered, d1, w1, rest) ∧
      d.reset env w = some (d1, w1) ∧
      d1.empty env = true ∧
      (∀ T, Event.load_object T ∉ w.since w1) ∧
      (∀ T, Event.ctor T ∉ w.since w1) ∧
      (d.empty env = false →
        (w.since w1).count (.dtor d.vptr.type) = 1 ∧
        (¬ env.size_of d.vptr.type ≤ sizeof_void_ptr →
          ∃ p, d.object = .word p ∧ w1.box p = some .freed)) := by
  obtain ⟨d1, w1, hr, he1, _, _, hne⟩ := reset_spec env d w hd
  obtain ⟨l, hl, hctor, _, hload, _, hcount⟩ := reset_trace env d w hd hr
  refine ⟨d1, w1, ?_, hr, he1, ?_, ?_, ?_⟩
  · simp [basic_function.load, hr, input_archive.read_bool, input_archive.read_string,
      get_table_ptr, hreg]
  · rw [since_of_log hl]
    exact hload
  · rw [since_of_log hl]
    exact hctor
  · intro he
    obtain ⟨_, _, hbox⟩ := hne he
    refine ⟨?_, ?_⟩
    · rw [since_of_log hl]
      exact hcount he
    · intro hs
      obtain ⟨p, hv1, hb, _, _⟩ := hbox hs
      exact ⟨p, hv1, hb⟩

/-- C7, at the boxed `BigAdder(10)` loading the name "unknown_name". -/
theorem load_unregistered_name_witness :
    sampleBig.valid sampleEnv sampleWorld ∧
    sampleRegistry "unknown_name" = none ∧
    ∃ d1 w1,
      basic_function.load sampleEnv sampleRegistry sampleBig
          [.bool false, .string "unknown_name", .byte 10] sampleWorld =
        some (.error .NameNotRegistered, d1, w1, [.byte 10]) ∧
      sampleBig.reset sampleEnv sampleWorld = some (d1, w1) ∧
      d1.empty sampleEnv = true ∧
      (∀ T, Event.load_object T ∉ sampleWorld.since w1) ∧
      (∀ T, Event.ctor T ∉ sampleWorld.since w1) ∧
      (sampleBig.empty sampleEnv = false →
        (sampleWorld.since w1).count (.dtor sampleBig.vptr.type) = 1 ∧
        (¬ sampleEnv.size_of sampleBig.vptr.type ≤ sizeof_void_ptr →
          ∃ p, sampleBig.object = .word p ∧ w1.box p = some .freed)) :=
  ⟨by decide, by decide,
    load_unregistered_name sampleEnv sampleRegistry sampleBig sampleWorld "unknown_name"
      [.byte 10] (by decide) (by decide)⟩

/-- C8. `save` on a well-formed container is defined and appends to the stream
exactly: the boolean `empty()`; and, only when that is false, the name of the
container's table followed by the bytes the table's save entry produces for
the slot. The container is not modified (`save` is `const` and returns none),
and the free store and the payload it holds are as before. -/
theorem save_writes (env : Env σ A R) (c : function_base σ) (ar : List Tok) (w : World σ)
    (hv : c.valid env w) :
    ∃ out w1, basic_function.save env c ar w = some (out, w1) ∧
      w1.heap = w.heap ∧
      function_base.payload env c w1 = function_base.payload env c w ∧
      (c.empty env = true → out = ar ++ [.bool true] ∧ w1 = w) ∧
      (c.empty env = false → ∃ bytes w2,
        (c.vptr.deref env).save_object c.object w [] = some (bytes, w2) ∧
        out = ar ++ [.bool false, .string (c.vptr.deref env).name] ++ bytes ∧
        w.since w1 = [.save_object c.vptr.type]) := by
  obtain ⟨o, ho⟩ := Option.isSome_iff_exists.1 hv
  have ht := get_type_eq env ho
  cases o with
  | empty_function =>
    simp only [Obj.type] at ht
    have he : c.empty env = true := (empty_iff env c).2 ht.symm
    refine ⟨_, w, save_of_empty env c ar w he, rfl, rfl, fun _ => ⟨rfl, rfl⟩, ?_⟩
    intro h
    rw [he] at h
    cases h
  | user n s =>
    simp only [Obj.type] at ht
    have he : c.empty env = false := (empty_eq_false_iff env c).2 (by rw [← ht]; simp)
    refine ⟨_, _, save_of_user env c ar w ho, rfl, ?_, ?_, ?_⟩
    · exact get_heap_congr env _ _ rfl
    · intro h
      rw [he] at h
      cases h
    · intro _
      refine ⟨env.encode n s, w.record (.save_object (.user n)), ?_, ?_, ?_⟩
      · rw [← ht] at ho
        simp [serializable_function_vtable._save_object, ← ht, ho]
      · simp [← ht]
      · simp [World.since, World.record, ← ht]

/-- C8, at the boxed `BigAdder(10)`. -/
theorem save_writes_witness :
    sampleBig.valid sampleEnv sampleWorld ∧
    ∃ out w1, basic_function.save sampleEnv sampleBig [] sampleWorld = some (out, w1) ∧
      w1.heap = sampleWorld.heap ∧
      function_base.payload sampleEnv sampleBig w1 =
        function_base.payload sampleEnv sampleBig sampleWorld ∧
      (sampleBig.empty sampleEnv = true → out = [] ++ [.bool true] ∧ w1 = sampleWorld) ∧
      (sampleBig.empty sampleEnv = false → ∃ bytes w2,
        (sampleBig.vptr.deref sampleEnv).save_object sampleBig.object sampleWorld [] =
          some (bytes, w2) ∧
        out = [] ++ [.bool false, .string (sampleBig.vptr.deref sampleEnv).name] ++ bytes ∧
        sampleWorld.since w1 = [.save_object sampleBig.vptr.type]) :=
  ⟨by decide, save_writes sampleEnv sampleBig [] sampleWorld (by decide)⟩

/-- The table's load entry only adds to the trace. -/
theorem load_object_log (env : Env σ A R) (T : Ty) (v : Slot σ) (w : World σ) (ar : List Tok) :
    ∃ l, (serializable_function_vtable._load_object env T v w ar).2.2.1.log = w.log ++ l := by
  cases T with
  | empty_function =>
    exact ⟨_, by simp [serializable_function_vtable._load_object, World.record]; rfl⟩
  | user n =>
    cases hdec : env.decode n ar with
    | none =>
      exact ⟨[.load_object (.user n)], by
        simp [serializable_function_vtable._load_object, hdec, World.record]⟩
    | some r =>
      by_cases hs : env.size_of (.user n) ≤ sizeof_void_ptr
      · exact ⟨[.load_object (.user n), .ctor (.user n)], by
          simp [serializable_function_vtable._load_object, hdec, vtable.construct, hs,
            World.record]⟩
      · exact ⟨[.load_object (.user n), .op_new (w.heap.length + 1), .ctor (.user n)], by
          simp [serializable_function_vtable._load_object, hdec, vtable.construct, hs,
            World.record, World.new]⟩

/-- C9. `load` into a well-formed container resets it first: whatever the
stream holds, `load` is defined and the trace it leaves begins with the trace
of `reset()`, and on an exhausted stream the container is left reset. When the
flag read is `true`, `load` succeeds, reads nothing after the flag, runs no
table's load entry and leaves the container as `reset()` leaves it: `empty()`
is true, and a payload it held has been deleted. -/
theorem load_empty_flag (env : Env σ A R) (registry : String → Option VTablePtr)
    (d : function_base σ) (w : World σ) (rest : List Tok) (hd : d.valid env w) :
    ∃ d1 w1, d.reset env w = some (d1, w1) ∧
      basic_function.load env registry d (.bool true :: rest) w = some (.ok (), d1, w1, rest) ∧
      d1.empty env = true ∧
      (∀ T, Event.load_object T ∉ w.since w1) ∧
      (∀ T, Event.ctor T ∉ w.since w1) ∧
      (d.empty env = false →
        (w.since w1).count (.dtor d.vptr.type) = 1 ∧
        (¬ env.size_of d.vptr.type ≤ sizeof_void_ptr →
          ∃ p, d.object = .word p ∧ w1.box p = some .freed)) ∧
      basic_function.load env registry d [] w = some (.error .archive_error, d1, w1, []) ∧
      (∀ ar, ∃ res d2 w2 ar2 l,
        basic_function.load env registry d ar w = some (res, d2, w2, ar2) ∧
        w2.log = w1.log ++ l) := by
  obtain ⟨d1, w1, hr, he1, _, _, hne⟩ := reset_spec env d w hd
  obtain ⟨l, hl, hctor, _, hload, _, hcount⟩ := reset_trace env d w hd hr
  refine ⟨d1, w1, hr, load_flag_true env registry d w rest hr, he1, ?_, ?_, ?_, ?_, ?_⟩
  · rw [since_of_log hl]
    exact hload
  · rw [since_of_log hl]
    exact hctor
  · intro he
    obtain ⟨_, _, hbox⟩ := hne he
    refine ⟨?_, ?_⟩
    · rw [since_of_log hl]
      exact hcount he
    · intro hs
      obtain ⟨p, hv1, hb, _, _⟩ := hbox hs
      exact ⟨p, hv1, hb⟩
  · simp [basic_function.load, hr, input_archive.read_bool]
  · intro ar
    cases hb : input_archive.read_bool ar with
    | error e =>
      refine ⟨.error e, d1, w1, ar, [], ?_, by simp⟩
      simp [basic_function.load, hr, hb]
    | ok b =>
      by_cases hflag : b.1 = true
      · refine ⟨.ok (), d1, w1, b.2, [], ?_, by simp⟩
        simp [basic_function.load, hr, hb, hflag]
      · have hf : b.1 = false := by simpa using hflag
        cases hn : input_archive.read_string b.2 with
        | error e =>
          refine ⟨.error e, d1, w1, b.2, [], ?_, by simp⟩
          simp [basic_function.load, hr, hb, hf, hn]
        | ok n =>
          cases hg : get_table_ptr registry n.1 with
          | error e =>
            refine ⟨.error e, d1, w1, n.2, [], ?_, by simp⟩
            simp [basic_function.load, hr, hb, hf, hn, hg]
          | ok vptr =>
            obtain ⟨l2, hl2⟩ := load_object_log env vptr.type d1.object w1 n.2
            refine ⟨(serializable_function_vtable._load_object env vptr.type d1.object w1 n.2).1,
              ⟨vptr, (serializable_function_vtable._load_object env vptr.type
                d1.object w1 n.2).2.1⟩,
              (serializable_function_vtable._load_object env vptr.type d1.object w1 n.2).2.2.1,
              (serializable_function_vtable._load_object env vptr.type d1.object w1 n.2).2.2.2,
              l2, ?_, hl2⟩
            simp [basic_function.load, hr, hb, hf, hn, hg]

/-- C9, at the boxed `BigAdder(10)` loading a stream whose flag is `true`. -/
theorem load_empty_flag_witness :
    sampleBig.valid sampleEnv sampleWorld ∧
    ∃ d1 w1, sampleBig.reset sampleEnv sampleWorld = some (d1, w1) ∧
      basic_function.load sampleEnv sampleRegistry sampleBig
        (.bool true :: [.string "adder_v1", .byte 7]) sampleWorld =
        some (.ok (), d1, w1, [.string "adder_v1", .byte 7]) ∧
      d1.empty sampleEnv = true ∧
      (∀ T, Event.load_object T ∉ sampleWorld.since w1) ∧
      (∀ T, Event.ctor T ∉ sampleWorld.since w1) ∧
      (sampleBig.empty sampleEnv = false →
        (sampleWorld.since w1).count (.dtor sampleBig.vptr.type) = 1 ∧
        (¬ sampleEnv.size_of sampleBig.vptr.type ≤ sizeof_void_ptr →
          ∃ p, sampleBig.object = .word p ∧ w1.box p = some .freed)) ∧
      basic_function.load sampleEnv sampleRegistry sampleBig [] sampleWorld =
        some (.error .archive_error, d1, w1, []) ∧
      (∀ ar, ∃ res d2 w2 ar2 l,
        basic_function.load sampleEnv sampleRegistry sampleBig ar sampleWorld =
          some (res, d2, w2, ar2) ∧
        w2.log = w1.log ++ l) :=
  ⟨by decide, load_empty_flag sampleEnv sampleRegistry sampleBig sampleWorld
    [.string "adder_v1", .byte 7] (by decide)⟩

/-! ## Copying -/

/-- A payload read in a world is still read when boxes are added to the free
store. -/
theorem get_heap_append (env : Env σ A R) {T : Ty} {v : Slot σ} {w w1 : World σ} {o : Obj σ}
    (extra : List (Box σ)) (h : vtable.get env T v w = some o)
    (hw : w1.heap = w.heap ++ extra) : vtable.get env T v w1 = some o := by
  by_cases hs : env.size_of T ≤ sizeof_void_ptr
  · rw [← h]
    simp [vtable.get, hs]
  · obtain ⟨p, rfl, hb⟩ := get_boxed env hs h
    obtain ⟨hp, hlt⟩ := box_lt w hb
    have ht := get_type_eq env h
    have hb1 : w1.box p = some (.live o) := by
      rw [← hb]
      simp [World.box, hp, hw, List.getElem?_append_left hlt]
    simp [vtable.get, hs, hb1, ht]

/-- What the table's copy entry does with a source slot holding `o`: the
destination holds a payload equal to `o`, built by one copy construction,
inline in the destination slot or in a fresh box. -/
theorem copy_of_get (env : Env σ A R) {T : Ty} (v : Slot σ) {src : Slot σ} {w : World σ}
    {o : Obj σ} (h : vtable.get env T src w = some o) :
    ∃ v1 w1, copyable_vtable._copy env T v src w = some (v1, w1) ∧
      vtable.get env T v1 w1 = some o ∧
      (env.size_of T ≤ sizeof_void_ptr →
        v1 = .obj o ∧ w1.heap = w.heap ∧ w1.log = w.log ++ [.copy_ctor T]) ∧
      (¬ env.size_of T ≤ sizeof_void_ptr →
        v1 = .word (w.heap.length + 1) ∧ w1.heap = w.heap ++ [.live o] ∧
        w1.log = w.log ++ [.op_new (w.heap.length + 1), .copy_ctor T]) := by
  have ht := get_type_eq env h
  by_cases hs : env.size_of T ≤ sizeof_void_ptr
  · refine ⟨.obj o, w.record (.copy_ctor T), ?_, ?_, ?_, ?_⟩
    · simp [copyable_vtable._copy, h, hs]
    · subst ht
      cases o <;> simp_all [vtable.get, Obj.type]
    · intro _
      exact ⟨rfl, rfl, rfl⟩
    · intro hn
      exact absurd hs hn
  · refine ⟨.word (w.heap.length + 1), (w.new o).2.record (.copy_ctor T), ?_, ?_, ?_, ?_⟩
    · simp [copyable_vtable._copy, h, hs, World.new]
    · simp [vtable.get, hs, World.new, World.record, World.box, ht]
    · intro hp
      exact absurd hp hs
    · intro _
      exact ⟨rfl, rfl, by simp [World.new, World.record]⟩

/-- C10. Copy construction from a well-formed container `s` is defined. The
copy is bound to `s`'s table and its `empty()` equals `s.empty()`; `s` and the
payload it holds are as before. When `s` is empty, no copy entry runs and the
free store is as before. When `s` is not empty, the slot of the copy is what
the copy entry of `s`'s table produced from `s`'s slot: it holds a payload
equal to `s`'s, built by exactly one copy construction, inline when the type
is stored inline and in a fresh box, distinct from `s`'s, when it is boxed. -/
theorem copy_ctor_copies (env : Env σ A R) (s : function_base σ) (w : World σ)
    (hv : s.valid env w) :
    ∃ c w1, function.copy_ctor env s w = some (c, w1) ∧
      c.vptr = s.vptr ∧ c.empty env = s.empty env ∧
      function_base.payload env s w1 = function_base.payload env s w ∧
      (s.empty env = true → w1.heap = w.heap ∧ ∀ T, Event.copy_ctor T ∉ w.since w1) ∧
      (s.empty env = false →
        (∃ w0, (s.vptr.deref env).copy .dead s.object w0 = some (c.object, w1) ∧
          w0.heap = w.heap) ∧
        function_base.payload env c w1 = function_base.payload env s w ∧
        (w.since w1).count (.copy_ctor s.vptr.type) = 1 ∧
        (env.size_of s.vptr.type ≤ sizeof_void_ptr → w1.heap = w.heap) ∧
        (¬ env.size_of s.vptr.type ≤ sizeof_void_ptr →
          c.object = .word (w.heap.length + 1) ∧ c.object ≠ s.object ∧
          w.box (w.heap.length + 1) = none)) := by
  obtain ⟨o, ho⟩ := Option.isSome_iff_exists.1 hv
  cases he : s.empty env with
  | true =>
    have hT := (empty_iff env s).1 he
    refine ⟨⟨s.vptr, .dead⟩,
      (w.record (.default_ctor .empty_function)).record (.dtor .empty_function),
      ?_, rfl, ?_, ?_, ?_, ?_⟩
    · simp [function.copy_ctor, ctor_eq, hT]
    · simpa [function_base.empty] using he
    · exact get_heap_congr env _ _ rfl
    · intro _
      refine ⟨rfl, ?_⟩
      intro T
      simp [World.since, World.record]
    · intro h
      cases h
  | false =>
    have hT := (empty_eq_false_iff env s).1 he
    have ho1 : vtable.get env s.vptr.type s.object
        ((w.record (.default_ctor .empty_function)).record (.dtor .empty_function)) = some o :=
      (get_heap_congr env _ _ rfl).trans ho
    obtain ⟨v1, w1, hcopy, hget, hin, hbox⟩ := copy_of_get env .dead ho1
    have hext : ∃ extra, w1.heap = w.heap ++ extra := by
      by_cases hs : env.size_of s.vptr.type ≤ sizeof_void_ptr
      · exact ⟨[], by simpa [World.record] using (hin hs).2.1⟩
      · exact ⟨[.live o], by simpa [World.record] using (hbox hs).2.1⟩
    obtain ⟨extra, hextra⟩ := hext
    have hs1 : function_base.payload env s w1 = function_base.payload env s w := by
      unfold function_base.payload
      rw [ho]
      exact get_heap_append env extra ho hextra
    refine ⟨⟨s.vptr, v1⟩, w1, ?_, rfl, ?_, hs1, ?_, ?_⟩
    · simp [function.copy_ctor, ctor_eq, hT, hcopy]
    · simpa [function_base.empty] using he
    · intro h
      cases h
    · intro _
      refine ⟨⟨_, hcopy, rfl⟩, ?_, ?_, ?_, ?_⟩
      · unfold function_base.payload
        rw [ho]
        exact hget
      · by_cases hs : env.size_of s.vptr.type ≤ sizeof_void_ptr
        · have hl := (hin hs).2.2
          have : w.since w1 = [.default_ctor .empty_function, .dtor .empty_function,
              .copy_ctor s.vptr.type] := since_of_log (by simp [hl, World.record])
          simp [this]
        · have hl := (hbox hs).2.2
          have : w.since w1 = [.default_ctor .empty_function, .dtor .empty_function,
              .op_new (w.heap.length + 1), .copy_ctor s.vptr.type] :=
            since_of_log (by simp [hl, World.record])
          simp [this]
      · intro hs
        simpa [World.record] using (hin hs).2.1
      · intro hs
        obtain ⟨p, hp, hb⟩ := get_boxed env hs ho
        obtain ⟨_, hlt⟩ := box_lt w hb
        have hv1 : v1 = .word (w.heap.length + 1) := by
          simpa [World.record] using (hbox hs).1
        refine ⟨hv1, ?_, ?_⟩
        · rw [hv1, hp]
          intro heq
          cases heq
          omega
        · simp [World.box]

/-- C10, at the boxed `BigAdder(10)`. -/
theorem copy_ctor_copies_witness :
    sampleBig.valid sampleEnv sampleWorld ∧
    ∃ c w1, function.copy_ctor sampleEnv sampleBig sampleWorld = some (c, w1) ∧
      c.vptr = sampleBig.vptr ∧ c.empty sampleEnv = sampleBig.empty sampleEnv ∧
      function_base.payload sampleEnv sampleBig w1 =
        function_base.payload sampleEnv sampleBig sampleWorld ∧
      (sampleBig.empty sampleEnv = true →
        w1.heap = sampleWorld.heap ∧ ∀ T, Event.copy_ctor T ∉ sampleWorld.since w1) ∧
      (sampleBig.empty sampleEnv = false →
        (∃ w0, (sampleBig.vptr.deref sampleEnv).copy .dead sampleBig.object w0 =
            some (c.object, w1) ∧ w0.heap = sampleWorld.heap) ∧
        function_base.payload sampleEnv c w1 =
          function_base.payload sampleEnv sampleBig sampleWorld ∧
        (sampleWorld.since w1).count (.copy_ctor sampleBig.vptr.type) = 1 ∧
        (sampleEnv.size_of sampleBig.vptr.type ≤ sizeof_void_ptr →
          w1.heap = sampleWorld.heap) ∧
        (¬ sampleEnv.size_of sampleBig.vptr.type ≤ sizeof_void_ptr →
          c.object = .word (sampleWorld.heap.length + 1) ∧ c.object ≠ sampleBig.object ∧
          sampleWorld.box (sampleWorld.heap.length + 1) = none)) :=
  ⟨by decide, copy_ctor_copies sampleEnv sampleBig sampleWorld (by decide)⟩

/-! ## reset and swap -/

/-- C14. `reset()` on a well-formed container is defined and leaves `empty()`
true. A container that was not empty is rebound to `empty_table` and its
payload is deleted through the table's delete entry, whose destructor call is
the only one in the trace. A container that was empty, and the world, are left
as they were. A second `reset()` changes nothing: `reset` is idempotent. -/
theorem reset_idempotent (env : Env σ A R) (c : function_base σ) (w : World σ)
    (hv : c.valid env w) :
    ∃ c1 w1, c.reset env w = some (c1, w1) ∧ c1.empty env = true ∧
      (c.empty env = false →
        c1.vptr = .empty_table ∧
        (∃ r, (c.vptr.deref env).delete_ c.object w = some r ∧
          w1 = r.2.record (.default_ctor .empty_function)) ∧
        (w.since w1).count (.dtor c.vptr.type) = 1 ∧
        (¬ env.size_of c.vptr.type ≤ sizeof_void_ptr →
          ∃ p, c.object = .word p ∧ w1.box p = some .freed)) ∧
      (c.empty env = true → c1 = c ∧ w1 = w) ∧
      c1.reset env w1 = some (c1, w1) := by
  obtain ⟨c1, w1, hr, he1, _, hemp, hne⟩ := reset_spec env c w hv
  obtain ⟨l, hl, _, _, _, _, hcount⟩ := reset_trace env c w hv hr
  refine ⟨c1, w1, hr, he1, ?_, hemp, reset_of_empty env c1 w1 he1⟩
  intro he
  obtain ⟨hc1, _, hbox⟩ := hne he
  refine ⟨by rw [hc1], ?_, ?_, ?_⟩
  · rw [reset_of_not_empty env c w he] at hr
    cases hd : vtable._delete env c.vptr.type c.object w with
    | none => simp [hd] at hr
    | some r =>
      refine ⟨r, by simpa using hd, ?_⟩
      simp only [hd, Option.map_some', Option.some.injEq, Prod.mk.injEq] at hr
      exact hr.2.symm
  · rw [since_of_log hl]
    exact hcount he
  · intro hs
    obtain ⟨p, hv1, hb, _, _⟩ := hbox hs
    exact ⟨p, hv1, hb⟩

/-- C14, at the container holding the boxed `BigAdder(10)`. -/
theorem reset_idempotent_witness :
    sampleBig.valid sampleEnv sampleWorld ∧
    ∃ c1 w1, sampleBig.reset sampleEnv sampleWorld = some (c1, w1) ∧
      c1.empty sampleEnv = true ∧
      (sampleBig.empty sampleEnv = false →
        c1.vptr = .empty_table ∧
        (∃ r, (sampleBig.vptr.deref sampleEnv).delete_ sampleBig.object sampleWorld = some r ∧
          w1 = r.2.record (.default_ctor .empty_function)) ∧
        (sampleWorld.since w1).count (.dtor sampleBig.vptr.type) = 1 ∧
        (¬ sampleEnv.size_of sampleBig.vptr.type ≤ sizeof_void_ptr →
          ∃ p, sampleBig.object = .word p ∧ w1.box p = some .freed)) ∧
      (sampleBig.empty sampleEnv = true → c1 = sampleBig ∧ w1 = sampleWorld) ∧
      c1.reset sampleEnv w1 = some (c1, w1) :=
  ⟨by decide, reset_idempotent sampleEnv sampleBig sampleWorld (by decide)⟩

/-- C15. `a.swap(b)` leaves `a` with `b`'s former table pointer and slot and
`b` with `a`'s; it takes no world, so it runs no payload-level operation and
touches neither the free store nor the trace. Swapping twice restores both
containers, and `b.swap(a)` leaves the two containers as `a.swap(b)` does. -/
theorem swap_exchanges (a b : function_base σ) :
    (a.swap b).1 = b ∧ (a.swap b).2 = a ∧
    (a.swap b).1.vptr = b.vptr ∧ (a.swap b).1.object = b.object ∧
    (a.swap b).2.vptr = a.vptr ∧ (a.swap b).2.object = a.object ∧
    ((a.swap b).1.swap (a.swap b).2) = (a, b) ∧
    (b.swap a).2 = (a.swap b).1 ∧ (b.swap a).1 = (a.swap b).2 := by
  cases a
  cases b
  simp [function_base.swap]

/-! ## assign with a foreign payload -/

/-- What `_destruct<T>` does to a slot holding a `T`: an inline slot is left
dead; a box is left allocated, with its object destroyed. -/
theorem destruct_of_get (env : Env σ A R) {T : Ty} {v : Slot σ} {w : World σ} {o : Obj σ}
    (h : vtable.get env T v w = some o) :
    ∃ v1 w1, vtable._destruct env T v w = some (v1, w1) ∧
      w1.log = w.log ++ [.dtor T] ∧ w1.heap.length = w.heap.length ∧
      (env.size_of T ≤ sizeof_void_ptr → w1.heap = w.heap) ∧
      (¬ env.size_of T ≤ sizeof_void_ptr →
        ∃ p, v = .word p ∧ v1 = .word p ∧ w1.box p = some .destroyed) := by
  by_cases hs : env.size_of T ≤ sizeof_void_ptr
  · refine ⟨.dead, w.record (.dtor T), ?_, rfl, rfl, fun _ => rfl, fun hn => absurd hs hn⟩
    simp [vtable._destruct, h, hs]
  · obtain ⟨p, rfl, hb⟩ := get_boxed env hs h
    refine ⟨.word p, (w.store p .destroyed).record (.dtor T), ?_, rfl, ?_,
      fun hp => absurd hp hs, fun _ => ⟨p, rfl, rfl, ?_⟩⟩
    · simp [vtable._destruct, h, hs]
    · simp [World.record, World.store]
    · have := box_store w .destroyed hb
      simpa [World.box, World.record] using this

/-- The trace and the free store of `construct<T>`: one constructor call, in
the slot or in a box appended to the free store. -/
theorem construct_world (env : Env σ A R) (T : Ty) (v : Slot σ) (f : Obj σ) (w : World σ) :
    (env.size_of T ≤ sizeof_void_ptr →
      (vtable.construct env T v f w).2.log = w.log ++ [.ctor T] ∧
      (vtable.construct env T v f w).2.heap = w.heap) ∧
    (¬ env.size_of T ≤ sizeof_void_ptr →
      (vtable.construct env T v f w).1 = .word (w.heap.length + 1) ∧
      (vtable.construct env T v f w).2.log =
        w.log ++ [.op_new (w.heap.length + 1), .ctor T] ∧
      (vtable.construct env T v f w).2.heap = w.heap ++ [.live f]) := by
  constructor
  · intro hs
    simp [vtable.construct, hs, World.record]
  · intro hs
    simp [vtable.construct, hs, World.record, World.new]

/-- What `assign` does with a payload that is not a null pointer, on a
well-formed container: it is defined, binds the table of the payload's type and
leaves the payload in the slot; through `reconstruct` when that table was
bound already, and through `reset()`, the destruction of the `empty_function`
and `construct` otherwise. -/
theorem assign_spec (env : Env σ A R) (c : function_base σ) (f : Obj σ) (w : World σ)
    (hv : c.valid env w) (hf : is_empty_function env f = false) :
    ∃ c1 w1, c.assign env f w = some (c1, w1) ∧ c1.vptr = get_vtable f.type ∧
      function_base.payload env c1 w1 = some f ∧
      (c.vptr = get_vtable f.type →
        vtable.reconstruct env f.type c.object f w = some (c1.object, w1) ∧
        ∃ w0, w0.log = w.log ++ [.dtor f.type] ∧ w0.heap.length = w.heap.length ∧
          vtable.construct env f.type c1.object f w0 = (c1.object, w1)) ∧
      (c.vptr ≠ get_vtable f.type →
        ∃ c0 w0, c.reset env w = some (c0, w0) ∧
          vtable.construct env f.type .dead f (w0.record (.dtor .empty_function)) =
            (c1.object, w1)) := by
  by_cases hsame : c.vptr = get_vtable f.type
  · obtain ⟨o, ho⟩ := Option.isSome_iff_exists.1 hv
    have hT : c.vptr.type = f.type := by rw [hsame]; rfl
    rw [hT] at ho
    obtain ⟨v1, w0, hd, hl, hlen, _, _⟩ := destruct_of_get env ho
    refine ⟨⟨c.vptr, (vtable.construct env f.type v1 f w0).1⟩,
      (vtable.construct env f.type v1 f w0).2, ?_, hsame, ?_, ?_, ?_⟩
    · simp [function_base.assign, hf, hsame, function_base.get_table_ptr,
        vtable.reconstruct, hd]
    · unfold function_base.payload
      rw [hsame]
      exact get_construct env f _ _
    · intro _
      refine ⟨by simp [vtable.reconstruct, hd], w0, hl, hlen, ?_⟩
      simp [vtable.construct]
    · intro hne
      exact absurd hsame hne
  · obtain ⟨c0, w0, hr, _, _, _, _⟩ := reset_spec env c w hv
    refine ⟨⟨get_vtable f.type, (vtable.construct env f.type .dead f
        (w0.record (.dtor .empty_function))).1⟩,
      (vtable.construct env f.type .dead f (w0.record (.dtor .empty_function))).2,
      ?_, rfl, ?_, ?_, ?_⟩
    · simp [function_base.assign, hf, hsame, function_base.get_table_ptr, hr]
    · exact get_construct env f _ _
    · intro h
      exact absurd h hsame
    · intro _
      exact ⟨c0, w0, hr, rfl⟩

/-! ## Type identity and tables -/

/-- C17. `target_type()` of an empty container is `typeid(void)`; of any other
container it is the tag its table reports, `typeid(T)` for the type `T` the
table was built for. After a payload `f` that is not a null pointer has been
assigned to a well-formed container, a container that is not empty reports
`typeid` of the decayed type of `f`. -/
theorem target_type_spec (env : Env σ A R) (c : function_base σ) (f : Obj σ) (w : World σ)
    (hv : c.valid env w) (hf : is_empty_function env f = false) :
    (c.empty env = true → c.target_type env = .void) ∧
    (c.empty env = false →
      c.target_type env = (c.vptr.deref env).get_type ∧
      (c.vptr.deref env).get_type = vtable._get_type c.vptr.type ∧
      c.target_type env ≠ .void) ∧
    ∃ c1 w1, c.assign env f w = some (c1, w1) ∧
      (c1.empty env = false → c1.target_type env = .of f.type) ∧
      (c1.empty env = true → c1.target_type env = .void) := by
  refine ⟨?_, ?_, ?_⟩
  · intro he
    simp [function_base.target_type, he]
  · intro he
    simp [function_base.target_type, he, vtable._get_type]
  · obtain ⟨c1, w1, ha, hp, _, _, _⟩ := assign_spec env c f w hv hf
    refine ⟨c1, w1, ha, ?_, ?_⟩
    · intro he
      simp [function_base.target_type, he, hp, get_vtable, VTablePtr.type]
    · intro he
      simp [function_base.target_type, he]

/-- C17, at the boxed `BigAdder(10)` assigned an `Adder(3)`. -/
theorem target_type_spec_witness :
    sampleBig.valid sampleEnv sampleWorld ∧
    is_empty_function sampleEnv (.user 0 3) = false ∧
    (sampleBig.empty sampleEnv = true → sampleBig.target_type sampleEnv = .void) ∧
    (sampleBig.empty sampleEnv = false →
      sampleBig.target_type sampleEnv = (sampleBig.vptr.deref sampleEnv).get_type ∧
      (sampleBig.vptr.deref sampleEnv).get_type = vtable._get_type sampleBig.vptr.type ∧
      sampleBig.target_type sampleEnv ≠ .void) ∧
    ∃ c1 w1, sampleBig.assign sampleEnv (.user 0 3) sampleWorld = some (c1, w1) ∧
      (c1.empty sampleEnv = false →
        c1.target_type sampleEnv = .of (Obj.user 0 3 : Obj Nat).type) ∧
      (c1.empty sampleEnv = true → c1.target_type sampleEnv = .void) :=
  ⟨by decide, by decide,
    target_type_spec sampleEnv sampleBig (.user 0 3) sampleWorld (by decide) (by decide)⟩

/-- C18, as stated, fails at the default-constructed container and
`T = empty_function`: `target_type()` is `typeid(void)`, not `typeid(T)`, and
`target<T>()` is not null. -/
theorem target_empty_function_not_null :
    (function_base.ctor sampleEnv World.start).1.empty sampleEnv = true ∧
    (function_base.ctor sampleEnv World.start).1.target_type sampleEnv
      ≠ .of .empty_function ∧
    (function_base.ctor sampleEnv World.start).1.target sampleEnv .empty_function
      (function_base.ctor sampleEnv World.start).2 = some (some .empty_function) := by
  decide

/-- C18, amended. `target<T>()` on a well-formed container is defined and is a
plain value, never an exception. It is null exactly when the tag the table
reports, `vptr->get_type()`, differs from `typeid(T)`, and points to the
payload otherwise. For a container that is not empty that tag is
`target_type()`. For an empty container `target_type()` is `typeid(void)`
while the table reports `typeid(empty_function)`, so `target<T>()` is null
exactly for the types `T` other than `empty_function`. -/
theorem target_spec (env : Env σ A R) (c : function_base σ) (T : Ty) (w : World σ)
    (hv : c.valid env w) :
    c.target env T w ≠ none ∧
    (c.target env T w = some none ↔ (c.vptr.deref env).get_type ≠ .of T) ∧
    ((c.vptr.deref env).get_type = .of T →
      (function_base.payload env c w).isSome ∧
      c.target env T w = some (function_base.payload env c w)) ∧
    (c.empty env = false →
      ((c.vptr.deref env).get_type = .of T ↔ c.target_type env = .of T)) ∧
    (c.empty env = true →
      c.target_type env = .void ∧
      (c.target env T w = some none ↔ T ≠ .empty_function)) := by
  obtain ⟨o, ho⟩ := Option.isSome_iff_exists.1 hv
  have hmatch : (c.vptr.deref env).get_type = .of T → c.target env T w = some (some o) := by
    intro h
    have hT : c.vptr.type = T := by simpa using h
    subst hT
    simp [function_base.target, ho]
  have hmiss : (c.vptr.deref env).get_type ≠ .of T → c.target env T w = some none := by
    intro h
    simp only [function_base.target, h, ne_eq, not_false_eq_true, if_true]
  have hnull : c.target env T w = some none ↔ (c.vptr.deref env).get_type ≠ .of T := by
    constructor
    · intro h hm
      rw [hmatch hm] at h
      cases h
    · exact hmiss
  refine ⟨?_, hnull, ?_, ?_, ?_⟩
  · by_cases h : (c.vptr.deref env).get_type = .of T
    · rw [hmatch h]
      simp
    · rw [hmiss h]
      simp
  · intro h
    unfold function_base.payload
    rw [ho]
    exact ⟨rfl, hmatch h⟩
  · intro he
    simp [function_base.target_type, he]
  · intro he
    refine ⟨by simp [function_base.target_type, he], ?_⟩
    rw [hnull]
    rw [empty_iff] at he
    simp only [deref_get_type, he, ne_eq, type_info.of.injEq]
    constructor
    · intro h h1
      exact h h1.symm
    · intro h h1
      exact h h1.symm

/-- C18 amended, at the boxed `BigAdder(10)` asked for an `Adder`. -/
theorem target_spec_witness :
    sampleBig.valid sampleEnv sampleWorld ∧
    sampleBig.target sampleEnv (.user 0) sampleWorld ≠ none ∧
    (sampleBig.target sampleEnv (.user 0) sampleWorld = some none ↔
      (sampleBig.vptr.deref sampleEnv).get_type ≠ .of (.user 0)) ∧
    ((sampleBig.vptr.deref sampleEnv).get_type = .of (.user 0) →
      (function_base.payload sampleEnv sampleBig sampleWorld).isSome ∧
      sampleBig.target sampleEnv (.user 0) sampleWorld =
        some (function_base.payload sampleEnv sampleBig sampleWorld)) ∧
    (sampleBig.empty sampleEnv = false →
      ((sampleBig.vptr.deref sampleEnv).get_type = .of (.user 0) ↔
        sampleBig.target_type sampleEnv = .of (.user 0))) ∧
    (sampleBig.empty sampleEnv = true →
      sampleBig.target_type sampleEnv = .void ∧
      (sampleBig.target sampleEnv (.user 0) sampleWorld = some none ↔
        Ty.user 0 ≠ .empty_function)) :=
  ⟨by decide, target_spec sampleEnv sampleBig (.user 0) sampleWorld (by decide)⟩

theorem reset_result (env : Env σ A R) {c c1 : function_base σ} {w w1 : World σ}
    (h : c.reset env w = some (c1, w1)) :
    (c1.vptr = .empty_table ∨ c1 = c) ∧ c1.empty env = true := by
  unfold function_base.reset at h
  split at h
  · split at h
    · cases h
    · cases h
      exact ⟨Or.inl rfl, by simp [function_base.empty, VTablePtr.type]⟩
  · rename_i he
    cases h
    exact ⟨Or.inr rfl, by simpa [function_base.empty] using he⟩

theorem assign_vptr (env : Env σ A R) {c c1 : function_base σ} {w w1 : World σ} {f : Obj σ}
    (h : c.assign env f w = some (c1, w1)) :
    c1.vptr = get_vtable f.type ∨ c1.vptr = .empty_table ∨ c1 = c := by
  unfold function_base.assign at h
  split at h
  · split at h
    · rename_i hv
      split at h
      · cases h
      · cases h
        exact Or.inl hv
    · split at h
      · cases h
      · split at h
        · cases h
        · cases h
          exact Or.inl rfl
  · exact Or.inr (reset_result env h).1

theorem copy_ctor_vptr (env : Env σ A R) {s c : function_base σ} {w w1 : World σ}
    (h : function.copy_ctor env s w = some (c, w1)) : c.vptr = s.vptr := by
  unfold function.copy_ctor at h
  split at h
  · cases h
  · split at h
    · split at h
      · cases h
      · cases h
        rfl
    · cases h
      rfl

theorem copy_assign_vptr (env : Env σ A R) {c s c1 : function_base σ} {w w1 : World σ}
    (h : function.copy_assign env c s w = some (c1, w1)) : c1.vptr = s.vptr := by
  unfold function.copy_assign at h
  split at h
  · cases h
  · split at h
    · cases h
    · split at h
      · split at h
        · cases h
        · cases h
          rfl
      · cases h
        rfl

theorem load_vptr (env : Env σ A R) (registry : String → Option VTablePtr)
    {d d1 : function_base σ} {w w1 : World σ} {ar ar1 : List Tok} {r : Except Error Unit}
    (h : basic_function.load env registry d ar w = some (r, d1, w1, ar1)) :
    d1.vptr = .empty_table ∨ d1 = d ∨ ∃ name, registry name = some d1.vptr := by
  unfold basic_function.load at h
  split at h
  · cases h
  · rename_i r0 hr
    have hres := (reset_result env
      (show d.reset env w = some (r0.1, r0.2) from hr)).1
    split at h
    · cases h
      exact hres.elim Or.inl (fun e => Or.inr (Or.inl e))
    · split at h
      · split at h
        · cases h
          exact hres.elim Or.inl (fun e => Or.inr (Or.inl e))
        · rename_i n _
          cases hp : registry n.1 with
          | none =>
            simp only [get_table_ptr, hp] at h
            cases h
            exact hres.elim Or.inl (fun e => Or.inr (Or.inl e))
          | some p =>
            simp only [get_table_ptr, hp] at h
            cases h
            exact Or.inr (Or.inr ⟨n.1, hp⟩)
      · cases h
        exact hres.elim Or.inl (fun e => Or.inr (Or.inl e))

theorem adopt_vptr (env : Env σ A R) {st st1 : Nat → function_base σ} {i j : Nat}
    {family : function_base.Family} {w w1 : World σ}
    (h : function_base.assign_compatible env st i j family w = some (st1, w1)) (k : Nat) :
    st1 k = st k ∨ (st1 k).vptr = .empty_table ∨
      (k = i ∧ i ≠ j ∧ (st j).empty env = false ∧ (st1 k).vptr = (st j).vptr) ∨
      (k = j ∧ i ≠ j ∧ (st1 k).vptr = family.empty_table) := by
  unfold function_base.assign_compatible at h
  split at h
  · cases h
  · rename_i r hr
    obtain ⟨hres, hemp⟩ :=
      reset_result env (show (st i).reset env w = some (r.1, r.2) from hr)
    split at h
    · rename_i hc
      cases h
      by_cases hij : i = j
      · subst hij
        simp [hemp] at hc
      · have hji : j ≠ i := fun e => hij e.symm
        have hne : (st j).empty env = false := by
          simpa [Function.update, hji] using hc
        by_cases hkj : k = j
        · subst hkj
          exact Or.inr (Or.inr (Or.inr ⟨rfl, hij, by simp [Function.update]⟩))
        · by_cases hki : k = i
          · subst hki
            exact Or.inr (Or.inr (Or.inl ⟨rfl, hij, hne, by simp [Function.update, hkj, hji]⟩))
          · exact Or.inl (by simp [Function.update, hkj, hki])
    · cases h
      by_cases hki : k = i
      · subst hki
        rcases hres with h1 | h1
        · exact Or.inr (Or.inl (by simpa using h1))
        · exact Or.inl (by simpa using h1)
      · exact Or.inl (by simp [Function.update, hki])

theorem move_assign_vptr (env : Env σ A R) {st st1 : Nat → function_base σ} {i j : Nat}
    {w w1 : World σ} (h : function_base.operator_assign env st i j w = some (st1, w1))
    (k : Nat) :
    st1 k = st k ∨ (st1 k).vptr = .empty_table ∨ st1 k = st j ∨ st1 k = st i := by
  unfold function_base.operator_assign at h
  split at h
  · rename_i hij
    unfold function_base.move_assign at h
    split at h
    · cases h
    · rename_i q hq
      split at hq
      · cases hq
      · rename_i r hr
        cases hq
        cases h
        have hres := (reset_result env
          (show (st i).reset env w = some (r.1, r.2) from hr)).1
        by_cases hkj : k = j
        · subst hkj
          rcases hres with h1 | h1
          · exact Or.inr (Or.inl (by simpa [Function.update] using h1))
          · exact Or.inr (Or.inr (Or.inr (by simpa [Function.update] using h1)))
        · by_cases hki : k = i
          · subst hki
            exact Or.inr (Or.inr (Or.inl (by simp [Function.update, hkj, function_base.swap])))
          · exact Or.inl (by simp [Function.update, hkj, hki])
  · cases h
    exact Or.inl rfl

theorem copy_assign_store_vptr (env : Env σ A R) {st st1 : Nat → function_base σ} {i j : Nat}
    {w w1 : World σ} (h : function.operator_assign env st i j w = some (st1, w1))
    (k : Nat) : st1 k = st k ∨ (st1 k).vptr = (st j).vptr := by
  unfold function.operator_assign at h
  split at h
  · split at h
    · cases h
    · rename_i r hr
      cases h
      by_cases hki : k = i
      · subst hki
        exact Or.inr (by
          simpa [Function.update] using
            copy_assign_vptr env (show function.copy_assign env (st k) (st j) w =
              some (r.1, r.2) from hr))
      · exact Or.inl (by simp [Function.update, hki])
  · cases h
    exact Or.inl rfl

/-- Every reachable container is bound to one of its class's tables, or, in a
program that adopts from the second class, to a table taken from a container
of that class that was not empty. -/
theorem reachable_own_table (env : Env σ A R) (registry : String → Option VTablePtr)
    (hreg : ∀ name p, registry name = some p → ∃ T, p = get_vtable T)
    {b : Bool} {c : function_base σ} (h : Reachable env registry b c) :
    OwnTable b c.vptr := by
  induction h with
  | ctor w => exact Or.inl (by simp [ctor_eq])
  | assign f _ h ih =>
    rcases assign_vptr env h with h1 | h1 | h1
    · exact Or.inr (Or.inl ⟨_, h1⟩)
    · exact Or.inl h1
    · rw [h1]
      exact ih
  | adopt_same i j k _ h ih =>
    rcases adopt_vptr env h k with h1 | h1 | ⟨_, _, _, h1⟩ | ⟨_, _, h1⟩
    · rw [h1]
      exact ih k
    · exact Or.inl h1
    · rw [h1]
      exact ih j
    · exact Or.inl h1
  | adopt_other i j o hij _ _ hj h ih iho =>
    rcases adopt_vptr env h i with h1 | h1 | ⟨_, _, hne, h1⟩ | ⟨h2, _, _⟩
    · rw [h1]
      exact ih
    · exact Or.inl h1
    · rw [h1, hj]
      rw [empty_eq_false_iff, hj] at hne
      rcases iho with ho | ⟨T, ho⟩ | ⟨hb, _⟩
      · rw [ho] at hne
        exact absurd rfl hne
      · rw [ho] at hne ⊢
        exact Or.inr (Or.inr ⟨rfl, T, hne, rfl⟩)
      · cases hb
    · exact absurd h2 hij
  | reset _ h ih =>
    rcases (reset_result env h).1 with h1 | h1
    · exact Or.inl h1
    · rw [h1]
      exact ih
  | swap_left _ _ _ ihb => exact ihb
  | swap_right _ _ iha _ => exact iha
  | move_ctor_target w _ ih => exact ih
  | move_ctor_source w _ _ => exact Or.inl rfl
  | move_assign i j k _ h ih =>
    rcases move_assign_vptr env h k with h1 | h1 | h1 | h1
    · rw [h1]
      exact ih k
    · exact Or.inl h1
    · rw [h1]
      exact ih j
    · rw [h1]
      exact ih i
  | copy_ctor _ h ih =>
    rw [copy_ctor_vptr env h]
    exact ih
  | copy_assign i j k _ h ih =>
    rcases copy_assign_store_vptr env h k with h1 | h1
    · rw [h1]
      exact ih k
    · rw [h1]
      exact ih j
  | load _ h ih =>
    rcases load_vptr env registry h with h1 | h1 | ⟨name, h1⟩
    · exact Or.inl h1
    · rw [h1]
      exact ih
    · obtain ⟨T, hT⟩ := hreg name _ h1
      exact Or.inr (Or.inl ⟨T, hT⟩)

theorem sampleRegistry_own :
    ∀ name p, sampleRegistry name = some p → ∃ T, p = get_vtable T := by
  intro name p h
  unfold sampleRegistry at h
  split_ifs at h <;> cases h <;> exact ⟨_, rfl⟩

theorem reachable_sampleAdder : Reachable sampleEnv sampleRegistry true sampleAdder :=
  Reachable.assign (.user 0 3) (Reachable.ctor World.start)
    (show (function_base.ctor sampleEnv World.start).1.assign sampleEnv (.user 0 3)
        (function_base.ctor sampleEnv World.start).2 =
      some (sampleAdder, ⟨[], [.default_ctor .empty_function, .dtor .empty_function,
        .ctor (.user 0)]⟩) by decide)

/-- A container value that is not reachable: one bound to the `empty_table` of
the second class. The adopting `assign` takes a table of the second class only
from a source that is not empty. -/
theorem unreachable_other_empty_table (v : Slot Nat) :
    ¬ Reachable sampleEnv sampleRegistry true ⟨.other_empty_table, v⟩ := by
  intro h
  rcases reachable_own_table sampleEnv sampleRegistry sampleRegistry_own h with
    h1 | ⟨T, h1⟩ | ⟨_, T, _, h1⟩
  · cases h1
  · cases h1
  · cases h1

/-- The adopting `assign` from the second class is reachable: the container
holding an `Adder(3)` adopts a container of the second class that holds an
`Adder(3)`, and ends bound to the second class's table singleton for `Adder`. -/
theorem reachable_adopted :
    Reachable sampleEnv sampleRegistry true
      (⟨get_vtable_other (.user 0), .obj (.user 0 3)⟩ : function_base Nat) :=
  Reachable.adopt_other 0 1 sampleAdder (by decide) reachable_sampleAdder
    (Reachable.assign (.user 0 3) (Reachable.ctor World.start)
      (show (function_base.ctor sampleEnv World.start).1.assign sampleEnv (.user 0 3)
          (function_base.ctor sampleEnv World.start).2 =
        some (sampleAdder, ⟨[], [.default_ctor .empty_function, .dtor .empty_function,
          .ctor (.user 0)]⟩) by decide))
    (show sampleAdoptStore 1 = ⟨sampleAdder.vptr.to_other, sampleAdder.object⟩ by decide)
    (show function_base.assign_compatible sampleEnv sampleAdoptStore 0 1 .other World.start =
        some (Function.update (Function.update (Function.update sampleAdoptStore 0
            ⟨.empty_table, .obj .empty_function⟩) 0
            ⟨get_vtable_other (.user 0), .obj (.user 0 3)⟩) 1
            ⟨.other_empty_table, .obj .empty_function⟩,
          ⟨[], [.dtor (.user 0), .default_ctor .empty_function,
            .default_ctor .empty_function]⟩) by
      simp [function_base.assign_compatible, function_base.reset, sampleAdoptStore,
        sampleAdder, vtable._delete, vtable._destruct, vtable.get, sampleEnv, Env.size_of,
        sizeof_void_ptr, get_vtable, get_vtable_other, VTablePtr.type, function_base.empty,
        World.start, World.record, function_base.Family.empty_table, Function.update])

/-- C16, as stated, fails at a container that was default-constructed and then
assigned a payload of type `empty_function`: it is reachable, `empty()` is
true, and it is bound to the table singleton for `empty_function`, which is
another object than the `empty_table` a default-constructed container is bound
to. -/
theorem reachable_not_empty_table :
    (function_base.ctor sampleEnv (World.start : World Nat)).1.vptr = .empty_table ∧
    (function_base.ctor sampleEnv World.start).1.assign sampleEnv .empty_function
        (function_base.ctor sampleEnv World.start).2 =
      some (⟨get_vtable .empty_function, .obj .empty_function⟩,
        ⟨[], [.default_ctor .empty_function, .dtor .empty_function,
          .ctor .empty_function]⟩) ∧
    Reachable sampleEnv sampleRegistry true
      (⟨get_vtable .empty_function, .obj .empty_function⟩ : function_base Nat) ∧
    function_base.empty sampleEnv
      (⟨get_vtable .empty_function, .obj .empty_function⟩ : function_base Nat) = true ∧
    (⟨get_vtable .empty_function, .obj .empty_function⟩ : function_base Nat).vptr ≠
      .empty_table :=
  ⟨by decide, by decide,
    Reachable.assign .empty_function (Reachable.ctor World.start)
      (show (function_base.ctor sampleEnv World.start).1.assign sampleEnv .empty_function
          (function_base.ctor sampleEnv World.start).2 =
        some (⟨get_vtable .empty_function, .obj .empty_function⟩,
          ⟨[], [.default_ctor .empty_function, .dtor .empty_function,
            .ctor .empty_function]⟩) by decide),
    by decide, by decide⟩

/-- C16, amended. With a Registry whose entries are table singletons of the
class, every container reached from default construction through assign,
reset, swap, move, copy and load, the adopting `assign` from the second class
included, is bound to a static table, so its table pointer is never null: the
class's `empty_table`, one of the class's `get_vtable` singletons, or a
`get_vtable` singleton of the second class for a payload type other than
`empty_function`. And `empty()` is true (the boolean conversion false) exactly
when it is bound to one of the two tables of the class built for
`empty_function`: the `empty_table`, or the table singleton for
`empty_function` that `assign` binds for a payload of that type. -/
theorem reachable_empty_iff (env : Env σ A R) (registry : String → Option VTablePtr)
    (hreg : ∀ name p, registry name = some p → ∃ T, p = get_vtable T)
    (c : function_base σ) (h : Reachable env registry true c) :
    (c.vptr = .empty_table ∨ (∃ T, c.vptr = get_vtable T) ∨
      ∃ T, T ≠ .empty_function ∧ c.vptr = get_vtable_other T) ∧
    (c.empty env = true ↔
      c.vptr = .empty_table ∨ c.vptr = get_vtable .empty_function) ∧
    (c.operator_bool env = false ↔
      c.vptr = .empty_table ∨ c.vptr = get_vtable .empty_function) := by
  have hown := reachable_own_table env registry hreg h
  have hiff : c.empty env = true ↔
      c.vptr = .empty_table ∨ c.vptr = get_vtable .empty_function := by
    rw [empty_iff]
    rcases hown with h1 | ⟨T, h1⟩ | ⟨_, T, hT, h1⟩
    · simp [h1, VTablePtr.type]
    · simp [h1, VTablePtr.type, get_vtable]
    · simp [h1, VTablePtr.type, get_vtable, get_vtable_other, hT]
  refine ⟨?_, hiff, ?_⟩
  · rcases hown with h1 | h1 | ⟨_, h1⟩
    · exact Or.inl h1
    · exact Or.inr (Or.inl h1)
    · exact Or.inr (Or.inr h1)
  · rw [← hiff]
    simp [function_base.operator_bool]

/-- C16 amended, at the container holding an `Adder(3)`. -/
theorem reachable_empty_iff_witness :
    (∀ name p, sampleRegistry name = some p → ∃ T, p = get_vtable T) ∧
    Reachable sampleEnv sampleRegistry true sampleAdder ∧
    (sampleAdder.vptr = .empty_table ∨ (∃ T, sampleAdder.vptr = get_vtable T) ∨
      ∃ T, T ≠ .empty_function ∧ sampleAdder.vptr = get_vtable_other T) ∧
    (sampleAdder.empty sampleEnv = true ↔
      sampleAdder.vptr = .empty_table ∨ sampleAdder.vptr = get_vtable .empty_function) ∧
    (sampleAdder.operator_bool sampleEnv = false ↔
      sampleAdder.vptr = .empty_table ∨ sampleAdder.vptr = get_vtable .empty_function) :=
  ⟨sampleRegistry_own, reachable_sampleAdder,
    reachable_empty_iff sampleEnv sampleRegistry sampleRegistry_own sampleAdder
      reachable_sampleAdder⟩

/-! ## assign: foreign payloads and the adopt path -/

/-- C12, as stated, fails at a payload of type `empty_function`: it is not a
container and not a null pointer, the container is bound to the table of its
type, and `empty()` is true afterwards. -/
theorem assign_empty_function_payload :
    is_empty_function sampleEnv (Obj.empty_function : Obj Nat) = false ∧
    sampleAdder.assign sampleEnv .empty_function World.start =
      some (⟨get_vtable .empty_function, .obj .empty_function⟩,
        ⟨[], [.dtor (.user 0), .default_ctor .empty_function, .dtor .empty_function,
          .ctor .empty_function]⟩) ∧
    function_base.empty sampleEnv
      (⟨get_vtable .empty_function, .obj .empty_function⟩ : function_base Nat) = true := by
  decide

/-- Assigning a `BigAdder(20)` to the container that holds the boxed
`BigAdder(10)` takes the `reconstruct` path: the old object is destroyed but
its box stays allocated, and the new payload is built in a second box. -/
theorem assign_same_boxed_type :
    sampleBig.assign sampleEnv (.user 1 20) sampleWorld =
      some (⟨get_vtable (.user 1), .word 2⟩,
        ⟨[.destroyed, .live (.user 1 20)],
          [.dtor (.user 1), .op_new 2, .ctor (.user 1)]⟩) := by
  decide

/-- C12, amended. Assigning a payload `f` that is not a null pointer to a
well-formed container in any state is defined; afterwards the container is
bound to the table of `f`'s type, `target<T>()` for that type points to a
payload equal to `f`, and `empty()` is false unless `f` is an
`empty_function`. When the container was bound to that table already, the
table pointer is unchanged, the old payload's destructor runs once and `f` is
constructed once. Otherwise `reset()` runs first, deleting a payload the
container held, and then `f` is constructed once. -/
theorem assign_payload (env : Env σ A R) (c : function_base σ) (f : Obj σ) (w : World σ)
    (hv : c.valid env w) (hf : is_empty_function env f = false) :
    ∃ c1 w1, c.assign env f w = some (c1, w1) ∧
      c1.vptr = get_vtable f.type ∧
      (c1.empty env = false ↔ f.type ≠ .empty_function) ∧
      c1.target env f.type w1 = some (some f) ∧
      (c.vptr = get_vtable f.type →
        c1.vptr = c.vptr ∧
        (w.since w1).count (.dtor f.type) = 1 ∧ (w.since w1).count (.ctor f.type) = 1) ∧
      (c.vptr ≠ get_vtable f.type →
        (∃ c0 w0, c.reset env w = some (c0, w0) ∧
          (w0.since w1).count (.ctor f.type) = 1) ∧
        (w.since w1).count (.ctor f.type) = 1 ∧
        (c.empty env = false → (w.since w1).count (.dtor c.vptr.type) = 1)) := by
  obtain ⟨c1, w1, ha, hp, hpay, hsame, hdiff⟩ := assign_spec env c f w hv hf
  have hget : vtable.get env f.type c1.object w1 = some f := by
    unfold function_base.payload at hpay
    rw [hp] at hpay
    exact hpay
  refine ⟨c1, w1, ha, hp, ?_, ?_, ?_, ?_⟩
  · simp [function_base.empty, hp, get_vtable, VTablePtr.type]
  · simp [function_base.target, hp, get_vtable, VTablePtr.type, hget]
  · intro h
    obtain ⟨_, w0, hl0, _, hc⟩ := hsame h
    have hw1 : w1 = (vtable.construct env f.type c1.object f w0).2 := by rw [hc]
    refine ⟨by rw [hp, h], ?_⟩
    by_cases hs : env.size_of f.type ≤ sizeof_void_ptr
    · have hl := ((construct_world env f.type c1.object f w0).1 hs).1
      have : w.since w1 = [.dtor f.type, .ctor f.type] :=
        since_of_log (by rw [hw1, hl, hl0]; simp)
      simp [this]
    · have hl := ((construct_world env f.type c1.object f w0).2 hs).2.1
      have : w.since w1 = [.dtor f.type, .op_new (w0.heap.length + 1), .ctor f.type] :=
        since_of_log (by rw [hw1, hl, hl0]; simp)
      simp [this]
  · intro h
    obtain ⟨c0, w0, hr, hc⟩ := hdiff h
    obtain ⟨l, hl, hctor, _, _, _, hcount⟩ := reset_trace env c w hv hr
    have hw1 : w1 = (vtable.construct env f.type .dead f
        (w0.record (.dtor .empty_function))).2 := by rw [hc]
    by_cases hs : env.size_of f.type ≤ sizeof_void_ptr
    · have hl1 := ((construct_world env f.type .dead f
          (w0.record (.dtor .empty_function))).1 hs).1
      have h0 : w0.since w1 = [.dtor .empty_function, .ctor f.type] :=
        since_of_log (by rw [hw1, hl1]; simp [World.record])
      have h1 : w.since w1 = l ++ [.dtor .empty_function, .ctor f.type] :=
        since_of_log (by rw [hw1, hl1]; simp [World.record, hl])
      refine ⟨⟨c0, w0, hr, by simp [h0]⟩, ?_, ?_⟩
      · rw [h1, List.count_append, List.count_eq_zero_of_not_mem (hctor f.type)]
        simp
      · intro he
        have hne := (empty_eq_false_iff env c).1 he
        rw [h1, List.count_append, hcount he]
        simp [hne]
    · have hl1 := ((construct_world env f.type .dead f
          (w0.record (.dtor .empty_function))).2 hs).2.1
      have h0 : w0.since w1 = [.dtor .empty_function,
          .op_new ((w0.record (.dtor .empty_function)).heap.length + 1), .ctor f.type] :=
        since_of_log (by rw [hw1, hl1]; simp [World.record])
      have h1 : w.since w1 = l ++ [.dtor .empty_function,
          .op_new ((w0.record (.dtor .empty_function)).heap.length + 1), .ctor f.type] :=
        since_of_log (by rw [hw1, hl1]; simp [World.record, hl])
      refine ⟨⟨c0, w0, hr, by simp [h0]⟩, ?_, ?_⟩
      · rw [h1, List.count_append, List.count_eq_zero_of_not_mem (hctor f.type)]
        simp
      · intro he
        have hne := (empty_eq_false_iff env c).1 he
        rw [h1, List.count_append, hcount he]
        simp [hne]

/-- C12 amended, at the boxed `BigAdder(10)` assigned an `Adder(3)`. -/
theorem assign_payload_witness :
    sampleBig.valid sampleEnv sampleWorld ∧
    is_empty_function sampleEnv (.user 0 3) = false ∧
    ∃ c1 w1, sampleBig.assign sampleEnv (.user 0 3) sampleWorld = some (c1, w1) ∧
      c1.vptr = get_vtable (Obj.user 0 3 : Obj Nat).type ∧
      (c1.empty sampleEnv = false ↔ (Obj.user 0 3 : Obj Nat).type ≠ .empty_function) ∧
      c1.target sampleEnv (Obj.user 0 3 : Obj Nat).type w1 = some (some (.user 0 3)) ∧
      (sampleBig.vptr = get_vtable (Obj.user 0 3 : Obj Nat).type →
        c1.vptr = sampleBig.vptr ∧
        (sampleWorld.since w1).count (.dtor (Obj.user 0 3 : Obj Nat).type) = 1 ∧
        (sampleWorld.since w1).count (.ctor (Obj.user 0 3 : Obj Nat).type) = 1) ∧
      (sampleBig.vptr ≠ get_vtable (Obj.user 0 3 : Obj Nat).type →
        (∃ c0 w0, sampleBig.reset sampleEnv sampleWorld = some (c0, w0) ∧
          (w0.since w1).count (.ctor (Obj.user 0 3 : Obj Nat).type) = 1) ∧
        (sampleWorld.since w1).count (.ctor (Obj.user 0 3 : Obj Nat).type) = 1 ∧
        (sampleBig.empty sampleEnv = false →
          (sampleWorld.since w1).count (.dtor sampleBig.vptr.type) = 1)) :=
  ⟨by decide, by decide,
    assign_payload sampleEnv sampleBig (.user 0 3) sampleWorld (by decide) (by decide)⟩

/-- C13, as stated, fails at an empty source: a default-constructed container
of the second class is adopted by the container holding an `Adder(3)`. The
target is reset and stays bound to its own `empty_table`, not to the source's
table, and the source is left as it was. -/
theorem adopt_empty_source :
    function_base.empty sampleEnv (sampleOtherStore 1) = true ∧
    (function_base.assign_compatible sampleEnv sampleOtherStore 0 1 .other World.start).map
        (fun r => (r.1 0, r.1 1, r.2)) =
      some (⟨.empty_table, .obj .empty_function⟩, ⟨.other_empty_table, .obj .empty_function⟩,
        ⟨[], [.dtor (.user 0), .default_ctor .empty_function]⟩) ∧
    (⟨.empty_table, .obj .empty_function⟩ : function_base Nat).vptr ≠
      (sampleOtherStore 1).vptr := by
  decide

/-- The call `f.assign(std::move(f))` on the container holding an `Adder(3)`:
`reset()` runs first, `other.empty()` is then true of the same object, nothing
is taken, and the container ends empty, not with its former table and slot. -/
theorem adopt_self :
    function_base.empty sampleEnv (sampleStore 0) = false ∧
    (function_base.assign_compatible sampleEnv sampleStore 0 0 .same World.start).map
        (fun r => (r.1 0, r.2)) =
      some (⟨.empty_table, .obj .empty_function⟩,
        ⟨[], [.dtor (.user 0), .default_ctor .empty_function]⟩) := by
  decide

/-- C13, amended. The adopting `assign` on a well-formed target `c`, the
containers being the objects at addresses `i` and `j` of a store, is defined
and first resets `c`, deleting a payload it held: its destructor runs exactly
once and, when it was boxed, its box is freed. Every container but `c` and the
source `o` is as before, and no payload is constructed or copied. When `o` is
another object than `c` and is not empty, `c` then has exactly `o`'s former
table pointer and slot, and `o` is bound to the `empty_table` of its class with
an `empty_function` in its slot, so it is empty; beyond the reset the only
event is the default construction of that `empty_function`. When `o` is empty
or is `c` itself, `c` is left as `reset()` left it, empty, and an `o` other
than `c` is as before. -/
theorem adopt_spec (env : Env σ A R) (st : Nat → function_base σ) (i j : Nat)
    (family : function_base.Family) (w : World σ) (hv : (st i).valid env w) :
    ∃ c0 w0 st1 w1, (st i).reset env w = some (c0, w0) ∧
      function_base.assign_compatible env st i j family w = some (st1, w1) ∧
      (∀ k, k ≠ i → k ≠ j → st1 k = st k) ∧
      (∀ T, Event.ctor T ∉ w.since w1) ∧ (∀ T, Event.copy_ctor T ∉ w.since w1) ∧
      ((st i).empty env = false →
        (w.since w1).count (.dtor (st i).vptr.type) = 1 ∧
        (¬ env.size_of (st i).vptr.type ≤ sizeof_void_ptr →
          ∃ p, (st i).object = .word p ∧ w1.box p = some .freed)) ∧
      (i ≠ j → (st j).empty env = false →
        (st1 i).vptr = (st j).vptr ∧ (st1 i).object = (st j).object ∧
        (st1 j).vptr = family.empty_table ∧ (st1 j).object = .obj .empty_function ∧
        (st1 j).empty env = true ∧
        w1 = w0.record (.default_ctor .empty_function)) ∧
      ((i = j ∨ (st j).empty env = true) →
        st1 i = c0 ∧ (st1 i).empty env = true ∧ (i ≠ j → st1 j = st j) ∧ w1 = w0 ∧
        ((st i).empty env = true → st1 i = st i) ∧
        ((st i).empty env = false → (st1 i).vptr = .empty_table)) := by
  obtain ⟨c0, w0, hr, he0, _, hemp, hne⟩ := reset_spec env (st i) w hv
  obtain ⟨l, hl, hctor, hcopy, _, _, hcount⟩ := reset_trace env (st i) w hv hr
  have hbox : (st i).empty env = false → ¬ env.size_of (st i).vptr.type ≤ sizeof_void_ptr →
      ∃ p, (st i).object = .word p ∧ w0.box p = some .freed := by
    intro he hs
    obtain ⟨_, _, hb⟩ := hne he
    obtain ⟨p, hp, hfreed, _, _⟩ := hb hs
    exact ⟨p, hp, hfreed⟩
  have hc0 : ((st i).empty env = true → c0 = st i) ∧
      ((st i).empty env = false → c0.vptr = .empty_table) :=
    ⟨fun he => (hemp he).1, fun he => by rw [(hne he).1]⟩
  have hkeep : i = j ∨ (st j).empty env = true →
      (Function.update st i c0 j).empty env = true := by
    intro h
    by_cases hij : i = j
    · subst hij
      simpa using he0
    · have hji : j ≠ i := fun e => hij e.symm
      rcases h with h | h
      · exact absurd h hij
      · simpa [Function.update, hji] using h
  by_cases hstay : i = j ∨ (st j).empty env = true
  · have hk := hkeep hstay
    refine ⟨c0, w0, Function.update st i c0, w0, hr, ?_, ?_, ?_, ?_, ?_, ?_, ?_⟩
    · simp [function_base.assign_compatible, hr, hk]
    · intro k hki _
      simp [Function.update, hki]
    · rw [since_of_log hl]
      exact hctor
    · rw [since_of_log hl]
      exact hcopy
    · intro he
      exact ⟨by rw [since_of_log hl]; exact hcount he, hbox he⟩
    · intro hij ho
      rcases hstay with h | h
      · exact absurd h hij
      · rw [ho] at h
        cases h
    · intro _
      refine ⟨by simp, by simpa using he0, ?_, rfl, ?_, ?_⟩
      · intro hij
        have hji : j ≠ i := fun e => hij e.symm
        simp [Function.update, hji]
      · intro he
        simpa using hc0.1 he
      · intro he
        simpa using hc0.2 he
  · have hij : i ≠ j := fun e => hstay (Or.inl e)
    have hji : j ≠ i := fun e => hij e.symm
    have ho : (st j).empty env = false := by
      cases h : (st j).empty env with
      | true => exact absurd (Or.inr h) hstay
      | false => rfl
    have hk : (Function.update st i c0 j).empty env = false := by
      simpa [Function.update, hji] using ho
    have hl1 : (w0.record (.default_ctor .empty_function)).log =
        w.log ++ (l ++ [.default_ctor .empty_function]) := by
      simp [World.record, hl]
    refine ⟨c0, w0,
      Function.update (Function.update (Function.update st i c0) i
        ⟨(st j).vptr, (st j).object⟩) j ⟨family.empty_table, .obj .empty_function⟩,
      w0.record (.default_ctor .empty_function), hr, ?_, ?_, ?_, ?_, ?_, ?_, ?_⟩
    · simp [function_base.assign_compatible, hr, hk]
      simp [Function.update, hji]
    · intro k hki hkj
      simp [Function.update, hki, hkj]
    · intro T
      rw [since_of_log hl1]
      simp [hctor T]
    · intro T
      rw [since_of_log hl1]
      simp [hcopy T]
    · intro he
      refine ⟨?_, ?_⟩
      · rw [since_of_log hl1, List.count_append, hcount he]
        simp
      · intro hs
        obtain ⟨p, hp, hfreed⟩ := hbox he hs
        exact ⟨p, hp, by simpa [World.box, World.record] using hfreed⟩
    · intro _ _
      refine ⟨by simp [Function.update, hij], by simp [Function.update, hij],
        by simp [Function.update], by simp [Function.update], ?_, rfl⟩
      cases family <;>
        simp [Function.update, function_base.empty, function_base.Family.empty_table,
          VTablePtr.type]
    · intro h
      exact absurd h hstay

/-- C13 amended, at the container holding an `Adder(3)` adopting the container
that holds the boxed `BigAdder(10)`. -/
theorem adopt_spec_witness :
    (sampleStore 0).valid sampleEnv sampleWorld ∧
    ∃ c0 w0 st1 w1, (sampleStore 0).reset sampleEnv sampleWorld = some (c0, w0) ∧
      function_base.assign_compatible sampleEnv sampleStore 0 1 .same sampleWorld =
        some (st1, w1) ∧
      (∀ k, k ≠ 0 → k ≠ 1 → st1 k = sampleStore k) ∧
      (∀ T, Event.ctor T ∉ sampleWorld.since w1) ∧
      (∀ T, Event.copy_ctor T ∉ sampleWorld.since w1) ∧
      ((sampleStore 0).empty sampleEnv = false →
        (sampleWorld.since w1).count (.dtor (sampleStore 0).vptr.type) = 1 ∧
        (¬ sampleEnv.size_of (sampleStore 0).vptr.type ≤ sizeof_void_ptr →
          ∃ p, (sampleStore 0).object = .word p ∧ w1.box p = some .freed)) ∧
      ((0 : Nat) ≠ 1 → (sampleStore 1).empty sampleEnv = false →
        (st1 0).vptr = (sampleStore 1).vptr ∧ (st1 0).object = (sampleStore 1).object ∧
        (st1 1).vptr = function_base.Family.same.empty_table ∧
        (st1 1).object = .obj .empty_function ∧
        (st1 1).empty sampleEnv = true ∧
        w1 = w0.record (.default_ctor .empty_function)) ∧
      (((0 : Nat) = 1 ∨ (sampleStore 1).empty sampleEnv = true) →
        st1 0 = c0 ∧ (st1 0).empty sampleEnv = true ∧ ((0 : Nat) ≠ 1 → st1 1 = sampleStore 1) ∧
        w1 = w0 ∧
        ((sampleStore 0).empty sampleEnv = true → st1 0 = sampleStore 0) ∧
        ((sampleStore 0).empty sampleEnv = false → (st1 0).vptr = .empty_table)) :=
  ⟨by decide, adopt_spec sampleEnv sampleStore 0 1 .same sampleWorld (by decide)⟩

/-! ## A copy is independent of its source -/

theorem set_last {α : Type} (h : List α) (b x : α) : (h ++ [b]).set h.length x = h ++ [x] := by
  induction h with
  | nil => rfl
  | cons a t ih => simp [List.set, ih]

/-- Copy construction from a well-formed container holding `o`: the copy is
bound to the same table and holds a payload equal to `o`, inline with the free
store as before, or in one new box at the end of the free store. -/
theorem copy_ctor_spec (env : Env σ A R) (s : function_base σ) (w : World σ) {o : Obj σ}
    (ho : function_base.payload env s w = some o) :
    ∃ c w1, function.copy_ctor env s w = some (c, w1) ∧ c.vptr = s.vptr ∧
      vtable.get env s.vptr.type c.object w1 = some o ∧
      (env.size_of s.vptr.type ≤ sizeof_void_ptr → w1.heap = w.heap) ∧
      (¬ env.size_of s.vptr.type ≤ sizeof_void_ptr →
        c.object = .word (w.heap.length + 1) ∧ w1.heap = w.heap ++ [.live o]) := by
  unfold function_base.payload at ho
  cases he : s.empty env with
  | true =>
    have hT := (empty_iff env s).1 he
    refine ⟨⟨s.vptr, .dead⟩,
      (w.record (.default_ctor .empty_function)).record (.dtor .empty_function),
      ?_, rfl, ?_, fun _ => rfl, ?_⟩
    · simp [function.copy_ctor, ctor_eq, hT]
    · rw [hT] at ho ⊢
      simpa using ho
    · intro hs
      rw [hT] at hs
      exact absurd (size_of_empty_function env) hs
  | false =>
    have hT := (empty_eq_false_iff env s).1 he
    have ho1 : vtable.get env s.vptr.type s.object
        ((w.record (.default_ctor .empty_function)).record (.dtor .empty_function)) = some o :=
      (get_heap_congr env _ _ rfl).trans ho
    obtain ⟨v1, w1, hcopy, hget, hin, hbox⟩ := copy_of_get env .dead ho1
    refine ⟨⟨s.vptr, v1⟩, w1, ?_, rfl, hget, ?_, ?_⟩
    · simp [function.copy_ctor, ctor_eq, hT, hcopy]
    · intro hs
      simpa [World.record] using (hin hs).2.1
    · intro hs
      exact ⟨by simpa [World.record] using (hbox hs).1,
        by simpa [World.record] using (hbox hs).2.1⟩

/-- Writing through the reference to a payload that lives inline, or in the
last box of the free store, leaves every box before it as it was. -/
theorem put_fresh (env : Env σ A R) (T : Ty) (v : Slot σ) (o1 : Obj σ) (w1 : World σ)
    (h : List (Box σ)) (b : Box σ)
    (hin : env.size_of T ≤ sizeof_void_ptr → w1.heap = h)
    (hbox : ¬ env.size_of T ≤ sizeof_void_ptr → v = .word (h.length + 1) ∧ w1.heap = h ++ [b]) :
    ∃ extra, (vtable.put env T v o1 w1).2.heap = h ++ extra := by
  by_cases hs : env.size_of T ≤ sizeof_void_ptr
  · exact ⟨[], by simp [vtable.put, hs, hin hs]⟩
  · obtain ⟨hv, hh⟩ := hbox hs
    exact ⟨[.live o1], by simp [vtable.put, hs, hv, World.store, hh, set_last]⟩

/-- A container whose payload is read as `o` in two worlds returns the same
results in both. -/
theorem operator_call_congr (env : Env σ A R) (s : function_base σ) {w w2 : World σ}
    {o : Obj σ} (h : function_base.payload env s w = some o)
    (h2 : function_base.payload env s w2 = some o) (us : A) :
    (s.operator_call env us w2).map (fun x => x.1) =
      (s.operator_call env us w).map (fun x => x.1) := by
  obtain ⟨_, _, h1, _⟩ := operator_call_of_payload env s us w h
  obtain ⟨_, _, h3, _⟩ := operator_call_of_payload env s us w2 h2
  rw [h1, h3]
  rfl

/-- C11. Let `c` be copy-constructed from a well-formed container `s`. The
copy holds a payload equal to `s`'s, in its own slot or, for a boxed type, in a
box distinct from `s`'s. Invoking `c`, whatever the call does to `c`'s payload,
and assigning any value of the payload's type through `c.target<T>()`, are
defined, change `c`'s payload as the call or the assignment says, and leave the
payload of `s` and the result of invoking `s` with any arguments as they were
before the copy. -/
theorem copy_is_independent (env : Env σ A R) (s : function_base σ) (w : World σ)
    (hv : s.valid env w) :
    ∃ c w1, function.copy_ctor env s w = some (c, w1) ∧
      function_base.payload env c w1 = function_base.payload env s w ∧
      (¬ env.size_of s.vptr.type ≤ sizeof_void_ptr → c.object ≠ s.object) ∧
      (∀ vs, ∃ r c2 w2, c.operator_call env vs w1 = some (r, c2, w2) ∧
        function_base.payload env c2 w2 =
          (function_base.payload env s w).map (fun o => (invoke env o vs).2) ∧
        function_base.payload env s w2 = function_base.payload env s w ∧
        ∀ us, (s.operator_call env us w2).map (fun x => x.1) =
          (s.operator_call env us w).map (fun x => x.1)) ∧
      (∀ o1, o1.type = s.vptr.type →
        ∃ c2 w2, c.target_store env s.vptr.type o1 w1 = some (c2, w2) ∧
          function_base.payload env c2 w2 = some o1 ∧
          function_base.payload env s w2 = function_base.payload env s w ∧
          ∀ us, (s.operator_call env us w2).map (fun x => x.1) =
            (s.operator_call env us w).map (fun x => x.1)) := by
  obtain ⟨o, ho⟩ := Option.isSome_iff_exists.1 hv
  have hpay : function_base.payload env s w = some o := ho
  obtain ⟨c, w1, hcopy, hvp, hget, hin, hbox⟩ := copy_ctor_spec env s w hpay
  have hkeep : ∀ w2 : World σ, (∃ extra, w2.heap = w.heap ++ extra) →
      function_base.payload env s w2 = function_base.payload env s w := by
    intro w2 hext
    obtain ⟨extra, hextra⟩ := hext
    rw [hpay]
    exact get_heap_append env extra ho hextra
  have hbox1 : ¬ env.size_of s.vptr.type ≤ sizeof_void_ptr →
      c.object = .word (w.heap.length + 1) ∧ (w1.record (.call s.vptr.type)).heap =
        w.heap ++ [.live o] := fun hs => ⟨(hbox hs).1, (hbox hs).2⟩
  refine ⟨c, w1, hcopy, ?_, ?_, ?_, ?_⟩
  · rw [hpay]
    unfold function_base.payload
    rw [hvp]
    exact hget
  · intro hs
    obtain ⟨p, hp, hb⟩ := get_boxed env hs ho
    obtain ⟨_, hlt⟩ := box_lt w hb
    rw [(hbox hs).1, hp]
    intro heq
    cases heq
    omega
  · intro vs
    have hgetc : vtable.get env s.vptr.type c.object (w1.record (.call s.vptr.type)) = some o :=
      (get_record env _ _ _ _).trans hget
    cases o with
    | empty_function =>
      refine ⟨(invoke env .empty_function vs).1, ⟨c.vptr, c.object⟩,
        w1.record (.call s.vptr.type), ?_, ?_, ?_, ?_⟩
      · simp [function_base.operator_call, hvp, callable_vtable._invoke, hget]
      · rw [hpay]
        unfold function_base.payload
        rw [hvp]
        simpa [invoke] using hgetc
      · apply hkeep
        by_cases hs : env.size_of s.vptr.type ≤ sizeof_void_ptr
        · exact ⟨[], by simp [World.record, hin hs]⟩
        · exact ⟨_, (hbox1 hs).2⟩
      · intro us
        refine operator_call_congr env s hpay ?_ us
        rw [← hpay]
        apply hkeep
        by_cases hs : env.size_of s.vptr.type ≤ sizeof_void_ptr
        · exact ⟨[], by simp [World.record, hin hs]⟩
        · exact ⟨_, (hbox1 hs).2⟩
    | user n st =>
      have hext := put_fresh env s.vptr.type c.object (invoke env (.user n st) vs).2
        (w1.record (.call s.vptr.type)) w.heap (.live (.user n st))
        (fun hs => by simp [World.record, hin hs]) hbox1
      refine ⟨(invoke env (.user n st) vs).1,
        ⟨c.vptr, (vtable.put env s.vptr.type c.object (invoke env (.user n st) vs).2
          (w1.record (.call s.vptr.type))).1⟩,
        (vtable.put env s.vptr.type c.object (invoke env (.user n st) vs).2
          (w1.record (.call s.vptr.type))).2, ?_, ?_, hkeep _ hext, ?_⟩
      · simp [function_base.operator_call, hvp, callable_vtable._invoke, hget]
      · rw [hpay]
        unfold function_base.payload
        rw [hvp]
        exact get_put env hget rfl ((invoke_type env _ vs).trans (get_type_eq env hget))
      · intro us
        refine operator_call_congr env s hpay ?_ us
        rw [← hpay]
        exact hkeep _ hext
  · intro o1 ht
    have hext := put_fresh env s.vptr.type c.object o1 w1 w.heap (.live o)
      hin (fun hs => ⟨(hbox hs).1, (hbox hs).2⟩)
    refine ⟨⟨c.vptr, (vtable.put env s.vptr.type c.object o1 w1).1⟩,
      (vtable.put env s.vptr.type c.object o1 w1).2, ?_, ?_, hkeep _ hext, ?_⟩
    · simp [function_base.target_store, function_base.target, hvp, hget]
    · unfold function_base.payload
      rw [hvp]
      exact get_put env hget rfl ht
    · intro us
      refine operator_call_congr env s hpay ?_ us
      rw [← hpay]
      exact hkeep _ hext

/-- C11, at the container holding the boxed `BigAdder(10)`. -/
theorem copy_is_independent_witness :
    sampleBig.valid sampleEnv sampleWorld ∧
    ∃ c w1, function.copy_ctor sampleEnv sampleBig sampleWorld = some (c, w1) ∧
      function_base.payload sampleEnv c w1 =
        function_base.payload sampleEnv sampleBig sampleWorld ∧
      (¬ sampleEnv.size_of sampleBig.vptr.type ≤ sizeof_void_ptr →
        c.object ≠ sampleBig.object) ∧
      (∀ vs, ∃ r c2 w2, c.operator_call sampleEnv vs w1 = some (r, c2, w2) ∧
        function_base.payload sampleEnv c2 w2 =
          (function_base.payload sampleEnv sampleBig sampleWorld).map
            (fun o => (invoke sampleEnv o vs).2) ∧
        function_base.payload sampleEnv sampleBig w2 =
          function_base.payload sampleEnv sampleBig sampleWorld ∧
        ∀ us, (sampleBig.operator_call sampleEnv us w2).map (fun x => x.1) =
          (sampleBig.operator_call sampleEnv us sampleWorld).map (fun x => x.1)) ∧
      (∀ o1, o1.type = sampleBig.vptr.type →
        ∃ c2 w2, c.target_store sampleEnv sampleBig.vptr.type o1 w1 = some (c2, w2) ∧
          function_base.payload sampleEnv c2 w2 = some o1 ∧
          function_base.payload sampleEnv sampleBig w2 =
            function_base.payload sampleEnv sampleBig sampleWorld ∧
          ∀ us, (sampleBig.operator_call sampleEnv us w2).map (fun x => x.1) =
            (sampleBig.operator_call sampleEnv us sampleWorld).map (fun x => x.1)) :=
  ⟨by decide, copy_is_independent sampleEnv sampleBig sampleWorld (by decide)⟩

end util

/-! ## error_info.cpp -/

/-- C20. `get_error_process_id` returns the stored process id when the
exception carries one. When it carries none the code returns `-1`, not `0`:
for a `boost::exception` without the element, for a null `exception_ptr`, for
an `exception_ptr` holding an exception that is not a `boost::exception`, and
for an `error_code` without an exception. -/
theorem get_error_process_id_absent :
    get_error_process_id.of_boost_exception ⟨none, none, none, none, none⟩ = -1 ∧
    get_error_process_id.of_boost_exception ⟨none, none, none, none, none⟩ ≠ 0 ∧
    get_error_process_id.of_exception_ptr .null = -1 ∧
    get_error_process_id.of_exception_ptr .other = -1 ∧
    get_error_process_id.of_exception_ptr
      (.boost_exception ⟨none, none, none, none, none⟩) = -1 ∧
    get_error_process_id.of_exception
      ⟨some ⟨none, none, none, none, none⟩, ⟨1, .hpx_category⟩⟩ = .ok (-1) ∧
    get_error_process_id.of_error_code ⟨0, .hpx_category, .null⟩ = -1 ∧
    get_error_process_id.of_boost_exception ⟨some 4711, none, none, none, none⟩ = 4711 :=
  ⟨rfl, by decide, rfl, rfl, rfl, rfl, rfl, rfl⟩

/-- C21. `get_error_file_name` returns the stored file name when the exception
carries one, the `boost::throw_file` element first. When it carries neither
element the code returns the string `"<unknown>"`, not the empty string: for a
`boost::exception` without them, for a null `exception_ptr`, for an
`exception_ptr` holding an exception that is not a `boost::exception`, and for
an `error_code` without an exception. -/
theorem get_error_file_name_absent :
    get_error_file_name.of_boost_exception ⟨none, none, none, none, none⟩ = "<unknown>" ∧
    get_error_file_name.of_boost_exception ⟨none, none, none, none, none⟩ ≠ "" ∧
    get_error_file_name.of_exception_ptr .null = "<unknown>" ∧
    get_error_file_name.of_exception_ptr .other = "<unknown>" ∧
    get_error_file_name.of_exception
      ⟨some ⟨none, none, none, none, none⟩, ⟨1, .hpx_category⟩⟩ = .ok "<unknown>" ∧
    get_error_file_name.of_error_code ⟨1, .hpx_category, .null⟩ = "<unknown>" ∧
    get_error_file_name.of_boost_exception ⟨none, none, some "a.cpp", none, none⟩ = "a.cpp" ∧
    get_error_file_name.of_boost_exception ⟨none, none, none, some "b.cpp", none⟩ = "b.cpp" ∧
    get_error_file_name.of_boost_exception
      ⟨none, none, some "a.cpp", some "b.cpp", none⟩ = "a.cpp" :=
  ⟨rfl, by decide, rfl, rfl, rfl, rfl, rfl, rfl, rfl⟩

/-- C22. `get_error_env` returns the stored environment when the exception
carries one that is not empty. When it carries none, and also when the stored
string is empty, the code returns the string `"<unknown>"`, not the empty
string. -/
theorem get_error_env_absent :
    get_error_env.of_boost_exception ⟨none, none, none, none, none⟩ = "<unknown>" ∧
    get_error_env.of_boost_exception ⟨none, none, none, none, none⟩ ≠ "" ∧
    get_error_env.of_exception_ptr .null = "<unknown>" ∧
    get_error_env.of_exception_ptr .other = "<unknown>" ∧
    get_error_env.of_exception
      ⟨some ⟨none, none, none, none, none⟩, ⟨1, .hpx_category⟩⟩ = .ok "<unknown>" ∧
    get_error_env.of_error_code ⟨1, .hpx_category, .null⟩ = "<unknown>" ∧
    get_error_env.of_boost_exception ⟨none, some "", none, none, none⟩ = "<unknown>" ∧
    get_error_env.of_boost_exception ⟨none, some "PATH=/bin", none, none, none⟩ = "PATH=/bin" :=
  ⟨rfl, by decide, rfl, rfl, rfl, rfl, by decide, by decide⟩

/-- C23. `get_error_thread_id` returns the stored thread id when the exception
carries one, and `0` for a `boost::exception` that carries none. For a null
`exception_ptr`, for an `exception_ptr` holding an exception that is not a
`boost::exception`, and for an `error_code` without an exception, the code
returns `std::size_t(-1)`, not `0`. -/
theorem get_error_thread_id_absent :
    get_error_thread_id.of_exception_ptr .null = size_t_minus_one ∧
    get_error_thread_id.of_exception_ptr .null = 18446744073709551615 ∧
    get_error_thread_id.of_exception_ptr .null ≠ 0 ∧
    get_error_thread_id.of_exception_ptr .other = size_t_minus_one ∧
    get_error_thread_id.of_error_code ⟨1, .hpx_category, .null⟩ = size_t_minus_one ∧
    get_error_thread_id.of_boost_exception ⟨none, none, none, none, none⟩ = 0 ∧
    get_error_thread_id.of_exception_ptr
      (.boost_exception ⟨none, none, none, none, none⟩) = 0 ∧
    get_error_thread_id.of_exception
      ⟨some ⟨none, none, none, none, none⟩, ⟨1, .hpx_category⟩⟩ = .ok 0 ∧
    get_error_thread_id.of_boost_exception ⟨none, none, none, none, some 77⟩ = 77 :=
  ⟨rfl, by decide, by decide, rfl, rfl, rfl, rfl, rfl, rfl⟩

/-- C24. Assigning a success code to a distinct `error_code` leaves its value
`success` and takes the stored exception of the right-hand side. The category
is kept when it was the plain or the lightweight one; a left-hand side of the
rethrow category ends in the plain category, not in the one it had. -/
theorem error_code_assign_success (success : Int) :
    (sampleCodes success 0).category = get_hpx_rethrow_category ∧
    (sampleCodes success 1).value = success ∧
    (error_code.operator_assign success (sampleCodes success) 0 1 0).value = success ∧
    (error_code.operator_assign success (sampleCodes success) 0 1 0).category =
      get_hpx_category ∧
    (error_code.operator_assign success (sampleCodes success) 0 1 0).category ≠
      (sampleCodes success 0).category ∧
    (∀ lhs rhs : error_code, rhs.value = success →
      (error_code.assign_from success lhs rhs).value = success ∧
      (error_code.assign_from success lhs rhs).exception_ = rhs.exception_ ∧
      (lhs.category = get_hpx_category →
        (error_code.assign_from success lhs rhs).category = get_hpx_category) ∧
      (lhs.category = get_lightweight_hpx_category →
        (error_code.assign_from success lhs rhs).category = get_lightweight_hpx_category) ∧
      (lhs.category = get_hpx_rethrow_category →
        (error_code.assign_from success lhs rhs).category = get_hpx_category)) := by
  refine ⟨rfl, rfl, ?_, ?_, ?_, ?_⟩
  · simp [error_code.operator_assign, error_code.assign_from, sampleCodes,
      error_code.ctor_mode, make_success_code, make_system_error_code]
  · simp [error_code.operator_assign, error_code.assign_from, sampleCodes,
      error_code.ctor_mode, make_success_code, make_system_error_code, get_hpx_category_mode,
      throwmode.rethrow, throwmode.plain, throwmode.lightweight, throwmode.lightweight_rethrow,
      get_hpx_rethrow_category, get_lightweight_hpx_category]
  · simp [error_code.operator_assign, error_code.assign_from, sampleCodes,
      error_code.ctor_mode, make_success_code, make_system_error_code, get_hpx_category_mode,
      throwmode.rethrow, throwmode.plain, throwmode.lightweight, throwmode.lightweight_rethrow,
      get_hpx_rethrow_category, get_lightweight_hpx_category, get_hpx_category]
  · intro lhs rhs hr
    refine ⟨?_, ?_, ?_, ?_, ?_⟩
    · simp [error_code.assign_from, hr, make_success_code, error_code.ctor_mode,
        make_system_error_code]
    · simp [error_code.assign_from, hr]
    · intro h
      simp [error_code.assign_from, hr, h, make_success_code, error_code.ctor_mode,
        make_system_error_code, get_hpx_category_mode, throwmode.rethrow, throwmode.plain,
        throwmode.lightweight, throwmode.lightweight_rethrow, get_hpx_category,
        get_lightweight_hpx_category]
    · intro h
      simp [error_code.assign_from, hr, h, make_success_code, error_code.ctor_mode,
        make_system_error_code, get_hpx_category_mode, throwmode.rethrow, throwmode.plain,
        throwmode.lightweight, throwmode.lightweight_rethrow, get_lightweight_hpx_category]
    · intro h
      simp [error_code.assign_from, hr, h, make_success_code, error_code.ctor_mode,
        make_system_error_code, get_hpx_category_mode, throwmode.rethrow, throwmode.plain,
        throwmode.lightweight, throwmode.lightweight_rethrow, get_hpx_category,
        get_lightweight_hpx_category, get_hpx_rethrow_category]

/-- C25. `get_error_code(mode)` returns an `error_code` with the value of the
exception's code and the exception attached, and, for every `mode`, of the
plain category `hpx_category`: for `mode == rethrow` it is not of the category
`get_hpx_category(rethrow)`. -/
theorem get_error_code_ignores_mode (current_exception : exception → exception_ptr)
    (ex : exception) (mode : Nat) :
    (ex.get_error_code current_exception mode).value = ex.code.value ∧
    (ex.get_error_code current_exception mode).exception_ = current_exception ex ∧
    (ex.get_error_code current_exception mode).category = get_hpx_category ∧
    (ex.get_error_code current_exception throwmode.plain).category =
      get_hpx_category_mode throwmode.plain ∧
    (ex.get_error_code current_exception throwmode.rethrow).category = get_hpx_category ∧
    (ex.get_error_code current_exception throwmode.rethrow).category ≠
      get_hpx_category_mode throwmode.rethrow := by
  refine ⟨rfl, rfl, rfl, rfl, rfl, ?_⟩
  simp [exception.get_error_code, error_code.ctor_int_exception, get_hpx_category,
    get_hpx_category_mode, get_hpx_rethrow_category]

/-- C26. After `clear()` an `error_code`, whatever it held, has the value
`success` and the category `get_hpx_category()`, and its `exception_` is null. -/
theorem error_code_clear (success : Int) (ec : error_code) :
    (ec.clear success).value = success ∧
    (ec.clear success).category = get_hpx_category ∧
    (ec.clear success).exception_ = .null ∧
    detail.access_exception (ec.clear success) = .null :=
  ⟨rfl, rfl, rfl, rfl⟩

/-- C30. `get_hpx_category(mode)` is a total function of the mode: the rethrow
category for `rethrow`, the lightweight category for `lightweight` and for
`lightweight_rethrow`, and the generic HPX category for `plain` and for every
other value. An `error_code` constructed from a mode alone has the value
`success`, no exception, and the category of that mode: `hpx_category` for
`plain`, the rethrow category for `rethrow`. -/
theorem get_hpx_category_mode_spec (success : Int) (mode : Nat) :
    get_hpx_category_mode throwmode.rethrow = get_hpx_rethrow_category ∧
    get_hpx_category_mode throwmode.lightweight = get_lightweight_hpx_category ∧
    get_hpx_category_mode throwmode.lightweight_rethrow = get_lightweight_hpx_category ∧
    get_hpx_category_mode throwmode.plain = get_hpx_category ∧
    throwmode.lightweight_rethrow = 0x81 ∧
    ((mode ≠ throwmode.rethrow ∧ mode ≠ throwmode.lightweight ∧
        mode ≠ throwmode.lightweight_rethrow) →
      get_hpx_category_mode mode = get_hpx_category) ∧
    (error_code.ctor_mode success mode).value = success ∧
    (error_code.ctor_mode success mode).category = get_hpx_category_mode mode ∧
    (error_code.ctor_mode success mode).exception_ = .null ∧
    (error_code.ctor_mode success throwmode.plain).category = .hpx_category ∧
    (error_code.ctor_mode success throwmode.rethrow).category = .hpx_rethrow_category := by
  refine ⟨by decide, by decide, by decide, by decide, by decide, ?_, rfl, rfl, rfl,
    rfl, rfl⟩
  rintro ⟨h1, h2, h3⟩
  simp [get_hpx_category_mode, h1, h2, h3]

/-! ## The slot rule, move and copy assignment -/

namespace util

open detail

variable {σ A R : Type}

/-- C27. For every payload `x` of type `T`, constructing `x` into a slot and
reading the slot with `get<T>` yields `x`. The payload is inline in the slot
exactly when `sizeof(T) <= sizeof(void*)`, and otherwise in a fresh heap box
whose address the slot holds. `default_construct`, `_delete` and `_copy` decide
with the same test on `T`, whatever the value: `_delete` of an inline payload
is `_destruct` (one destructor call, heap untouched), `_delete` of a boxed one
runs the destructor and frees the box, and `_copy` makes an inline copy or a
second box. -/
theorem slot_rule (env : Env σ A R) (x : Obj σ) (v : Slot σ) (w : World σ) :
    vtable.get env x.type (vtable.construct env x.type v x w).1
      (vtable.construct env x.type v x w).2 = some x ∧
    ((vtable.construct env x.type v x w).1 = .obj x ↔
      env.size_of x.type ≤ sizeof_void_ptr) ∧
    ((vtable.construct env x.type v x w).1 = .word (w.heap.length + 1) ↔
      ¬ env.size_of x.type ≤ sizeof_void_ptr) ∧
    (∀ y : Obj σ, y.type = x.type →
      ((vtable.construct env x.type v y w).1 = .obj y ↔
        env.size_of x.type ≤ sizeof_void_ptr)) ∧
    (env.size_of x.type ≤ sizeof_void_ptr →
      (vtable.construct env x.type v x w).2.heap = w.heap ∧
      (vtable.default_construct env x.type v w).1 = .obj (env.value_init x.type) ∧
      (vtable.default_construct env x.type v w).2.heap = w.heap ∧
      vtable._delete env x.type (vtable.construct env x.type v x w).1
          (vtable.construct env x.type v x w).2 =
        vtable._destruct env x.type (vtable.construct env x.type v x w).1
          (vtable.construct env x.type v x w).2 ∧
      vtable._delete env x.type (vtable.construct env x.type v x w).1
          (vtable.construct env x.type v x w).2 =
        some (.dead, ⟨w.heap, w.log ++ [.ctor x.type, .dtor x.type]⟩) ∧
      copyable_vtable._copy env x.type v (vtable.construct env x.type v x w).1
          (vtable.construct env x.type v x w).2 =
        some (.obj x, ⟨w.heap, w.log ++ [.ctor x.type, .copy_ctor x.type]⟩)) ∧
    (¬ env.size_of x.type ≤ sizeof_void_ptr →
      (vtable.construct env x.type v x w).2.heap = w.heap ++ [.live x] ∧
      (vtable.construct env x.type v x w).2.box (w.heap.length + 1) = some (.live x) ∧
      (vtable.default_construct env x.type v w).1 = .word (w.heap.length + 1) ∧
      (vtable.default_construct env x.type v w).2.heap =
        w.heap ++ [.live (env.value_init x.type)] ∧
      vtable._delete env x.type (vtable.construct env x.type v x w).1
          (vtable.construct env x.type v x w).2 =
        some (.word (w.heap.length + 1), ⟨w.heap ++ [.freed],
          w.log ++ [.op_new (w.heap.length + 1), .ctor x.type, .dtor x.type,
            .op_delete (w.heap.length + 1)]⟩) ∧
      copyable_vtable._copy env x.type v (vtable.construct env x.type v x w).1
          (vtable.construct env x.type v x w).2 =
        some (.word (w.heap.length + 2), ⟨w.heap ++ [.live x, .live x],
          w.log ++ [.op_new (w.heap.length + 1), .ctor x.type,
            .op_new (w.heap.length + 2), .copy_ctor x.type]⟩)) := by
  have hg := get_construct env x v w
  refine ⟨hg, ?_, ?_, ?_, ?_, ?_⟩
  · by_cases hs : env.size_of x.type ≤ sizeof_void_ptr
    · simp [vtable.construct, hs]
    · simp [vtable.construct, hs, World.new]
  · by_cases hs : env.size_of x.type ≤ sizeof_void_ptr
    · simp [vtable.construct, hs]
    · simp [vtable.construct, hs, World.new]
  · intro y _
    by_cases hs : env.size_of x.type ≤ sizeof_void_ptr
    · simp [vtable.construct, hs]
    · simp [vtable.construct, hs, World.new]
  · intro hs
    have hc : vtable.construct env x.type v x w = (.obj x, w.record (.ctor x.type)) := by
      simp [vtable.construct, hs]
    rw [hc] at hg ⊢
    simp only [get_record] at hg
    have hg2 : ∀ l, vtable.get env x.type (.obj x) ⟨w.heap, l⟩ = some x :=
      fun l => (get_heap_congr env x.type (.obj x) rfl).trans hg
    refine ⟨rfl, ?_, ?_, ?_, ?_, ?_⟩
    · simp [vtable.default_construct, hs]
    · simp [vtable.default_construct, hs, World.record]
    · simp [vtable._delete, hs]
    · simp [vtable._delete, vtable._destruct, hs, hg2, World.record]
    · simp [copyable_vtable._copy, hs, hg2, World.record]
  · intro hs
    have hc : vtable.construct env x.type v x w =
        (.word (w.heap.length + 1), (w.new x).2.record (.ctor x.type)) := by
      simp [vtable.construct, hs, World.new]
    rw [hc] at hg ⊢
    simp only [get_record] at hg
    have hg2 : ∀ l, vtable.get env x.type (.word (w.heap.length + 1))
        ⟨w.heap ++ [.live x], l⟩ = some x :=
      fun l => (get_heap_congr env x.type (.word (w.heap.length + 1)) rfl).trans hg
    refine ⟨?_, ?_, ?_, ?_, ?_, ?_⟩
    · simp [World.new, World.record]
    · simp [World.new, World.record, World.box]
    · simp [vtable.default_construct, hs, World.new]
    · simp [vtable.default_construct, hs, World.new, World.record]
    · simp [vtable._delete, hs, hg2, World.record, World.store, World.new]
    · simp [copyable_vtable._copy, hs, hg2, World.record, World.new]

/-- C28. Move assignment `a = move(b)` on a well-formed `a`, the containers
being the objects at addresses `i` and `j` of a store. When the addresses
differ the assignment is defined and afterwards `b.empty()` is true, `a` is
what `b` was (its table pointer and its slot), every other container is as
before, and `b` is what `reset()` made of `a`'s former table and slot: no
payload is constructed or copied, nothing happens when `a` was empty, and
otherwise the destructor of `a`'s former payload runs exactly once and, when
that payload was boxed, its box is freed by exactly one `operator delete`.
When the addresses are equal, the store and the world are unchanged. -/
theorem move_assign_spec (env : Env σ A R) (st : Nat → function_base σ) (i j : Nat)
    (w : World σ) (hv : (st i).valid env w) :
    (i = j → function_base.operator_assign env st i j w = some (st, w)) ∧
    (i ≠ j → ∃ st1 w1, function_base.operator_assign env st i j w = some (st1, w1) ∧
      (st1 j).empty env = true ∧
      st1 i = st j ∧ (st1 i).vptr = (st j).vptr ∧ (st1 i).object = (st j).object ∧
      (∀ k, k ≠ i → k ≠ j → st1 k = st k) ∧
      (st i).reset env w = some (st1 j, w1) ∧
      (∀ T, Event.ctor T ∉ w.since w1) ∧ (∀ T, Event.copy_ctor T ∉ w.since w1) ∧
      ((st i).empty env = true → w1 = w) ∧
      ((st i).empty env = false →
        (w.since w1).count (.dtor (st i).vptr.type) = 1 ∧
        (env.size_of (st i).vptr.type ≤ sizeof_void_ptr → w1.heap = w.heap) ∧
        (¬ env.size_of (st i).vptr.type ≤ sizeof_void_ptr →
          ∃ p, (st i).object = .word p ∧ w1.box p = some .freed ∧
            (w.since w1).count (.op_delete p) = 1))) := by
  constructor
  · intro hij
    simp [function_base.operator_assign, hij]
  · intro hij
    obtain ⟨c1, w1, hr, he1, _, hemp, hne⟩ := reset_spec env (st i) w hv
    obtain ⟨l, hl, hct, hcp, _, _, hcount⟩ := reset_trace env (st i) w hv hr
    have hsw : (st i).swap (st j) = (st j, st i) := rfl
    have hji : j ≠ i := fun h => hij h.symm
    refine ⟨Function.update (Function.update st i (st j)) j c1, w1, ?_, ?_, ?_, ?_, ?_, ?_,
      ?_, ?_, ?_, ?_, ?_⟩
    · simp [function_base.operator_assign, hij, function_base.move_assign, hsw, hr]
    · simpa using he1
    · simp [Function.update, hij]
    · simp [Function.update, hij]
    · simp [Function.update, hij]
    · intro k hki hkj
      simp [Function.update, hki, hkj]
    · simpa using hr
    · intro T
      rw [since_of_log hl]
      exact hct T
    · intro T
      rw [since_of_log hl]
      exact hcp T
    · intro he
      exact (hemp he).2
    · intro he
      refine ⟨?_, ?_, ?_⟩
      · rw [since_of_log hl]
        exact hcount he
      · intro hs
        exact ((hne he).2.1 hs).1
      · intro hs
        obtain ⟨p, hp, hb, _, hlog⟩ := (hne he).2.2 hs
        refine ⟨p, hp, hb, ?_⟩
        rw [since_of_log hlog]
        simp

theorem move_assign_spec_witness :
    (sampleStore 1).valid sampleEnv sampleWorld ∧
    ((1 : Nat) = 0 → function_base.operator_assign sampleEnv sampleStore 1 0 sampleWorld =
      some (sampleStore, sampleWorld)) ∧
    ((1 : Nat) ≠ 0 → ∃ st1 w1,
      function_base.operator_assign sampleEnv sampleStore 1 0 sampleWorld = some (st1, w1) ∧
      (st1 0).empty sampleEnv = true ∧
      st1 1 = sampleStore 0 ∧ (st1 1).vptr = (sampleStore 0).vptr ∧
      (st1 1).object = (sampleStore 0).object ∧
      (∀ k, k ≠ 1 → k ≠ 0 → st1 k = sampleStore k) ∧
      (sampleStore 1).reset sampleEnv sampleWorld = some (st1 0, w1) ∧
      (∀ T, Event.ctor T ∉ sampleWorld.since w1) ∧
      (∀ T, Event.copy_ctor T ∉ sampleWorld.since w1) ∧
      ((sampleStore 1).empty sampleEnv = true → w1 = sampleWorld) ∧
      ((sampleStore 1).empty sampleEnv = false →
        (sampleWorld.since w1).count (.dtor (sampleStore 1).vptr.type) = 1 ∧
        (sampleEnv.size_of (sampleStore 1).vptr.type ≤ sizeof_void_ptr →
          w1.heap = sampleWorld.heap) ∧
        (¬ sampleEnv.size_of (sampleStore 1).vptr.type ≤ sizeof_void_ptr →
          ∃ p, (sampleStore 1).object = .word p ∧ w1.box p = some .freed ∧
            (sampleWorld.since w1).count (.op_delete p) = 1))) :=
  ⟨by decide, move_assign_spec sampleEnv sampleStore 1 0 sampleWorld (by decide)⟩

/-! ### Copy assignment -/

/-- Overwriting one cell of the free store leaves every payload that does not
live in that cell as it was. -/
theorem get_set_other (env : Env σ A R) {T : Ty} {v : Slot σ} {w w0 : World σ} {o : Obj σ}
    (p : Nat) (b : Box σ) (h : vtable.get env T v w = some o)
    (hw : w0.heap = w.heap.set (p - 1) b) (hp : p ≠ 0)
    (hne : ¬ env.size_of T ≤ sizeof_void_ptr → v ≠ .word p) :
    vtable.get env T v w0 = some o := by
  by_cases hs : env.size_of T ≤ sizeof_void_ptr
  · rw [← h]
    simp [vtable.get, hs]
  · obtain ⟨q, rfl, hb⟩ := get_boxed env hs h
    obtain ⟨hq, _⟩ := box_lt w hb
    have ht := get_type_eq env h
    have hqp : q ≠ p := fun e => hne hs (by rw [e])
    have hidx : p - 1 ≠ q - 1 := by omega
    have hb1 : w0.box q = some (.live o) := by
      rw [← hb]
      simp [World.box, hq, hw, List.getElem?_set_ne hidx]
    simp [vtable.get, hs, hb1, ht]

/-- Boxes appended to the free store leave the cells before them as they were. -/
theorem box_heap_append (w w1 : World σ) {p : Nat} {b : Box σ} (extra : List (Box σ))
    (h : w.box p = some b) (hw : w1.heap = w.heap ++ extra) : w1.box p = some b := by
  obtain ⟨hp, hlt⟩ := box_lt w h
  rw [← h]
  simp [World.box, hp, hw, List.getElem?_append_left hlt]

/-- What `reset()` of a well-formed container `a` leaves of the payload of
another container `s` that does not live in `a`'s box: it is as before, and
the free store has as many cells as before. -/
theorem reset_keeps (env : Env σ A R) (a s : function_base σ) (w : World σ) {os : Obj σ}
    {a0 : function_base σ} {w0 : World σ}
    (ha : a.valid env w) (hos : vtable.get env s.vptr.type s.object w = some os)
    (hsep : ¬ env.size_of a.vptr.type ≤ sizeof_void_ptr →
      ¬ env.size_of s.vptr.type ≤ sizeof_void_ptr → a.object ≠ s.object)
    (hr : a.reset env w = some (a0, w0)) :
    vtable.get env s.vptr.type s.object w0 = some os ∧ w0.heap.length = w.heap.length := by
  obtain ⟨a1, w1, hr1, _, _, hemp, hne⟩ := reset_spec env a w ha
  rw [hr] at hr1
  cases hr1
  cases he : a.empty env with
  | true =>
    obtain ⟨_, hw⟩ := hemp he
    subst hw
    exact ⟨hos, rfl⟩
  | false =>
    obtain ⟨_, hin, hbox⟩ := hne he
    by_cases hs : env.size_of a.vptr.type ≤ sizeof_void_ptr
    · obtain ⟨hh, _⟩ := hin hs
      exact ⟨(get_heap_congr env _ _ hh).trans hos, by rw [hh]⟩
    · obtain ⟨p, hp, hb, hh, _⟩ := hbox hs
      obtain ⟨hp0, _⟩ := box_lt w0 hb
      refine ⟨get_set_other env p .freed hos hh hp0 ?_, by simp [hh]⟩
      intro hss e
      exact hsep hs hss (by rw [hp, e])

/-- C29. Copy assignment `a = s` on well-formed containers, the objects at
addresses `i` and `j` of a store, where distinct containers with boxed payloads
own distinct boxes. When the addresses differ the assignment is defined and
afterwards every container but `a`, `s` among them, and the payload of `s` are
as before, `a.empty()` equals `s.empty()`, `a` is bound to `s`'s table and
holds a payload equal to `s`'s, and `a` is the very container (table pointer
and slot) that copy construction from `s` produces. The copy entry runs exactly
once when `s` is not empty and not at all when it is empty. When `a` was not
empty the destructor of its former payload has run exactly once and, when that
payload was boxed, its box is freed. When the addresses are equal, the store
and the world are unchanged. -/
theorem copy_assign_spec (env : Env σ A R) (st : Nat → function_base σ) (i j : Nat)
    (w : World σ) (ha : (st i).valid env w) (hs : (st j).valid env w)
    (hsep : i ≠ j → ¬ env.size_of (st i).vptr.type ≤ sizeof_void_ptr →
      ¬ env.size_of (st j).vptr.type ≤ sizeof_void_ptr → (st i).object ≠ (st j).object) :
    (i = j → function.operator_assign env st i j w = some (st, w)) ∧
    (i ≠ j → ∃ st1 w1, function.operator_assign env st i j w = some (st1, w1) ∧
      (∀ k, k ≠ i → st1 k = st k) ∧
      function_base.payload env (st j) w1 = function_base.payload env (st j) w ∧
      (st1 i).empty env = (st j).empty env ∧
      (st1 i).vptr = (st j).vptr ∧
      function_base.payload env (st1 i) w1 = function_base.payload env (st j) w ∧
      (∃ c w2, function.copy_ctor env (st j) w = some (c, w2) ∧ st1 i = c ∧
        function_base.payload env c w2 = function_base.payload env (st1 i) w1) ∧
      ((st j).empty env = false →
        (w.since w1).count (.copy_ctor (st j).vptr.type) = 1) ∧
      ((st j).empty env = true → ∀ T, Event.copy_ctor T ∉ w.since w1) ∧
      ((st i).empty env = false →
        (w.since w1).count (.dtor (st i).vptr.type) = 1 ∧
        (¬ env.size_of (st i).vptr.type ≤ sizeof_void_ptr →
          ∃ p, (st i).object = .word p ∧ w1.box p = some .freed))) := by
  constructor
  · intro hij
    simp [function.operator_assign, hij]
  · intro hij
    obtain ⟨a0, w0, hr, _, _, _, hne⟩ := reset_spec env (st i) w ha
    obtain ⟨l, hl, _, hcp, _, _, hcount⟩ := reset_trace env (st i) w ha hr
    obtain ⟨os, hos⟩ := Option.isSome_iff_exists.1 hs
    obtain ⟨hos0, hlen⟩ := reset_keeps env (st i) (st j) w ha hos (hsep hij) hr
    have hTa : ∀ h : (st i).empty env = false, (st i).vptr.type ≠ .empty_function :=
      fun h => (empty_eq_false_iff env (st i)).1 h
    have hfreed : ∀ h : (st i).empty env = false,
        ¬ env.size_of (st i).vptr.type ≤ sizeof_void_ptr →
        ∃ p, (st i).object = .word p ∧ w0.box p = some .freed := by
      intro h hsz
      obtain ⟨p, hp, hb, _, _⟩ := (hne h).2.2 hsz
      exact ⟨p, hp, hb⟩
    cases he : (st j).empty env with
    | true =>
      have hT := (empty_iff env (st j)).1 he
      refine ⟨Function.update st i ⟨(st j).vptr, .dead⟩,
        w0.record (.dtor .empty_function), ?_, ?_, ?_, ?_, ?_, ?_, ?_, ?_, ?_, ?_⟩
      · simp [function.operator_assign, hij, function.copy_assign, hr, hT]
      · intro k hk
        simp [Function.update, hk]
      · simp [function_base.payload, hT]
      · simp [Function.update, function_base.empty, hT]
      · simp [Function.update]
      · simp [function_base.payload, Function.update, hT]
      · refine ⟨⟨(st j).vptr, .dead⟩,
          (w.record (.default_ctor .empty_function)).record (.dtor .empty_function),
          ?_, ?_, ?_⟩
        · simp [function.copy_ctor, ctor_eq, hT]
        · simp [Function.update]
        · simp [function_base.payload, Function.update, hT]
      · intro h
        cases h
      · intro _ T
        have hlog : (w0.record (.dtor .empty_function)).log =
            w.log ++ (l ++ [.dtor .empty_function]) := by
          simp [World.record, hl]
        rw [since_of_log hlog]
        simp [hcp T]
      · intro h
        have hlog : (w0.record (.dtor .empty_function)).log =
            w.log ++ (l ++ [.dtor .empty_function]) := by
          simp [World.record, hl]
        refine ⟨?_, ?_⟩
        · rw [since_of_log hlog]
          simp [List.count_append, hcount h, hTa h]
        · intro hsz
          obtain ⟨p, hp, hb⟩ := hfreed h hsz
          exact ⟨p, hp, by simpa [World.box, World.record] using hb⟩
    | false =>
      have hT := (empty_eq_false_iff env (st j)).1 he
      have hos1 : vtable.get env (st j).vptr.type (st j).object
          (w0.record (.dtor .empty_function)) = some os :=
        (get_heap_congr env _ _ rfl).trans hos0
      have hos2 : vtable.get env (st j).vptr.type (st j).object
          ((w.record (.default_ctor .empty_function)).record (.dtor .empty_function)) =
            some os :=
        (get_heap_congr env _ _ rfl).trans hos
      obtain ⟨v1, w1, hcopy, hget, hin, hbox⟩ := copy_of_get env .dead hos1
      obtain ⟨v2, w2, hcopy2, hget2, hin2, hbox2⟩ := copy_of_get env .dead hos2
      have hv : v1 = v2 := by
        by_cases hsz : env.size_of (st j).vptr.type ≤ sizeof_void_ptr
        · rw [(hin hsz).1, (hin2 hsz).1]
        · rw [(hbox hsz).1, (hbox2 hsz).1]
          simp [World.record, hlen]
      have hext : ∃ extra l1, w1.heap = w0.heap ++ extra ∧
          w1.log = w.log ++ (l ++ .dtor .empty_function :: l1) ∧
          l1.count (.copy_ctor (st j).vptr.type) = 1 ∧
          (∀ T, l1.count (.dtor T) = 0) := by
        by_cases hsz : env.size_of (st j).vptr.type ≤ sizeof_void_ptr
        · obtain ⟨_, hh, hlg⟩ := hin hsz
          exact ⟨[], [.copy_ctor (st j).vptr.type], by simpa [World.record] using hh,
            by simp [hlg, World.record, hl], by simp, by simp⟩
        · obtain ⟨_, hh, hlg⟩ := hbox hsz
          exact ⟨[.live os], [.op_new (w0.heap.length + 1), .copy_ctor (st j).vptr.type],
            by simpa [World.record] using hh,
            by simp [hlg, World.record, hl], by simp, by simp⟩
      obtain ⟨extra, l1, hheap, hlog, hc1, hd1⟩ := hext
      refine ⟨Function.update st i ⟨(st j).vptr, v1⟩, w1, ?_, ?_, ?_, ?_, ?_, ?_, ?_, ?_,
        ?_, ?_⟩
      · simp [function.operator_assign, hij, function.copy_assign, hr, hT, hcopy]
      · intro k hk
        simp [Function.update, hk]
      · unfold function_base.payload
        rw [hos]
        exact get_heap_append env extra hos0 hheap
      · simp [Function.update, function_base.empty, hT]
      · simp [Function.update]
      · simp only [function_base.payload, Function.update, dif_pos]
        rw [hos]
        simpa using hget
      · refine ⟨⟨(st j).vptr, v2⟩, w2, ?_, ?_, ?_⟩
        · simp [function.copy_ctor, ctor_eq, hT, hcopy2]
        · simp [Function.update, hv]
        · simp only [function_base.payload, Function.update, dif_pos]
          simp [hget2, hget]
      · intro _
        rw [since_of_log hlog]
        have h0 : l.count (.copy_ctor (st j).vptr.type) = 0 :=
          List.count_eq_zero.2 (hcp _)
        simp [List.count_append, List.count_cons, h0, hc1]
      · intro h
        cases h
      · intro h
        refine ⟨?_, ?_⟩
        · rw [since_of_log hlog]
          simp [List.count_append, List.count_cons, hcount h, hd1, hTa h]
        · intro hsz
          obtain ⟨p, hp, hb⟩ := hfreed h hsz
          exact ⟨p, hp, box_heap_append w0 w1 extra hb hheap⟩

theorem copy_assign_spec_witness :
    (sampleBigStore 0).valid sampleEnv sampleBoxes ∧
    (sampleBigStore 1).valid sampleEnv sampleBoxes ∧
    ((0 : Nat) ≠ 1 → ¬ sampleEnv.size_of (sampleBigStore 0).vptr.type ≤ sizeof_void_ptr →
      ¬ sampleEnv.size_of (sampleBigStore 1).vptr.type ≤ sizeof_void_ptr →
      (sampleBigStore 0).object ≠ (sampleBigStore 1).object) ∧
    ((0 : Nat) = 1 → function.operator_assign sampleEnv sampleBigStore 0 1 sampleBoxes =
      some (sampleBigStore, sampleBoxes)) ∧
    ((0 : Nat) ≠ 1 → ∃ st1 w1,
      function.operator_assign sampleEnv sampleBigStore 0 1 sampleBoxes = some (st1, w1) ∧
      (∀ k, k ≠ 0 → st1 k = sampleBigStore k) ∧
      function_base.payload sampleEnv (sampleBigStore 1) w1 =
        function_base.payload sampleEnv (sampleBigStore 1) sampleBoxes ∧
      (st1 0).empty sampleEnv = (sampleBigStore 1).empty sampleEnv ∧
      (st1 0).vptr = (sampleBigStore 1).vptr ∧
      function_base.payload sampleEnv (st1 0) w1 =
        function_base.payload sampleEnv (sampleBigStore 1) sampleBoxes ∧
      (∃ c w2, function.copy_ctor sampleEnv (sampleBigStore 1) sampleBoxes = some (c, w2) ∧
        st1 0 = c ∧
        function_base.payload sampleEnv c w2 = function_base.payload sampleEnv (st1 0) w1) ∧
      ((sampleBigStore 1).empty sampleEnv = false →
        (sampleBoxes.since w1).count (.copy_ctor (sampleBigStore 1).vptr.type) = 1) ∧
      ((sampleBigStore 1).empty sampleEnv = true →
        ∀ T, Event.copy_ctor T ∉ sampleBoxes.since w1) ∧
      ((sampleBigStore 0).empty sampleEnv = false →
        (sampleBoxes.since w1).count (.dtor (sampleBigStore 0).vptr.type) = 1 ∧
        (¬ sampleEnv.size_of (sampleBigStore 0).vptr.type ≤ sizeof_void_ptr →
          ∃ p, (sampleBigStore 0).object = .word p ∧ w1.box p = some .freed))) :=
  ⟨by decide, by decide, by decide,
    copy_assign_spec sampleEnv sampleBigStore 0 1 sampleBoxes (by decide) (by decide)
      (by decide)⟩

end util

end hpx
